import Mathlib

/-
  Verification development for the RTOS priority-inheritance scheduler.

  Shallow embedding of the C sources (task.c, scheduler.c, mutex.c,
  semaphore.c, rtos_time.c).  A C pointer to a registered task / mutex /
  semaphore is modelled as an index into the corresponding registry list held
  by the `Scheduler` record; the C null checks become index-validity guards.
  The timeline (event log) component is pure logging and is not modelled:
  every `timeline_record*` call in the source only appends to the log and
  mutates no scheduler, task, mutex or semaphore state.

  Machine integers: C `uint32_t` counters and `uint64_t` tick / time fields
  are modelled as `Nat` with explicit reduction modulo 2^32 / 2^64 at each
  arithmetic step; `int` priorities are modelled as `Int` (the source only
  assigns and compares priorities, so no `int` arithmetic can overflow).
-/

namespace RTOS

/-- Modulus of C `uint32_t` arithmetic. -/
def U32MOD : Nat := 4294967296

/-- Modulus of C `uint64_t` arithmetic. -/
def U64MOD : Nat := 18446744073709551616

/-- `UINT64_MAX`, the sentinel used by `check_deadlines`. -/
def U64MAX : Nat := U64MOD - 1

/-- The C `++` on a `uint32_t` counter. -/
def u32succ (n : Nat) : Nat := (n + 1) % U32MOD

/-- The C `++` on a `uint64_t` counter. -/
def u64succ (n : Nat) : Nat := (n + 1) % U64MOD

/-- The C cast `(int)x` applied to a `uint64_t` value (used by the
rate-monotonic auto-priority branch of `task_create`). -/
def intOfU64 (n : Nat) : Int :=
  let m := n % U32MOD
  if m < 2147483648 then (m : Int) else (m : Int) - (U32MOD : Int)

/-- task.h: task lifecycle states. -/
inductive TaskState where
  | READY
  | RUNNING
  | BLOCKED
  | SUSPENDED
  | TERMINATED
deriving DecidableEq, Repr

/-- scheduler.h: scheduling policy. -/
inductive SchedPolicy where
  | SCHED_PRIORITY
  | SCHED_RATE_MONOTONIC
deriving DecidableEq, Repr

/-- task.h `PRIORITY_IDLE`. -/
def PRIORITY_IDLE : Int := 255

/-- scheduler.h `MAX_READY_TASKS`. -/
def MAX_READY_TASKS : Nat := 64

/-- scheduler.h `MAX_ALL_TASKS`. -/
def MAX_ALL_TASKS : Nat := 64

/-- mutex.h `MUTEX_WAIT_QUEUE_CAP`. -/
def MUTEX_WAIT_QUEUE_CAP : Nat := 16

/-- semaphore.h `SEM_WAIT_QUEUE_CAP`. -/
def SEM_WAIT_QUEUE_CAP : Nat := 16

/-- task.h `TaskControlBlock`, without the fields that carry no semantic
content for the core (name string, function pointer, stack, id — the id of a
task is its index in the scheduler's registry, and ids are never reused). -/
structure TCB where
  state : TaskState := .READY
  priority : Int := 0
  original_priority : Int := 0
  priority_inherited : Bool := false
  period : Nat := 0
  relative_deadline : Nat := 0
  next_release : Nat := 0
  absolute_deadline : Nat := 0
  exec_time : Nat := 0
  wcet_observed : Nat := 0
  total_exec_time : Nat := 0
  invocations : Nat := 0
  deadline_misses : Nat := 0
  preemptions : Nat := 0
  priority_boosts : Nat := 0
  held_mutexes : List Nat := []
  blocked_on : Option Nat := none
  remaining_work : Nat := 0
  ready_since : Nat := 0
deriving DecidableEq, Repr

/-- mutex.h `Mutex` (name string dropped; the wait queue holds task ids). -/
structure Mutex where
  locked : Bool := false
  owner : Option Nat := none
  wait_queue : List Nat := []
deriving DecidableEq, Repr

/-- semaphore.h `Semaphore` (name string dropped). -/
structure Semaphore where
  count : Int := 0
  max_count : Int := 0
  wait_queue : List Nat := []
deriving DecidableEq, Repr

/-- scheduler.h `Scheduler`.  The mutexes and semaphores are heap objects in
C; here they live in registry lists so that the whole simulation state is one
value.  `idle_task` is the index of the idle task (0 after `scheduler_init`). -/
structure Scheduler where
  policy : SchedPolicy := .SCHED_PRIORITY
  priority_inheritance_enabled : Bool := true
  current_task : Option Nat := none
  idle_task : Nat := 0
  ready_queue : List Nat := []
  tasks : List TCB := []
  mutexes : List Mutex := []
  semaphores : List Semaphore := []
  system_ticks : Nat := 0
  context_switches : Nat := 0
deriving DecidableEq, Repr

/-- Default TCB returned when an index misses the registry (never reached
under the validity guards used by the operations). -/
def defaultTCB : TCB := {}

def taskAt (s : Scheduler) (i : Nat) : TCB := s.tasks.getD i defaultTCB

def setTask (s : Scheduler) (i : Nat) (t : TCB) : Scheduler :=
  { s with tasks := s.tasks.set i t }

def mutexAt (s : Scheduler) (i : Nat) : Mutex := s.mutexes.getD i {}

def setMutex (s : Scheduler) (i : Nat) (m : Mutex) : Scheduler :=
  { s with mutexes := s.mutexes.set i m }

def semAt (s : Scheduler) (i : Nat) : Semaphore := s.semaphores.getD i {}

def setSem (s : Scheduler) (i : Nat) (sem : Semaphore) : Scheduler :=
  { s with semaphores := s.semaphores.set i sem }

/-- The priority-ordered insertion scan shared (textually identical loops) by
scheduler.c `ready_queue_insert`, mutex.c `wait_queue_insert` and semaphore.c
`sem_wait_queue_insert`: place `tid` immediately before the first entry whose
priority number is strictly greater than `p`, hence after all entries of
priority equal to `p`. -/
def insertByPri (pri : Nat → Int) (p : Int) (tid : Nat) : List Nat → List Nat
  | [] => [tid]
  | j :: rest => if p < pri j then tid :: j :: rest else j :: insertByPri pri p tid rest

/-- scheduler.c `ready_queue_insert` (drops the insertion when the bounded
queue is full, as the source does after reporting to stderr). -/
def ready_queue_insert (s : Scheduler) (tid : Nat) : Scheduler :=
  if MAX_READY_TASKS ≤ s.ready_queue.length then s
  else
    let q := insertByPri (fun j => (taskAt s j).priority) ((taskAt s tid).priority) tid
      s.ready_queue
    { s with ready_queue := q }

/-- scheduler.c `ready_queue_remove`: removes the first occurrence of the
task (by identity). -/
def ready_queue_remove (s : Scheduler) (tid : Nat) : Scheduler :=
  { s with ready_queue := s.ready_queue.erase tid }

/-- task.c `task_set_state`. -/
def task_set_state (s : Scheduler) (tid : Nat) (new_state : TaskState) : Scheduler :=
  if tid < s.tasks.length then
    let t := taskAt s tid
    if t.state = new_state then s
    else
      let old := t.state
      let s1 := setTask s tid { t with state := new_state }
      let s2 := if old = .READY ∧ new_state ≠ .READY then ready_queue_remove s1 tid else s1
      if new_state = .READY ∧ old ≠ .READY then
        let s3 := setTask s2 tid { taskAt s2 tid with ready_since := s2.system_ticks }
        ready_queue_insert s3 tid
      else s2
  else s

/-- task.c `task_suspend`. -/
def task_suspend (s : Scheduler) (tid : Nat) : Scheduler :=
  if tid < s.tasks.length ∧ (taskAt s tid).state ≠ .TERMINATED then
    task_set_state s tid .SUSPENDED
  else s

/-- task.c `task_resume`. -/
def task_resume (s : Scheduler) (tid : Nat) : Scheduler :=
  if tid < s.tasks.length ∧ (taskAt s tid).state = .SUSPENDED then
    task_set_state s tid .READY
  else s

/-- task.c `task_terminate`. -/
def task_terminate (s : Scheduler) (tid : Nat) : Scheduler :=
  if tid < s.tasks.length then task_set_state s tid .TERMINATED else s

/-- task.c `task_set_priority`: sets the effective priority only (the
original priority is not touched) and re-sorts the ready queue. -/
def task_set_priority (s : Scheduler) (tid : Nat) (new_priority : Int) : Scheduler :=
  if tid < s.tasks.length then
    let t := taskAt s tid
    let s1 := setTask s tid { t with priority := new_priority }
    if t.state = .READY then ready_queue_insert (ready_queue_remove s1 tid) tid
    else s1
  else s

/-- task.c `task_add_held_mutex` (the growable array is a list here, so the
realloc path always succeeds). -/
def task_add_held_mutex (s : Scheduler) (tid mid : Nat) : Scheduler :=
  if tid < s.tasks.length then
    let t := taskAt s tid
    setTask s tid { t with held_mutexes := t.held_mutexes ++ [mid] }
  else s

/-- task.c `task_remove_held_mutex`: removes the first matching entry. -/
def task_remove_held_mutex (s : Scheduler) (tid mid : Nat) : Scheduler :=
  if tid < s.tasks.length then
    let t := taskAt s tid
    setTask s tid { t with held_mutexes := t.held_mutexes.erase mid }
  else s

/-- task.c `task_create` (registers the task, id = registry index, and
inserts it into the ready queue).  Returns the unchanged scheduler when the
registry is full, as the source does. -/
def task_create (s : Scheduler) (priority : Int) (period deadline wcet : Nat) : Scheduler :=
  if MAX_ALL_TASKS ≤ s.tasks.length then s
  else
    let rel := if 0 < deadline then deadline else period
    let pri : Int :=
      if s.policy = .SCHED_RATE_MONOTONIC ∧ 0 < period then intOfU64 period else priority
    let t : TCB :=
      { state := .READY
        priority := pri
        original_priority := pri
        priority_inherited := false
        period := period
        relative_deadline := rel
        next_release := (s.system_ticks + period) % U64MOD
        absolute_deadline := (s.system_ticks + rel) % U64MOD
        exec_time := 0
        wcet_observed := 0
        total_exec_time := 0
        invocations := 1
        deadline_misses := 0
        preemptions := 0
        priority_boosts := 0
        held_mutexes := []
        blocked_on := none
        remaining_work := wcet
        ready_since := s.system_ticks }
    let tid := s.tasks.length
    ready_queue_insert { s with tasks := s.tasks ++ [t] } tid

/-- scheduler.c `scheduler_get_next_task`: head of the ready queue, or the
idle task when the queue is empty. -/
def scheduler_get_next_task (s : Scheduler) : Nat :=
  match s.ready_queue.head? with
  | some j => j
  | none => s.idle_task

/-- scheduler.c `scheduler_context_switch`. -/
def scheduler_context_switch (s : Scheduler) (fromT : Option Nat) (toT : Nat) : Scheduler :=
  if fromT = some toT then s
  else
    let s1 :=
      match fromT with
      | some f =>
        if (taskAt s f).state = .RUNNING then
          let s' := setTask s f
            { taskAt s f with
                state := .READY
                ready_since := s.system_ticks
                preemptions := u32succ (taskAt s f).preemptions }
          ready_queue_insert s' f
        else s
      | none => s
    let s2 := ready_queue_remove s1 toT
    let s3 := setTask s2 toT { taskAt s2 toT with state := .RUNNING }
    { s3 with current_task := some toT, context_switches := u64succ s3.context_switches }

/-- scheduler.c `scheduler_schedule`. -/
def scheduler_schedule (s : Scheduler) : Scheduler :=
  let next := scheduler_get_next_task s
  match s.current_task with
  | some c =>
    if next = c then s
    else if (taskAt s c).state = .RUNNING ∧ (taskAt s c).priority ≤ (taskAt s next).priority
    then s
    else scheduler_context_switch s (some c) next
  | none => scheduler_context_switch s none next

/-- scheduler.c `scheduler_needs_preemption`. -/
def scheduler_needs_preemption (s : Scheduler) : Bool :=
  match s.current_task with
  | none => true
  | some c =>
    match s.ready_queue.head? with
    | none => false
    | some n => decide ((taskAt s n).priority < (taskAt s c).priority)

/-- mutex.c `mutex_create`: appends a fresh unlocked mutex to the registry. -/
def mutex_create (s : Scheduler) : Scheduler :=
  { s with mutexes := s.mutexes ++ [{}] }

/-- mutex.c `wait_queue_insert` (drops the insertion when the bounded queue
is full, as the source does after reporting to stderr). -/
def wait_queue_insert (s : Scheduler) (mid tid : Nat) : Scheduler :=
  let m := mutexAt s mid
  if MUTEX_WAIT_QUEUE_CAP ≤ m.wait_queue.length then s
  else
    let q := insertByPri (fun j => (taskAt s j).priority) ((taskAt s tid).priority) tid
      m.wait_queue
    setMutex s mid { m with wait_queue := q }

/-- mutex.c `priority_inherit`, with explicit fuel for the transitive
recursion (`none` = fuel exhausted).  The recursion in the source is bounded
because every recursive step lowers the boosted task's priority number to
`p`, and a task whose priority number is already ≤ `p` exits on the no-op
condition; `priorityInheritF_isSome` below proves that fuel
`boostMeasure s p + 1` always suffices.  `boostLocal` is the non-recursive
part of one boost step of `priority_inherit`: snapshot the original priority
unless already inherited, set the new priority, bump the boost counter, and
re-sort the ready queue when the boosted task is Ready. -/
def boostLocal (s : Scheduler) (tid : Nat) (p : Int) : Scheduler :=
  let t := taskAt s tid
  let t1 :=
    { t with
        original_priority :=
          if t.priority_inherited then t.original_priority else t.priority
        priority_inherited := true
        priority := p
        priority_boosts := u32succ t.priority_boosts }
  let s1 := setTask s tid t1
  if t.state = .READY then ready_queue_insert (ready_queue_remove s1 tid) tid
  else s1

def priorityInheritF : Nat → Scheduler → Nat → Int → Option Scheduler
  | 0, _, _, _ => none
  | fuel + 1, s, tid, p =>
    if tid < s.tasks.length then
      if (taskAt s tid).priority ≤ p then some s
      else
        let s2 := boostLocal s tid p
        match (taskAt s tid).blocked_on with
        | some mid =>
          match (mutexAt s2 mid).owner with
          | some oid => priorityInheritF fuel s2 oid p
          | none => some s2
        | none => some s2
    else some s

/-- Number of tasks whose priority number exceeds `p`: the termination
measure of the transitive-inheritance recursion. -/
def boostMeasure (s : Scheduler) (p : Int) : Nat :=
  (s.tasks.filter (fun t => p < t.priority)).length

/-- mutex.c `priority_inherit` as a total function; the fuel
`s.tasks.length + 1` always dominates the termination measure, so the
default branch of `getD` is never taken (`priority_inherit_eq` below). -/
def priority_inherit (s : Scheduler) (tid : Nat) (p : Int) : Scheduler :=
  (priorityInheritF (s.tasks.length + 1) s tid p).getD s

/-- The `needed` computation of mutex.c `priority_restore`: start from the
original priority and scan the waiters of every still-held mutex (the
`if (!m) continue` null check of the source becomes an index-validity
check). -/
def neededPriority (s : Scheduler) (t : TCB) : Int :=
  t.held_mutexes.foldl
    (fun needed mid =>
      if mid < s.mutexes.length then
        (mutexAt s mid).wait_queue.foldl
          (fun nd w => if (taskAt s w).priority < nd then (taskAt s w).priority else nd)
          needed
      else needed)
    t.original_priority

/-- mutex.c `priority_restore`. -/
def priority_restore (s : Scheduler) (tid : Nat) : Scheduler :=
  if tid < s.tasks.length then
    let t := taskAt s tid
    if t.priority_inherited = false then s
    else
      let needed := neededPriority s t
      let t1 :=
        { t with
            priority := needed
            priority_inherited := if needed = t.original_priority then false else true }
      let s1 := setTask s tid t1
      if t.state = .READY then ready_queue_insert (ready_queue_remove s1 tid) tid
      else s1
  else s

/-- mutex.c `mutex_lock`. -/
def mutex_lock (s : Scheduler) (mid tid : Nat) : Scheduler :=
  if mid < s.mutexes.length ∧ tid < s.tasks.length then
    let m := mutexAt s mid
    if m.locked = false then
      let s1 := setMutex s mid { m with locked := true, owner := some tid }
      task_add_held_mutex s1 tid mid
    else
      let s2 :=
        if s.priority_inheritance_enabled then
          match m.owner with
          | some oid =>
            if (taskAt s tid).priority < (taskAt s oid).priority then
              priority_inherit s oid ((taskAt s tid).priority)
            else s
          | none => s
        else s
      let s3 := setTask s2 tid { taskAt s2 tid with blocked_on := some mid }
      let s4 := task_set_state s3 tid .BLOCKED
      let s5 := wait_queue_insert s4 mid tid
      scheduler_schedule s5
  else s

/-- The ownership-handoff step of mutex.c `mutex_unlock` (lines 244-267): if
the wait queue is non-empty, pop its head `w`, clear `w.blocked_on`, transfer
ownership to `w` (the mutex stays locked), add the mutex to `w`'s held list
and make `w` Ready; otherwise mark the mutex unlocked with no owner. -/
def unlockHandoff (s2 : Scheduler) (mid : Nat) : Scheduler :=
  let m2 := mutexAt s2 mid
  match m2.wait_queue with
  | w :: rest =>
    let s3 := setMutex s2 mid { m2 with wait_queue := rest }
    let s4 := setTask s3 w { taskAt s3 w with blocked_on := none }
    let s5 := setMutex s4 mid { mutexAt s4 mid with owner := some w }
    let s6 := task_add_held_mutex s5 w mid
    task_set_state s6 w .READY
  | [] => setMutex s2 mid { m2 with locked := false, owner := none }

/-- mutex.c `mutex_unlock`.  A non-owner unlock is a reported no-op.  The
step order of the source is kept: remove from the held list, restore the
priority (PIP), hand the mutex over (`unlockHandoff`), then re-dispatch. -/
def mutex_unlock (s : Scheduler) (mid tid : Nat) : Scheduler :=
  if mid < s.mutexes.length ∧ tid < s.tasks.length then
    let m := mutexAt s mid
    if m.owner ≠ some tid then s
    else
      let s1 := task_remove_held_mutex s tid mid
      let s2 := if s1.priority_inheritance_enabled then priority_restore s1 tid else s1
      scheduler_schedule (unlockHandoff s2 mid)
  else s

/-- semaphore.c `semaphore_create`. -/
def semaphore_create (s : Scheduler) (initial max_count : Int) : Scheduler :=
  { s with semaphores := s.semaphores ++ [{ count := initial, max_count := max_count }] }

/-- semaphore.c `sem_wait_queue_insert`. -/
def sem_wait_queue_insert (s : Scheduler) (sid tid : Nat) : Scheduler :=
  let sem := semAt s sid
  if SEM_WAIT_QUEUE_CAP ≤ sem.wait_queue.length then s
  else
    let q := insertByPri (fun j => (taskAt s j).priority) ((taskAt s tid).priority) tid
      sem.wait_queue
    setSem s sid { sem with wait_queue := q }

/-- semaphore.c `semaphore_wait`: note that it blocks the task without
setting `blocked_on` and inserts it into the semaphore's own wait queue. -/
def semaphore_wait (s : Scheduler) (sid tid : Nat) : Scheduler :=
  if sid < s.semaphores.length ∧ tid < s.tasks.length then
    let sem := semAt s sid
    if 0 < sem.count then setSem s sid { sem with count := sem.count - 1 }
    else
      let s1 := task_set_state s tid .BLOCKED
      let s2 := sem_wait_queue_insert s1 sid tid
      scheduler_schedule s2
  else s

/-- semaphore.c `semaphore_signal` (the signalling task is not used). -/
def semaphore_signal (s : Scheduler) (sid : Nat) : Scheduler :=
  if sid < s.semaphores.length then
    let sem := semAt s sid
    match sem.wait_queue with
    | w :: rest =>
      let s1 := setSem s sid { sem with wait_queue := rest }
      let s2 := task_set_state s1 w .READY
      scheduler_schedule s2
    | [] =>
      if sem.count < sem.max_count then setSem s sid { sem with count := sem.count + 1 }
      else s
  else s

/-- rtos_time.c `check_periodic_releases`. -/
def check_periodic_releases (s : Scheduler) : Scheduler :=
  (List.range s.tasks.length).foldl
    (fun st i =>
      let t := taskAt st i
      if i = st.idle_task then st
      else if t.period = 0 then st
      else if t.state = .SUSPENDED ∧ t.next_release ≤ st.system_ticks ∧
              (st.system_ticks - t.next_release) % t.period = 0 ∧
              st.system_ticks = t.next_release then
        let st1 := setTask st i
          { t with
              next_release := (st.system_ticks + t.period) % U64MOD
              absolute_deadline := (st.system_ticks + t.relative_deadline) % U64MOD
              exec_time := 0
              invocations := u32succ t.invocations }
        task_set_state st1 i .READY
      else st)
    s

/-- rtos_time.c `check_deadlines` (the deadline pass of `tick_handler`). -/
def check_deadlines (s : Scheduler) : Scheduler :=
  (List.range s.tasks.length).foldl
    (fun st i =>
      let t := taskAt st i
      if i = st.idle_task then st
      else if t.period = 0 ∧ t.relative_deadline = 0 then st
      else if (t.state = .RUNNING ∨ t.state = .READY) ∧ 0 < t.absolute_deadline ∧
              t.absolute_deadline < st.system_ticks ∧ 0 < t.remaining_work then
        setTask st i
          { t with
              deadline_misses := u32succ t.deadline_misses
              absolute_deadline := U64MAX }
      else st)
    s

/-- rtos_time.c `tick_handler`. -/
def tick_handler (s : Scheduler) : Scheduler :=
  let s0 := { s with system_ticks := u64succ s.system_ticks }
  let s1 :=
    match s0.current_task with
    | some c =>
      if (taskAt s0 c).state = .RUNNING then
        let t := taskAt s0 c
        let e := u64succ t.exec_time
        setTask s0 c
          { t with
              exec_time := e
              total_exec_time := u64succ t.total_exec_time
              remaining_work := if 0 < t.remaining_work then t.remaining_work - 1
                                else t.remaining_work
              wcet_observed := if t.wcet_observed < e then e else t.wcet_observed }
      else s0
    | none => s0
  check_deadlines (check_periodic_releases s1)

/-- rtos_time.c `advance_time`. -/
def advance_time (s : Scheduler) : Nat → Scheduler
  | 0 => s
  | n + 1 => advance_time (scheduler_schedule (tick_handler s)) n

/-- scheduler.c `rms_recalculate_priorities`, collection pass: all non-idle,
non-terminated tasks with a positive period, in registry order. -/
def rms_collect (s : Scheduler) : List Nat :=
  (List.range s.tasks.length).filter
    (fun i => 0 < (taskAt s i).period ∧ (taskAt s i).state ≠ .TERMINATED ∧ i ≠ s.idle_task)

/-- The qsort-by-period of `rms_recalculate_priorities`.  The C comparator
orders by period ascending (the period-0 branches are dead after the
collection filter); qsort leaves the order of equal periods unspecified, and
the model fixes a stable sort, which is one admissible qsort outcome. -/
def rms_sorted (s : Scheduler) : List Nat :=
  (rms_collect s).insertionSort (fun a b => (taskAt s a).period ≤ (taskAt s b).period)

/-- The rank-assignment loop of `rms_recalculate_priorities`:
`periodic[i]->priority = periodic[i]->original_priority = i`. -/
def assignRanks (k : Nat) (ids : List Nat) (s : Scheduler) : Scheduler :=
  match ids with
  | [] => s
  | i :: rest =>
    assignRanks (k + 1) rest
      (setTask s i { taskAt s i with priority := (k : Int), original_priority := (k : Int) })

/-- One iteration of the ready-queue rebuild at the end of
`rms_recalculate_priorities`: re-insert task `i` when it is Ready and not
the idle task. -/
def readyRebuildStep (st : Scheduler) (i : Nat) : Scheduler :=
  if (taskAt st i).state = .READY ∧ i ≠ st.idle_task then ready_queue_insert st i
  else st

/-- scheduler.c `rms_recalculate_priorities`. -/
def rms_recalculate_priorities (s : Scheduler) : Scheduler :=
  let s1 := assignRanks 0 (rms_sorted s) s
  let s2 := { s1 with ready_queue := [] }
  (List.range s2.tasks.length).foldl readyRebuildStep s2

/-- scheduler.c `scheduler_init`: fresh scheduler, create the idle task
(priority 255), remove it from the ready queue and give it infinite
remaining work. -/
def scheduler_init (policy : SchedPolicy) (pi_enabled : Bool) : Scheduler :=
  let s0 : Scheduler :=
    { policy := policy
      priority_inheritance_enabled := pi_enabled
      current_task := none
      idle_task := 0
      ready_queue := []
      tasks := []
      mutexes := []
      semaphores := []
      system_ticks := 0
      context_switches := 0 }
  let s1 := task_create s0 PRIORITY_IDLE 0 0 0
  let s2 := ready_queue_remove s1 0
  setTask s2 0 { taskAt s2 0 with remaining_work := U64MAX }

/-- The public driver-level operations of §6 of the specification, as a
syntax of steps over the scheduler state. -/
inductive Op where
  | create (priority : Int) (period deadline wcet : Nat)
  | setState (tid : Nat) (st : TaskState)
  | suspendTask (tid : Nat)
  | resumeTask (tid : Nat)
  | terminateTask (tid : Nat)
  | setPriority (tid : Nat) (p : Int)
  | mkMutex
  | lock (mid tid : Nat)
  | unlock (mid tid : Nat)
  | mkSem (initial max_count : Int)
  | semWait (sid tid : Nat)
  | semSignal (sid : Nat)
  | dispatch
  | tick
  | rmRecalc
deriving DecidableEq, Repr

/-- Interpretation of one public operation. -/
def applyOp (op : Op) (s : Scheduler) : Scheduler :=
  match op with
  | .create priority period deadline wcet => task_create s priority period deadline wcet
  | .setState tid st => task_set_state s tid st
  | .suspendTask tid => task_suspend s tid
  | .resumeTask tid => task_resume s tid
  | .terminateTask tid => task_terminate s tid
  | .setPriority tid p => task_set_priority s tid p
  | .mkMutex => mutex_create s
  | .lock mid tid => mutex_lock s mid tid
  | .unlock mid tid => mutex_unlock s mid tid
  | .mkSem initial max_count => semaphore_create s initial max_count
  | .semWait sid tid => semaphore_wait s sid tid
  | .semSignal sid => semaphore_signal s sid
  | .dispatch => scheduler_schedule s
  | .tick => tick_handler s
  | .rmRecalc => rms_recalculate_priorities s

/-- States reachable from `scheduler_init` through the public operations. -/
inductive Reaches : Scheduler → Prop
  | init (policy : SchedPolicy) (pi_enabled : Bool) :
      Reaches (scheduler_init policy pi_enabled)
  | step (op : Op) (s : Scheduler) : Reaches s → Reaches (applyOp op s)

/-- Recognizer for the one public operation that can demote a task's
effective priority below its original priority. -/
def Op.isSetPriority : Op → Bool
  | .setPriority _ _ => true
  | _ => false

/-- States reachable through the public operations other than
`task_set_priority`. -/
inductive ReachesNoSetPri : Scheduler → Prop
  | init (policy : SchedPolicy) (pi_enabled : Bool) :
      ReachesNoSetPri (scheduler_init policy pi_enabled)
  | step (op : Op) (s : Scheduler) (h : op.isSetPriority = false) :
      ReachesNoSetPri s → ReachesNoSetPri (applyOp op s)

/-- The driver discipline of the mutex scenario tests: tasks are created and
mutexes are locked/unlocked by tasks that are Ready or Running (never by the
idle task, never while already blocked, never on a mutex they already own)
and never beyond the wait-queue capacity; the raw `task_set_state` hook,
suspension and the semaphore primitives are outside this discipline. -/
def WfOp (op : Op) (s : Scheduler) : Bool :=
  match op with
  | .lock mid tid =>
    decide (tid < s.tasks.length) && decide (tid ≠ s.idle_task) &&
    ((taskAt s tid).state == .READY || (taskAt s tid).state == .RUNNING) &&
    !((mutexAt s mid).owner == some tid) &&
    decide ((mutexAt s mid).wait_queue.length < MUTEX_WAIT_QUEUE_CAP)
  | .setState _ _ => false
  | .suspendTask _ => false
  | .resumeTask _ => false
  | .terminateTask _ => false
  | .semWait _ _ => false
  | .semSignal _ => false
  | _ => true

/-- States reachable through disciplined public operations (see `WfOp`). -/
inductive ReachesWf : Scheduler → Prop
  | init (policy : SchedPolicy) (pi_enabled : Bool) :
      ReachesWf (scheduler_init policy pi_enabled)
  | step (op : Op) (s : Scheduler) (h : WfOp op s = true) :
      ReachesWf s → ReachesWf (applyOp op s)

end RTOS

/-! ### Structural lemmas about the state accessors -/

namespace RTOS

@[simp] theorem tasks_setTask (s : Scheduler) (i : Nat) (t : TCB) :
    (setTask s i t).tasks = s.tasks.set i t := rfl

@[simp] theorem length_tasks_setTask (s : Scheduler) (i : Nat) (t : TCB) :
    (setTask s i t).tasks.length = s.tasks.length := by
  simp [setTask]

@[simp] theorem ready_queue_setTask (s : Scheduler) (i : Nat) (t : TCB) :
    (setTask s i t).ready_queue = s.ready_queue := rfl

@[simp] theorem mutexes_setTask (s : Scheduler) (i : Nat) (t : TCB) :
    (setTask s i t).mutexes = s.mutexes := rfl

@[simp] theorem semaphores_setTask (s : Scheduler) (i : Nat) (t : TCB) :
    (setTask s i t).semaphores = s.semaphores := rfl

@[simp] theorem current_task_setTask (s : Scheduler) (i : Nat) (t : TCB) :
    (setTask s i t).current_task = s.current_task := rfl

@[simp] theorem idle_task_setTask (s : Scheduler) (i : Nat) (t : TCB) :
    (setTask s i t).idle_task = s.idle_task := rfl

@[simp] theorem system_ticks_setTask (s : Scheduler) (i : Nat) (t : TCB) :
    (setTask s i t).system_ticks = s.system_ticks := rfl

@[simp] theorem policy_setTask (s : Scheduler) (i : Nat) (t : TCB) :
    (setTask s i t).policy = s.policy := rfl

@[simp] theorem pi_setTask (s : Scheduler) (i : Nat) (t : TCB) :
    (setTask s i t).priority_inheritance_enabled = s.priority_inheritance_enabled := rfl

@[simp] theorem context_switches_setTask (s : Scheduler) (i : Nat) (t : TCB) :
    (setTask s i t).context_switches = s.context_switches := rfl

@[simp] theorem mutexAt_setTask (s : Scheduler) (i : Nat) (t : TCB) (j : Nat) :
    mutexAt (setTask s i t) j = mutexAt s j := rfl

@[simp] theorem semAt_setTask (s : Scheduler) (i : Nat) (t : TCB) (j : Nat) :
    semAt (setTask s i t) j = semAt s j := rfl

theorem taskAt_setTask_self (s : Scheduler) (i : Nat) (t : TCB) (h : i < s.tasks.length) :
    taskAt (setTask s i t) i = t := by
  simp [taskAt, setTask, List.getD_eq_getElem?_getD, List.getElem?_set_self, h]

theorem taskAt_setTask_ne (s : Scheduler) (i : Nat) (t : TCB) (j : Nat) (h : i ≠ j) :
    taskAt (setTask s i t) j = taskAt s j := by
  simp [taskAt, setTask, List.getD_eq_getElem?_getD, List.getElem?_set_ne h]

theorem taskAt_setTask (s : Scheduler) (i : Nat) (t : TCB) (j : Nat) :
    taskAt (setTask s i t) j =
      if i = j ∧ i < s.tasks.length then t else taskAt s j := by
  by_cases hij : i = j
  · subst hij
    by_cases h : i < s.tasks.length
    · simp [taskAt_setTask_self, h]
    · simp [h, taskAt, setTask, List.set_eq_of_length_le (Nat.le_of_not_lt h)]
  · simp [taskAt_setTask_ne s i t j hij, hij]

@[simp] theorem mutexAt_setMutex_tasks (s : Scheduler) (i : Nat) (m : Mutex) (j : Nat) :
    taskAt (setMutex s i m) j = taskAt s j := rfl

@[simp] theorem tasks_setMutex (s : Scheduler) (i : Nat) (m : Mutex) :
    (setMutex s i m).tasks = s.tasks := rfl

@[simp] theorem ready_queue_setMutex (s : Scheduler) (i : Nat) (m : Mutex) :
    (setMutex s i m).ready_queue = s.ready_queue := rfl

@[simp] theorem current_task_setMutex (s : Scheduler) (i : Nat) (m : Mutex) :
    (setMutex s i m).current_task = s.current_task := rfl

@[simp] theorem idle_task_setMutex (s : Scheduler) (i : Nat) (m : Mutex) :
    (setMutex s i m).idle_task = s.idle_task := rfl

@[simp] theorem system_ticks_setMutex (s : Scheduler) (i : Nat) (m : Mutex) :
    (setMutex s i m).system_ticks = s.system_ticks := rfl

@[simp] theorem pi_setMutex (s : Scheduler) (i : Nat) (m : Mutex) :
    (setMutex s i m).priority_inheritance_enabled = s.priority_inheritance_enabled := rfl

@[simp] theorem semaphores_setMutex (s : Scheduler) (i : Nat) (m : Mutex) :
    (setMutex s i m).semaphores = s.semaphores := rfl

@[simp] theorem length_mutexes_setMutex (s : Scheduler) (i : Nat) (m : Mutex) :
    (setMutex s i m).mutexes.length = s.mutexes.length := by
  simp [setMutex]

theorem mutexAt_setMutex_self (s : Scheduler) (i : Nat) (m : Mutex) (h : i < s.mutexes.length) :
    mutexAt (setMutex s i m) i = m := by
  simp [mutexAt, setMutex, List.getD_eq_getElem?_getD, List.getElem?_set_self, h]

theorem mutexAt_setMutex_ne (s : Scheduler) (i : Nat) (m : Mutex) (j : Nat) (h : i ≠ j) :
    mutexAt (setMutex s i m) j = mutexAt s j := by
  simp [mutexAt, setMutex, List.getD_eq_getElem?_getD, List.getElem?_set_ne h]

@[simp] theorem taskAt_setSem (s : Scheduler) (i : Nat) (x : Semaphore) (j : Nat) :
    taskAt (setSem s i x) j = taskAt s j := rfl

@[simp] theorem tasks_setSem (s : Scheduler) (i : Nat) (x : Semaphore) :
    (setSem s i x).tasks = s.tasks := rfl

@[simp] theorem ready_queue_setSem (s : Scheduler) (i : Nat) (x : Semaphore) :
    (setSem s i x).ready_queue = s.ready_queue := rfl

@[simp] theorem mutexes_setSem (s : Scheduler) (i : Nat) (x : Semaphore) :
    (setSem s i x).mutexes = s.mutexes := rfl

@[simp] theorem mutexAt_setSem (s : Scheduler) (i : Nat) (x : Semaphore) (j : Nat) :
    mutexAt (setSem s i x) j = mutexAt s j := rfl

/-! ### The priority-ordered insertion scan -/

theorem insertByPri_split (pri : Nat → Int) (p : Int) (tid : Nat) (q : List Nat) :
    ∃ l₁ l₂, q = l₁ ++ l₂ ∧ insertByPri pri p tid q = l₁ ++ tid :: l₂ ∧
      (∀ j ∈ l₁, pri j ≤ p) ∧ (∀ h2 : l₂ ≠ [], p < pri (l₂.head h2)) := by
  induction q with
  | nil => exact ⟨[], [], rfl, rfl, by simp, by simp⟩
  | cons j rest ih =>
    by_cases h : p < pri j
    · refine ⟨[], j :: rest, rfl, ?_, by simp, ?_⟩
      · simp [insertByPri, h]
      · intro h2; simpa using h
    · obtain ⟨l₁, l₂, hq, hins, h₁, h₂⟩ := ih
      refine ⟨j :: l₁, l₂, by simp [hq], ?_, ?_, h₂⟩
      · simp [insertByPri, h, hins]
      · intro x hx
        rcases List.mem_cons.mp hx with rfl | hx
        · exact le_of_not_lt h
        · exact h₁ x hx

theorem mem_insertByPri (pri : Nat → Int) (p : Int) (tid : Nat) (q : List Nat) (x : Nat) :
    x ∈ insertByPri pri p tid q ↔ x = tid ∨ x ∈ q := by
  obtain ⟨l₁, l₂, hq, hins, -, -⟩ := insertByPri_split pri p tid q
  subst hq
  simp [hins]
  tauto

theorem count_insertByPri (pri : Nat → Int) (p : Int) (tid : Nat) (q : List Nat) (x : Nat) :
    (insertByPri pri p tid q).count x = q.count x + if x = tid then 1 else 0 := by
  obtain ⟨l₁, l₂, hq, hins, -, -⟩ := insertByPri_split pri p tid q
  subst hq
  by_cases hx : x = tid
  · subst hx; simp [hins, List.count_cons]; omega
  · simp [hins, List.count_cons, hx]

theorem length_insertByPri (pri : Nat → Int) (p : Int) (tid : Nat) (q : List Nat) :
    (insertByPri pri p tid q).length = q.length + 1 := by
  obtain ⟨l₁, l₂, hq, hins, -, -⟩ := insertByPri_split pri p tid q
  subst hq
  simp [hins]
  omega

theorem nodup_insertByPri (pri : Nat → Int) (p : Int) (tid : Nat) (q : List Nat)
    (hq : q.Nodup) (hx : tid ∉ q) : (insertByPri pri p tid q).Nodup := by
  obtain ⟨l₁, l₂, hql, hins, -, -⟩ := insertByPri_split pri p tid q
  subst hql
  rw [hins]
  rw [List.nodup_append] at hq ⊢
  obtain ⟨h₁, h₂, hd⟩ := hq
  refine ⟨h₁, ?_, ?_⟩
  · refine List.nodup_cons.mpr ⟨?_, h₂⟩
    intro hmem; exact hx (List.mem_append_right _ hmem)
  · intro a ha hb
    rcases List.mem_cons.mp hb with rfl | hb
    · exact hx (List.mem_append_left _ ha)
    · exact hd ha hb

theorem pairwise_insertByPri (f : Nat → Int) (p : Int) (tid : Nat) (q : List Nat)
    (hq : q.Pairwise (fun a b => f a ≤ f b)) (hp : f tid = p) :
    (insertByPri f p tid q).Pairwise (fun a b => f a ≤ f b) := by
  induction q with
  | nil => simp [insertByPri]
  | cons j rest ih =>
    rw [List.pairwise_cons] at hq
    obtain ⟨hj, hrest⟩ := hq
    by_cases h : p < f j
    · rw [insertByPri, if_pos h]
      refine List.pairwise_cons.mpr ⟨?_, List.pairwise_cons.mpr ⟨hj, hrest⟩⟩
      intro b hb
      rcases List.mem_cons.mp hb with rfl | hb
      · rw [hp]; exact le_of_lt h
      · rw [hp]; exact le_of_lt (lt_of_lt_of_le h (hj b hb))
    · rw [insertByPri, if_neg h]
      refine List.pairwise_cons.mpr ⟨?_, ih hrest⟩
      intro b hb
      rcases (mem_insertByPri f p tid rest b).mp hb with rfl | hb
      · rw [hp]; exact le_of_not_lt h
      · exact hj b hb

end RTOS

/-! ### Frames of the ready-queue operations -/

namespace RTOS

theorem ready_queue_insert_shape (s : Scheduler) (tid : Nat) :
    ∃ q, ready_queue_insert s tid = { s with ready_queue := q } := by
  unfold ready_queue_insert
  split
  · exact ⟨s.ready_queue, rfl⟩
  · exact ⟨_, rfl⟩

@[simp] theorem tasks_ready_queue_insert (s : Scheduler) (tid : Nat) :
    (ready_queue_insert s tid).tasks = s.tasks := by
  obtain ⟨q, hq⟩ := ready_queue_insert_shape s tid; rw [hq]

@[simp] theorem taskAt_ready_queue_insert (s : Scheduler) (tid j : Nat) :
    taskAt (ready_queue_insert s tid) j = taskAt s j := by
  obtain ⟨q, hq⟩ := ready_queue_insert_shape s tid; rw [hq]; rfl

@[simp] theorem mutexes_ready_queue_insert (s : Scheduler) (tid : Nat) :
    (ready_queue_insert s tid).mutexes = s.mutexes := by
  obtain ⟨q, hq⟩ := ready_queue_insert_shape s tid; rw [hq]

@[simp] theorem mutexAt_ready_queue_insert (s : Scheduler) (tid j : Nat) :
    mutexAt (ready_queue_insert s tid) j = mutexAt s j := by
  obtain ⟨q, hq⟩ := ready_queue_insert_shape s tid; rw [hq]; rfl

@[simp] theorem semaphores_ready_queue_insert (s : Scheduler) (tid : Nat) :
    (ready_queue_insert s tid).semaphores = s.semaphores := by
  obtain ⟨q, hq⟩ := ready_queue_insert_shape s tid; rw [hq]

@[simp] theorem current_task_ready_queue_insert (s : Scheduler) (tid : Nat) :
    (ready_queue_insert s tid).current_task = s.current_task := by
  obtain ⟨q, hq⟩ := ready_queue_insert_shape s tid; rw [hq]

@[simp] theorem idle_task_ready_queue_insert (s : Scheduler) (tid : Nat) :
    (ready_queue_insert s tid).idle_task = s.idle_task := by
  obtain ⟨q, hq⟩ := ready_queue_insert_shape s tid; rw [hq]

@[simp] theorem system_ticks_ready_queue_insert (s : Scheduler) (tid : Nat) :
    (ready_queue_insert s tid).system_ticks = s.system_ticks := by
  obtain ⟨q, hq⟩ := ready_queue_insert_shape s tid; rw [hq]

@[simp] theorem pi_ready_queue_insert (s : Scheduler) (tid : Nat) :
    (ready_queue_insert s tid).priority_inheritance_enabled =
      s.priority_inheritance_enabled := by
  obtain ⟨q, hq⟩ := ready_queue_insert_shape s tid; rw [hq]

@[simp] theorem policy_ready_queue_insert (s : Scheduler) (tid : Nat) :
    (ready_queue_insert s tid).policy = s.policy := by
  obtain ⟨q, hq⟩ := ready_queue_insert_shape s tid; rw [hq]

@[simp] theorem context_switches_ready_queue_insert (s : Scheduler) (tid : Nat) :
    (ready_queue_insert s tid).context_switches = s.context_switches := by
  obtain ⟨q, hq⟩ := ready_queue_insert_shape s tid; rw [hq]

@[simp] theorem tasks_ready_queue_remove (s : Scheduler) (tid : Nat) :
    (ready_queue_remove s tid).tasks = s.tasks := rfl

@[simp] theorem taskAt_ready_queue_remove (s : Scheduler) (tid j : Nat) :
    taskAt (ready_queue_remove s tid) j = taskAt s j := rfl

@[simp] theorem mutexes_ready_queue_remove (s : Scheduler) (tid : Nat) :
    (ready_queue_remove s tid).mutexes = s.mutexes := rfl

@[simp] theorem mutexAt_ready_queue_remove (s : Scheduler) (tid j : Nat) :
    mutexAt (ready_queue_remove s tid) j = mutexAt s j := rfl

@[simp] theorem semaphores_ready_queue_remove (s : Scheduler) (tid : Nat) :
    (ready_queue_remove s tid).semaphores = s.semaphores := rfl

@[simp] theorem current_task_ready_queue_remove (s : Scheduler) (tid : Nat) :
    (ready_queue_remove s tid).current_task = s.current_task := rfl

@[simp] theorem idle_task_ready_queue_remove (s : Scheduler) (tid : Nat) :
    (ready_queue_remove s tid).idle_task = s.idle_task := rfl

@[simp] theorem system_ticks_ready_queue_remove (s : Scheduler) (tid : Nat) :
    (ready_queue_remove s tid).system_ticks = s.system_ticks := rfl

@[simp] theorem pi_ready_queue_remove (s : Scheduler) (tid : Nat) :
    (ready_queue_remove s tid).priority_inheritance_enabled =
      s.priority_inheritance_enabled := rfl

@[simp] theorem policy_ready_queue_remove (s : Scheduler) (tid : Nat) :
    (ready_queue_remove s tid).policy = s.policy := rfl

@[simp] theorem context_switches_ready_queue_remove (s : Scheduler) (tid : Nat) :
    (ready_queue_remove s tid).context_switches = s.context_switches := rfl

@[simp] theorem ready_queue_ready_queue_remove (s : Scheduler) (tid : Nat) :
    (ready_queue_remove s tid).ready_queue = s.ready_queue.erase tid := rfl

/-! ### The one-step boost -/

/-- The TCB produced by one boost step for a task that is strictly demoted
relative to `p`. -/
def boostedTCB (t : TCB) (p : Int) : TCB :=
  { t with
      original_priority :=
        if t.priority_inherited then t.original_priority else t.priority
      priority_inherited := true
      priority := p
      priority_boosts := u32succ t.priority_boosts }

theorem boostLocal_eq (s : Scheduler) (tid : Nat) (p : Int) :
    boostLocal s tid p =
      (let s1 := setTask s tid (boostedTCB (taskAt s tid) p)
       if (taskAt s tid).state = .READY then
         ready_queue_insert (ready_queue_remove s1 tid) tid
       else s1) := rfl

@[simp] theorem tasks_boostLocal (s : Scheduler) (tid : Nat) (p : Int) :
    (boostLocal s tid p).tasks = s.tasks.set tid (boostedTCB (taskAt s tid) p) := by
  rw [boostLocal_eq]
  split <;> simp

@[simp] theorem length_tasks_boostLocal (s : Scheduler) (tid : Nat) (p : Int) :
    (boostLocal s tid p).tasks.length = s.tasks.length := by
  simp

@[simp] theorem mutexes_boostLocal (s : Scheduler) (tid : Nat) (p : Int) :
    (boostLocal s tid p).mutexes = s.mutexes := by
  rw [boostLocal_eq]; split <;> simp

@[simp] theorem mutexAt_boostLocal (s : Scheduler) (tid : Nat) (p : Int) (j : Nat) :
    mutexAt (boostLocal s tid p) j = mutexAt s j := by
  simp [mutexAt]

@[simp] theorem semaphores_boostLocal (s : Scheduler) (tid : Nat) (p : Int) :
    (boostLocal s tid p).semaphores = s.semaphores := by
  rw [boostLocal_eq]; split <;> simp

@[simp] theorem current_task_boostLocal (s : Scheduler) (tid : Nat) (p : Int) :
    (boostLocal s tid p).current_task = s.current_task := by
  rw [boostLocal_eq]; split <;> simp

@[simp] theorem idle_task_boostLocal (s : Scheduler) (tid : Nat) (p : Int) :
    (boostLocal s tid p).idle_task = s.idle_task := by
  rw [boostLocal_eq]; split <;> simp

@[simp] theorem system_ticks_boostLocal (s : Scheduler) (tid : Nat) (p : Int) :
    (boostLocal s tid p).system_ticks = s.system_ticks := by
  rw [boostLocal_eq]; split <;> simp

@[simp] theorem pi_boostLocal (s : Scheduler) (tid : Nat) (p : Int) :
    (boostLocal s tid p).priority_inheritance_enabled =
      s.priority_inheritance_enabled := by
  rw [boostLocal_eq]; split <;> simp

@[simp] theorem policy_boostLocal (s : Scheduler) (tid : Nat) (p : Int) :
    (boostLocal s tid p).policy = s.policy := by
  rw [boostLocal_eq]; split <;> simp

@[simp] theorem context_switches_boostLocal (s : Scheduler) (tid : Nat) (p : Int) :
    (boostLocal s tid p).context_switches = s.context_switches := by
  rw [boostLocal_eq]; split <;> simp

theorem taskAt_boostLocal_self (s : Scheduler) (tid : Nat) (p : Int)
    (h : tid < s.tasks.length) :
    taskAt (boostLocal s tid p) tid = boostedTCB (taskAt s tid) p := by
  simp [taskAt, List.getD_eq_getElem?_getD, List.getElem?_set_self, h]

theorem taskAt_boostLocal_ne (s : Scheduler) (tid : Nat) (p : Int) (j : Nat)
    (h : tid ≠ j) : taskAt (boostLocal s tid p) j = taskAt s j := by
  simp [taskAt, List.getD_eq_getElem?_getD, List.getElem?_set_ne h]

end RTOS

/-! ### Termination and characterization of the transitive boost -/

namespace RTOS

theorem priorityInheritF_succ_eq (fuel : Nat) (s : Scheduler) (tid : Nat) (p : Int) :
    priorityInheritF (fuel + 1) s tid p =
      if tid < s.tasks.length then
        if (taskAt s tid).priority ≤ p then some s
        else
          match (taskAt s tid).blocked_on with
          | some mid =>
            match (mutexAt (boostLocal s tid p) mid).owner with
            | some oid => priorityInheritF fuel (boostLocal s tid p) oid p
            | none => some (boostLocal s tid p)
          | none => some (boostLocal s tid p)
      else some s := rfl

theorem length_filter_set {α} (l : List α) (i : Nat) (a : α) (pred : α → Bool) :
    ∀ (h : i < l.length), pred (l.get ⟨i, h⟩) = true → pred a = false →
      ((l.set i a).filter pred).length + 1 = (l.filter pred).length := by
  induction l generalizing i with
  | nil => intro h; exact absurd h (Nat.not_lt_zero _)
  | cons x xs ih =>
    intro h ha hb
    cases i with
    | zero =>
      simp only [List.get] at ha
      simp [List.filter_cons, ha, hb]
    | succ n =>
      simp only [List.get] at ha
      have hn : n < xs.length := Nat.lt_of_succ_lt_succ h
      have := ih n hn ha hb
      by_cases hx : pred x = true
      · simp [List.filter_cons, hx]
        omega
      · simp only [Bool.not_eq_true] at hx
        simp [List.filter_cons, hx]
        omega

theorem taskAt_get (s : Scheduler) (i : Nat) (h : i < s.tasks.length) :
    s.tasks.get ⟨i, h⟩ = taskAt s i := by
  simp [taskAt, List.getD_eq_getElem?_getD, List.getElem?_eq_getElem h]

theorem boostMeasure_boostLocal (s : Scheduler) (tid : Nat) (p : Int)
    (h : tid < s.tasks.length) (hp : p < (taskAt s tid).priority) :
    boostMeasure (boostLocal s tid p) p + 1 = boostMeasure s p := by
  unfold boostMeasure
  rw [tasks_boostLocal]
  refine length_filter_set s.tasks tid (boostedTCB (taskAt s tid) p) _ h ?_ ?_
  · rw [taskAt_get s tid h]; simpa using hp
  · simp [boostedTCB]

theorem boostMeasure_le (s : Scheduler) (p : Int) :
    boostMeasure s p ≤ s.tasks.length :=
  List.length_filter_le _ _

theorem priorityInheritF_isSome :
    ∀ (fuel : Nat) (s : Scheduler) (tid : Nat) (p : Int), boostMeasure s p < fuel →
      (priorityInheritF fuel s tid p).isSome = true := by
  intro fuel
  induction fuel with
  | zero => intro s tid p h; exact absurd h (Nat.not_lt_zero _)
  | succ n ih =>
    intro s tid p h
    rw [priorityInheritF_succ_eq]
    by_cases ht : tid < s.tasks.length
    · rw [if_pos ht]
      by_cases hle : (taskAt s tid).priority ≤ p
      · rw [if_pos hle]; rfl
      · rw [if_neg hle]
        have hp : p < (taskAt s tid).priority := lt_of_not_le hle
        have hm := boostMeasure_boostLocal s tid p ht hp
        cases hbo : (taskAt s tid).blocked_on with
        | none => rfl
        | some mid =>
          dsimp only
          cases how : (mutexAt (boostLocal s tid p) mid).owner with
          | none => rfl
          | some oid =>
            exact ih (boostLocal s tid p) oid p (by omega)
    · rw [if_neg ht]; rfl

theorem priority_inherit_some (s : Scheduler) (tid : Nat) (p : Int) :
    priorityInheritF (s.tasks.length + 1) s tid p = some (priority_inherit s tid p) := by
  have h := priorityInheritF_isSome (s.tasks.length + 1) s tid p
    (Nat.lt_succ_of_le (boostMeasure_le s p))
  cases heq : priorityInheritF (s.tasks.length + 1) s tid p with
  | none => rw [heq] at h; simp at h
  | some s' => simp [priority_inherit, heq]

end RTOS

namespace RTOS

/-- The parts of the state a transitive boost never changes: everything but
the ready-queue order and the priority-related TCB fields. -/
def BoostFrame (s s' : Scheduler) : Prop :=
  s'.tasks.length = s.tasks.length ∧
  s'.mutexes = s.mutexes ∧
  s'.semaphores = s.semaphores ∧
  s'.current_task = s.current_task ∧
  s'.idle_task = s.idle_task ∧
  s'.system_ticks = s.system_ticks ∧
  s'.context_switches = s.context_switches ∧
  s'.policy = s.policy ∧
  s'.priority_inheritance_enabled = s.priority_inheritance_enabled ∧
  ∀ j, (taskAt s' j).state = (taskAt s j).state ∧
       (taskAt s' j).blocked_on = (taskAt s j).blocked_on ∧
       (taskAt s' j).held_mutexes = (taskAt s j).held_mutexes

theorem boostFrame_refl (s : Scheduler) : BoostFrame s s := by
  refine ⟨rfl, rfl, rfl, rfl, rfl, rfl, rfl, rfl, rfl, fun j => ⟨rfl, rfl, rfl⟩⟩

theorem boostFrame_trans {s s2 s3 : Scheduler}
    (h1 : BoostFrame s s2) (h2 : BoostFrame s2 s3) : BoostFrame s s3 := by
  obtain ⟨a1, b1, c1, d1, e1, f1, g1, i1, k1, t1⟩ := h1
  obtain ⟨a2, b2, c2, d2, e2, f2, g2, i2, k2, t2⟩ := h2
  refine ⟨a2.trans a1, b2.trans b1, c2.trans c1, d2.trans d1, e2.trans e1,
    f2.trans f1, g2.trans g1, i2.trans i1, k2.trans k1, fun j => ?_⟩
  obtain ⟨x1, y1, z1⟩ := t1 j
  obtain ⟨x2, y2, z2⟩ := t2 j
  exact ⟨x2.trans x1, y2.trans y1, z2.trans z1⟩

theorem boostFrame_boostLocal (s : Scheduler) (tid : Nat) (p : Int) :
    BoostFrame s (boostLocal s tid p) := by
  refine ⟨by simp, by simp, by simp, by simp, by simp, by simp, by simp, by simp, by simp,
    fun j => ?_⟩
  by_cases hj : tid = j
  · subst hj
    by_cases ht : tid < s.tasks.length
    · rw [taskAt_boostLocal_self s tid p ht]
      simp [boostedTCB]
    · have : taskAt (boostLocal s tid p) tid = taskAt s tid := by
        simp [taskAt, List.getD_eq_getElem?_getD, tasks_boostLocal,
          List.set_eq_of_length_le (Nat.le_of_not_lt ht)]
      rw [this]
      exact ⟨rfl, rfl, rfl⟩
  · rw [taskAt_boostLocal_ne s tid p j hj]
    exact ⟨rfl, rfl, rfl⟩

theorem priorityInheritF_frame :
    ∀ (fuel : Nat) (s : Scheduler) (tid : Nat) (p : Int) (s' : Scheduler),
      priorityInheritF fuel s tid p = some s' → BoostFrame s s' := by
  intro fuel
  induction fuel with
  | zero => intro s tid p s' h; exact absurd h (by simp [priorityInheritF])
  | succ n ih =>
    intro s tid p s' h
    rw [priorityInheritF_succ_eq] at h
    by_cases ht : tid < s.tasks.length
    · rw [if_pos ht] at h
      by_cases hle : (taskAt s tid).priority ≤ p
      · rw [if_pos hle] at h
        cases h
        exact boostFrame_refl s
      · rw [if_neg hle] at h
        cases hbo : (taskAt s tid).blocked_on with
        | none =>
          rw [hbo] at h
          cases h
          exact boostFrame_boostLocal s tid p
        | some mid =>
          rw [hbo] at h
          dsimp only at h
          cases how : (mutexAt (boostLocal s tid p) mid).owner with
          | none =>
            rw [how] at h
            cases h
            exact boostFrame_boostLocal s tid p
          | some oid =>
            rw [how] at h
            exact boostFrame_trans (boostFrame_boostLocal s tid p) (ih _ _ _ _ h)
    · rw [if_neg ht] at h
      cases h
      exact boostFrame_refl s

theorem priorityInheritF_untouched :
    ∀ (fuel : Nat) (s : Scheduler) (tid : Nat) (p : Int) (s' : Scheduler),
      priorityInheritF fuel s tid p = some s' →
      ∀ j, (taskAt s j).priority ≤ p → taskAt s' j = taskAt s j := by
  intro fuel
  induction fuel with
  | zero => intro s tid p s' h; exact absurd h (by simp [priorityInheritF])
  | succ n ih =>
    intro s tid p s' h j hj
    rw [priorityInheritF_succ_eq] at h
    by_cases ht : tid < s.tasks.length
    · rw [if_pos ht] at h
      by_cases hle : (taskAt s tid).priority ≤ p
      · rw [if_pos hle] at h; cases h; rfl
      · rw [if_neg hle] at h
        have hjt : tid ≠ j := by
          intro he; subst he; exact hle hj
        have hs2 : taskAt (boostLocal s tid p) j = taskAt s j :=
          taskAt_boostLocal_ne s tid p j hjt
        cases hbo : (taskAt s tid).blocked_on with
        | none =>
          rw [hbo] at h; cases h; exact hs2
        | some mid =>
          rw [hbo] at h
          dsimp only at h
          cases how : (mutexAt (boostLocal s tid p) mid).owner with
          | none => rw [how] at h; cases h; exact hs2
          | some oid =>
            rw [how] at h
            rw [ih _ _ _ _ h j (by rw [hs2]; exact hj)]
            exact hs2
    · rw [if_neg ht] at h; cases h; rfl

theorem priorityInheritF_snapshot :
    ∀ (fuel : Nat) (s : Scheduler) (tid : Nat) (p : Int) (s' : Scheduler),
      priorityInheritF fuel s tid p = some s' →
      ∀ j, (taskAt s j).priority_inherited = true →
        (taskAt s' j).original_priority = (taskAt s j).original_priority ∧
        (taskAt s' j).priority_inherited = true := by
  intro fuel
  induction fuel with
  | zero => intro s tid p s' h; exact absurd h (by simp [priorityInheritF])
  | succ n ih =>
    intro s tid p s' h j hj
    rw [priorityInheritF_succ_eq] at h
    by_cases ht : tid < s.tasks.length
    · rw [if_pos ht] at h
      by_cases hle : (taskAt s tid).priority ≤ p
      · rw [if_pos hle] at h; cases h; exact ⟨rfl, hj⟩
      · rw [if_neg hle] at h
        have hs2 : (taskAt (boostLocal s tid p) j).original_priority =
            (taskAt s j).original_priority ∧
            (taskAt (boostLocal s tid p) j).priority_inherited = true := by
          by_cases hjt : tid = j
          · subst hjt
            rw [taskAt_boostLocal_self s tid p ht]
            simp [boostedTCB, hj]
          · rw [taskAt_boostLocal_ne s tid p j hjt]
            exact ⟨rfl, hj⟩
        cases hbo : (taskAt s tid).blocked_on with
        | none => rw [hbo] at h; cases h; exact hs2
        | some mid =>
          rw [hbo] at h
          dsimp only at h
          cases how : (mutexAt (boostLocal s tid p) mid).owner with
          | none => rw [how] at h; cases h; exact hs2
          | some oid =>
            rw [how] at h
            obtain ⟨ho, hi⟩ := ih _ _ _ _ h j hs2.2
            exact ⟨ho.trans hs2.1, hi⟩
    · rw [if_neg ht] at h; cases h; exact ⟨rfl, hj⟩

/-- Priority inheritance preserves the `priority ≤ original` invariant. -/
theorem priorityInheritF_invP :
    ∀ (fuel : Nat) (s : Scheduler) (tid : Nat) (p : Int) (s' : Scheduler),
      priorityInheritF fuel s tid p = some s' →
      (∀ j, (taskAt s j).priority ≤ (taskAt s j).original_priority) →
      ∀ j, (taskAt s' j).priority ≤ (taskAt s' j).original_priority := by
  intro fuel
  induction fuel with
  | zero => intro s tid p s' h; exact absurd h (by simp [priorityInheritF])
  | succ n ih =>
    intro s tid p s' h hP
    rw [priorityInheritF_succ_eq] at h
    by_cases ht : tid < s.tasks.length
    · rw [if_pos ht] at h
      by_cases hle : (taskAt s tid).priority ≤ p
      · rw [if_pos hle] at h; cases h; exact hP
      · rw [if_neg hle] at h
        have hp : p < (taskAt s tid).priority := lt_of_not_le hle
        have hP2 : ∀ j, (taskAt (boostLocal s tid p) j).priority ≤
            (taskAt (boostLocal s tid p) j).original_priority := by
          intro j
          by_cases hjt : tid = j
          · subst hjt
            rw [taskAt_boostLocal_self s tid p ht]
            by_cases hin : (taskAt s tid).priority_inherited
            · simp only [boostedTCB, hin, if_true]
              exact le_of_lt (lt_of_lt_of_le hp (hP tid))
            · simp only [boostedTCB, hin, if_false]
              exact le_of_lt hp
          · rw [taskAt_boostLocal_ne s tid p j hjt]
            exact hP j
        cases hbo : (taskAt s tid).blocked_on with
        | none => rw [hbo] at h; cases h; exact hP2
        | some mid =>
          rw [hbo] at h
          dsimp only at h
          cases how : (mutexAt (boostLocal s tid p) mid).owner with
          | none => rw [how] at h; cases h; exact hP2
          | some oid => rw [how] at h; exact ih _ _ _ _ h hP2
    · rw [if_neg ht] at h; cases h; exact hP

/-- After a strict boost, the boosted task's TCB is exactly the one-step
update (the rest of the chain cannot touch a task whose priority is `p`). -/
theorem priorityInheritF_boosted (fuel : Nat) (s : Scheduler) (tid : Nat) (p : Int)
    (s' : Scheduler) (h : priorityInheritF fuel s tid p = some s')
    (ht : tid < s.tasks.length) (hp : p < (taskAt s tid).priority) :
    taskAt s' tid = boostedTCB (taskAt s tid) p := by
  cases fuel with
  | zero => exact absurd h (by simp [priorityInheritF])
  | succ n =>
    rw [priorityInheritF_succ_eq] at h
    rw [if_pos ht, if_neg (not_le_of_lt hp)] at h
    have hself : taskAt (boostLocal s tid p) tid = boostedTCB (taskAt s tid) p :=
      taskAt_boostLocal_self s tid p ht
    cases hbo : (taskAt s tid).blocked_on with
    | none => rw [hbo] at h; cases h; exact hself
    | some mid =>
      rw [hbo] at h
      dsimp only at h
      cases how : (mutexAt (boostLocal s tid p) mid).owner with
      | none => rw [how] at h; cases h; exact hself
      | some oid =>
        rw [how] at h
        have : taskAt s' tid = taskAt (boostLocal s tid p) tid := by
          refine priorityInheritF_untouched n _ oid p s' h tid ?_
          rw [hself]
          simp [boostedTCB]
        rw [this, hself]

end RTOS

namespace RTOS

theorem priorityInheritF_pri_self (fuel : Nat) (s : Scheduler) (tid : Nat) (p : Int)
    (s' : Scheduler) (h : priorityInheritF fuel s tid p = some s')
    (ht : tid < s.tasks.length) :
    (taskAt s' tid).priority = min ((taskAt s tid).priority) p := by
  cases fuel with
  | zero => exact absurd h (by simp [priorityInheritF])
  | succ n =>
    by_cases hle : (taskAt s tid).priority ≤ p
    · rw [priorityInheritF_succ_eq, if_pos ht, if_pos hle] at h
      cases h
      rw [min_eq_left hle]
    · have hp : p < (taskAt s tid).priority := lt_of_not_le hle
      rw [priorityInheritF_boosted (n + 1) s tid p s' h ht hp]
      rw [min_eq_right (le_of_lt hp)]
      simp [boostedTCB]

/-- Demonstration state for the C1 witness: a fresh scheduler with one
aperiodic task of priority 5 (task id 1; the idle task is id 0). -/
def inheritDemo : Scheduler :=
  task_create (scheduler_init .SCHED_PRIORITY true) 5 0 0 5

end RTOS

namespace RTOS

/-- C1: `priority_inherit(owner, p)` is a no-op when `p ≥ owner.priority`;
otherwise it snapshots `owner.original` and sets `owner.inherited` only when
owner is not already inherited (so nested boosts never overwrite the
snapshot, stated here for every task of the state), sets
`owner.priority = p`, increments `owner.priority_boosts`, and recursively
boosts the owner of the mutex that owner is blocked on (if any), raising
that owner's priority to `min(its priority, p)`; the recursion terminates
for every state, with fuel bounded by the number of tasks whose priority
number strictly exceeds `p` (each recursive step lowers one such task to
`p`, or exits on the no-op condition). -/
theorem C1_priority_inherit_boost (s : Scheduler) (tid : Nat) (p : Int)
    (ht : tid < s.tasks.length) :
    (priorityInheritF (boostMeasure s p + 1) s tid p).isSome = true ∧
    ((taskAt s tid).priority ≤ p → priority_inherit s tid p = s) ∧
    (p < (taskAt s tid).priority →
      (taskAt (priority_inherit s tid p) tid).priority = p ∧
      (taskAt (priority_inherit s tid p) tid).priority_inherited = true ∧
      (taskAt (priority_inherit s tid p) tid).priority_boosts =
        u32succ (taskAt s tid).priority_boosts ∧
      (taskAt (priority_inherit s tid p) tid).original_priority =
        (if (taskAt s tid).priority_inherited = true then (taskAt s tid).original_priority
         else (taskAt s tid).priority)) ∧
    (∀ j, (taskAt s j).priority_inherited = true →
      (taskAt (priority_inherit s tid p) j).original_priority =
        (taskAt s j).original_priority) ∧
    (∀ mid oid, p < (taskAt s tid).priority →
      (taskAt s tid).blocked_on = some mid →
      (mutexAt s mid).owner = some oid → oid < s.tasks.length →
      (taskAt (priority_inherit s tid p) oid).priority =
        min ((taskAt s oid).priority) p) := by
  have hsome := priority_inherit_some s tid p
  refine ⟨priorityInheritF_isSome _ s tid p (Nat.lt_succ_self _), ?_, ?_, ?_, ?_⟩
  · intro hle
    have h := hsome
    rw [priorityInheritF_succ_eq, if_pos ht, if_pos hle] at h
    exact (Option.some.injEq _ _).mp h.symm |>.symm ▸ rfl
  · intro hp
    have hb := priorityInheritF_boosted _ s tid p _ hsome ht hp
    rw [hb]
    refine ⟨rfl, rfl, rfl, ?_⟩
    simp only [boostedTCB]
  · intro j hj
    exact (priorityInheritF_snapshot _ s tid p _ hsome j hj).1
  · intro mid oid hp hbo how hoid
    have h := hsome
    rw [priorityInheritF_succ_eq, if_pos ht, if_neg (not_le_of_lt hp), hbo] at h
    dsimp only at h
    have how2 : (mutexAt (boostLocal s tid p) mid).owner = some oid := by
      rw [mutexAt_boostLocal]; exact how
    rw [how2] at h
    have hres := priorityInheritF_pri_self _ _ oid p _ h (by simpa using hoid)
    by_cases hot : oid = tid
    · subst hot
      rw [taskAt_boostLocal_self s oid p ht] at hres
      have : (boostedTCB (taskAt s oid) p).priority = p := by simp [boostedTCB]
      rw [this] at hres
      rw [hres, min_self, min_eq_right (le_of_lt hp)]
    · rw [taskAt_boostLocal_ne s tid p oid (fun he => hot he.symm)] at hres
      exact hres

/-- Witness for C1 at a concrete state: boosting task 1 (priority 5) to
priority 3 succeeds and sets its priority to 3. -/
theorem C1_priority_inherit_boost_witness :
    1 < inheritDemo.tasks.length ∧
    (taskAt (priority_inherit inheritDemo 1 3) 1).priority = 3 :=
  ⟨by decide, ((C1_priority_inherit_boost inheritDemo 1 3 (by decide)).2.2.1
    (by decide)).1⟩

end RTOS

/-! ### Preservation of the priority triple across non-priority operations -/

namespace RTOS

/-- `s'` keeps every task's effective priority, inheritance flag and original
priority as in `s`. -/
def PrioFields (s s' : Scheduler) : Prop :=
  ∀ j, (taskAt s' j).priority = (taskAt s j).priority ∧
       (taskAt s' j).priority_inherited = (taskAt s j).priority_inherited ∧
       (taskAt s' j).original_priority = (taskAt s j).original_priority

theorem prioFields_refl (s : Scheduler) : PrioFields s s :=
  fun _ => ⟨rfl, rfl, rfl⟩

theorem prioFields_trans {s s2 s3 : Scheduler}
    (h1 : PrioFields s s2) (h2 : PrioFields s2 s3) : PrioFields s s3 := by
  intro j
  obtain ⟨a1, b1, c1⟩ := h1 j
  obtain ⟨a2, b2, c2⟩ := h2 j
  exact ⟨a2.trans a1, b2.trans b1, c2.trans c1⟩

theorem prioFields_of_tasks_eq {s s' : Scheduler} (h : s'.tasks = s.tasks) :
    PrioFields s s' := by
  intro j
  have : taskAt s' j = taskAt s j := by simp [taskAt, h]
  rw [this]
  exact ⟨rfl, rfl, rfl⟩

theorem prioFields_setTask (s : Scheduler) (i : Nat) (t' : TCB)
    (hpri : t'.priority = (taskAt s i).priority)
    (hinh : t'.priority_inherited = (taskAt s i).priority_inherited)
    (horig : t'.original_priority = (taskAt s i).original_priority) :
    PrioFields s (setTask s i t') := by
  intro j
  rw [taskAt_setTask]
  split
  · rename_i hc
    obtain ⟨rfl, -⟩ := hc
    exact ⟨hpri, hinh, horig⟩
  · exact ⟨rfl, rfl, rfl⟩

theorem prioFields_ready_queue_insert (s : Scheduler) (tid : Nat) :
    PrioFields s (ready_queue_insert s tid) := by
  intro j; simp

theorem prioFields_ready_queue_remove (s : Scheduler) (tid : Nat) :
    PrioFields s (ready_queue_remove s tid) := by
  intro j; exact ⟨rfl, rfl, rfl⟩

theorem prioFields_setMutex (s : Scheduler) (i : Nat) (m : Mutex) :
    PrioFields s (setMutex s i m) := by
  intro j; exact ⟨rfl, rfl, rfl⟩

theorem prioFields_setSem (s : Scheduler) (i : Nat) (x : Semaphore) :
    PrioFields s (setSem s i x) := by
  intro j; exact ⟨rfl, rfl, rfl⟩

theorem prioFields_task_set_state (s : Scheduler) (tid : Nat) (st : TaskState) :
    PrioFields s (task_set_state s tid st) := by
  unfold task_set_state
  by_cases ht : tid < s.tasks.length
  · rw [if_pos ht]
    by_cases heq : (taskAt s tid).state = st
    · rw [if_pos heq]; exact prioFields_refl s
    · rw [if_neg heq]
      dsimp only
      have h2 : PrioFields s (if (taskAt s tid).state = .READY ∧ st ≠ .READY
          then ready_queue_remove (setTask s tid { taskAt s tid with state := st }) tid
          else setTask s tid { taskAt s tid with state := st }) := by
        split
        · exact prioFields_trans (prioFields_setTask s tid _ (by rfl) (by rfl) (by rfl))
            (prioFields_ready_queue_remove _ tid)
        · exact prioFields_setTask s tid _ (by rfl) (by rfl) (by rfl)
      split
      · refine prioFields_trans h2 (prioFields_trans
          (prioFields_setTask _ tid _ (by rfl) (by rfl) (by rfl))
          (prioFields_ready_queue_insert _ tid))
      · exact h2
  · rw [if_neg ht]; exact prioFields_refl s

theorem prioFields_task_add_held_mutex (s : Scheduler) (tid mid : Nat) :
    PrioFields s (task_add_held_mutex s tid mid) := by
  unfold task_add_held_mutex
  split
  · exact prioFields_setTask s tid _ rfl rfl rfl
  · exact prioFields_refl s

theorem prioFields_task_remove_held_mutex (s : Scheduler) (tid mid : Nat) :
    PrioFields s (task_remove_held_mutex s tid mid) := by
  unfold task_remove_held_mutex
  split
  · exact prioFields_setTask s tid _ rfl rfl rfl
  · exact prioFields_refl s

theorem prioFields_scheduler_context_switch (s : Scheduler) (fromT : Option Nat) (toT : Nat) :
    PrioFields s (scheduler_context_switch s fromT toT) := by
  unfold scheduler_context_switch
  by_cases hft : fromT = some toT
  · rw [if_pos hft]; exact prioFields_refl s
  · rw [if_neg hft]
    have hmain : ∀ s1 : Scheduler, PrioFields s s1 →
        PrioFields s
          { setTask (ready_queue_remove s1 toT) toT
              { taskAt (ready_queue_remove s1 toT) toT with state := TaskState.RUNNING } with
            current_task := some toT
            context_switches := u64succ (setTask (ready_queue_remove s1 toT) toT
              { taskAt (ready_queue_remove s1 toT) toT with
                  state := TaskState.RUNNING }).context_switches } := by
      intro s1 h1
      refine prioFields_trans h1 ?_
      refine prioFields_trans (prioFields_ready_queue_remove s1 toT) ?_
      refine prioFields_trans (prioFields_setTask (ready_queue_remove s1 toT) toT
        { taskAt (ready_queue_remove s1 toT) toT with state := TaskState.RUNNING }
        rfl rfl rfl) ?_
      exact prioFields_of_tasks_eq (by rfl)
    cases fromT with
    | none =>
      dsimp only
      exact hmain s (prioFields_refl s)
    | some f =>
      dsimp only
      split
      · exact hmain _ (prioFields_trans (prioFields_setTask s f
          { taskAt s f with
              state := TaskState.READY
              ready_since := s.system_ticks
              preemptions := u32succ (taskAt s f).preemptions } rfl rfl rfl)
          (prioFields_ready_queue_insert _ f))
      · exact hmain s (prioFields_refl s)

theorem prioFields_scheduler_schedule (s : Scheduler) :
    PrioFields s (scheduler_schedule s) := by
  unfold scheduler_schedule
  match hc : s.current_task with
  | some c =>
    dsimp only
    split
    · exact prioFields_refl s
    · split
      · exact prioFields_refl s
      · exact prioFields_scheduler_context_switch s (some c) _
  | none => exact prioFields_scheduler_context_switch s none _

end RTOS

/-! ### Characterization of priority restoration -/

namespace RTOS

theorem priority_restore_noop (s : Scheduler) (tid : Nat)
    (hin : (taskAt s tid).priority_inherited = false) :
    priority_restore s tid = s := by
  unfold priority_restore
  split
  · rw [if_pos hin]
  · rfl

@[simp] theorem mutexes_priority_restore (s : Scheduler) (tid : Nat) :
    (priority_restore s tid).mutexes = s.mutexes := by
  unfold priority_restore
  split
  · dsimp only
    split
    · rfl
    · split <;> simp
  · rfl

@[simp] theorem mutexAt_priority_restore (s : Scheduler) (tid j : Nat) :
    mutexAt (priority_restore s tid) j = mutexAt s j := by
  simp [mutexAt]

@[simp] theorem length_tasks_priority_restore (s : Scheduler) (tid : Nat) :
    (priority_restore s tid).tasks.length = s.tasks.length := by
  unfold priority_restore
  split
  · dsimp only
    split
    · rfl
    · split <;> simp
  · rfl

@[simp] theorem pi_priority_restore (s : Scheduler) (tid : Nat) :
    (priority_restore s tid).priority_inheritance_enabled =
      s.priority_inheritance_enabled := by
  unfold priority_restore
  split
  · dsimp only
    split
    · rfl
    · split <;> simp
  · rfl

theorem taskAt_priority_restore_self (s : Scheduler) (tid : Nat)
    (ht : tid < s.tasks.length) (hin : (taskAt s tid).priority_inherited = true) :
    taskAt (priority_restore s tid) tid =
      { taskAt s tid with
          priority := neededPriority s (taskAt s tid)
          priority_inherited :=
            if neededPriority s (taskAt s tid) = (taskAt s tid).original_priority then false
            else true } := by
  unfold priority_restore
  rw [if_pos ht, if_neg (by simp [hin])]
  dsimp only
  split
  · simp [taskAt_setTask_self _ _ _ ht]
  · exact taskAt_setTask_self _ _ _ ht

theorem taskAt_priority_restore_ne (s : Scheduler) (tid j : Nat) (h : tid ≠ j) :
    taskAt (priority_restore s tid) j = taskAt s j := by
  unfold priority_restore
  split
  · dsimp only
    split
    · rfl
    · split
      · simp [taskAt_setTask_ne _ _ _ _ h]
      · simp [taskAt_setTask_ne _ _ _ _ h]
  · rfl

/-- The current priorities of the waiters of one mutex. -/
def waiterPris (s : Scheduler) (mid : Nat) : List Int :=
  (mutexAt s mid).wait_queue.map (fun w => (taskAt s w).priority)

/-- The waiter priorities collected over a held-mutex list (specification
formulation of the `needed` scan of `priority_restore`). -/
def heldWaiterPris (s : Scheduler) (held : List Nat) : List Int :=
  held.foldr (fun mid acc =>
    if mid < s.mutexes.length then waiterPris s mid ++ acc else acc) []

theorem inner_fold_min (s : Scheduler) (q : List Nat) :
    ∀ a : Int,
      q.foldl (fun nd w => if (taskAt s w).priority < nd then (taskAt s w).priority else nd) a
        = (q.map (fun w => (taskAt s w).priority)).foldl min a := by
  induction q with
  | nil => intro a; rfl
  | cons w rest ih =>
    intro a
    rw [List.foldl_cons, List.map_cons, List.foldl_cons, ih]
    congr 1
    by_cases h : (taskAt s w).priority < a
    · rw [if_pos h, min_def, if_neg (not_le_of_lt h)]
    · rw [if_neg h, min_def, if_pos (le_of_not_lt h)]

theorem neededPriority_eq (s : Scheduler) (t : TCB) :
    neededPriority s t =
      (heldWaiterPris s t.held_mutexes).foldl min t.original_priority := by
  unfold neededPriority
  suffices h : ∀ (held : List Nat) (a : Int),
      held.foldl (fun needed mid =>
        if mid < s.mutexes.length then
          (mutexAt s mid).wait_queue.foldl
            (fun nd w => if (taskAt s w).priority < nd then (taskAt s w).priority else nd)
            needed
        else needed) a
      = (heldWaiterPris s held).foldl min a from h t.held_mutexes t.original_priority
  intro held
  induction held with
  | nil => intro a; rfl
  | cons mid rest ih =>
    intro a
    rw [List.foldl_cons]
    by_cases hv : mid < s.mutexes.length
    · rw [if_pos hv, ih, inner_fold_min]
      show _ = (heldWaiterPris s (mid :: rest)).foldl min a
      unfold heldWaiterPris
      rw [List.foldr_cons, if_pos hv, List.foldl_append]
      rfl
    · rw [if_neg hv, ih]
      show _ = (heldWaiterPris s (mid :: rest)).foldl min a
      unfold heldWaiterPris
      rw [List.foldr_cons, if_neg hv]

theorem heldWaiterPris_eq_nil (s : Scheduler) (held : List Nat)
    (h : ∀ mid ∈ held, mid < s.mutexes.length → (mutexAt s mid).wait_queue = []) :
    heldWaiterPris s held = [] := by
  induction held with
  | nil => rfl
  | cons mid rest ih =>
    unfold heldWaiterPris
    rw [List.foldr_cons]
    have hrest : heldWaiterPris s rest = [] :=
      ih (fun m hm hv => h m (List.mem_cons_of_mem _ hm) hv)
    unfold heldWaiterPris at hrest
    rw [hrest]
    by_cases hv : mid < s.mutexes.length
    · rw [if_pos hv]
      simp [waiterPris, h mid (List.mem_cons_self _ _) hv]
    · rw [if_neg hv]

/-! ### Frames of held-list bookkeeping and the handoff -/

@[simp] theorem mutexes_task_remove_held_mutex (s : Scheduler) (tid mid : Nat) :
    (task_remove_held_mutex s tid mid).mutexes = s.mutexes := by
  unfold task_remove_held_mutex; split <;> rfl

@[simp] theorem mutexAt_task_remove_held_mutex (s : Scheduler) (tid mid j : Nat) :
    mutexAt (task_remove_held_mutex s tid mid) j = mutexAt s j := by
  simp [mutexAt]

@[simp] theorem length_tasks_task_remove_held_mutex (s : Scheduler) (tid mid : Nat) :
    (task_remove_held_mutex s tid mid).tasks.length = s.tasks.length := by
  unfold task_remove_held_mutex; split <;> simp

@[simp] theorem pi_task_remove_held_mutex (s : Scheduler) (tid mid : Nat) :
    (task_remove_held_mutex s tid mid).priority_inheritance_enabled =
      s.priority_inheritance_enabled := by
  unfold task_remove_held_mutex; split <;> rfl

theorem taskAt_task_remove_held_mutex_self (s : Scheduler) (tid mid : Nat)
    (ht : tid < s.tasks.length) :
    taskAt (task_remove_held_mutex s tid mid) tid =
      { taskAt s tid with held_mutexes := (taskAt s tid).held_mutexes.erase mid } := by
  unfold task_remove_held_mutex
  rw [if_pos ht]
  exact taskAt_setTask_self _ _ _ ht

theorem taskAt_task_remove_held_mutex_ne (s : Scheduler) (tid mid j : Nat) (h : tid ≠ j) :
    taskAt (task_remove_held_mutex s tid mid) j = taskAt s j := by
  unfold task_remove_held_mutex
  split
  · exact taskAt_setTask_ne _ _ _ _ h
  · rfl

theorem prioFields_unlockHandoff (s2 : Scheduler) (mid : Nat) :
    PrioFields s2 (unlockHandoff s2 mid) := by
  unfold unlockHandoff
  dsimp only
  cases hwq : (mutexAt s2 mid).wait_queue with
  | nil => exact prioFields_setMutex s2 mid _
  | cons w rest =>
    dsimp only
    set s3 := setMutex s2 mid { mutexAt s2 mid with wait_queue := rest } with hs3
    set s4 := setTask s3 w { taskAt s3 w with blocked_on := none } with hs4
    set s5 := setMutex s4 mid { mutexAt s4 mid with owner := some w } with hs5
    set s6 := task_add_held_mutex s5 w mid with hs6
    have h3 : PrioFields s2 s3 := prioFields_setMutex s2 mid _
    have h4 : PrioFields s2 s4 :=
      prioFields_trans h3 (prioFields_setTask s3 w _ (by rfl) (by rfl) (by rfl))
    have h5 : PrioFields s2 s5 :=
      prioFields_trans h4 (prioFields_setMutex s4 mid _)
    have h6 : PrioFields s2 s6 :=
      prioFields_trans h5 (prioFields_task_add_held_mutex s5 w mid)
    exact prioFields_trans h6 (prioFields_task_set_state s6 w .READY)

theorem mutex_unlock_eq (s : Scheduler) (mid tid : Nat)
    (hmid : mid < s.mutexes.length) (ht : tid < s.tasks.length)
    (hown : (mutexAt s mid).owner = some tid) :
    mutex_unlock s mid tid =
      scheduler_schedule (unlockHandoff
        (if (task_remove_held_mutex s tid mid).priority_inheritance_enabled = true
         then priority_restore (task_remove_held_mutex s tid mid) tid
         else task_remove_held_mutex s tid mid) mid) := by
  unfold mutex_unlock
  rw [if_pos ⟨hmid, ht⟩, if_neg (by simp [hown])]

end RTOS

namespace RTOS

/-- Demonstration state for the C2 witness: task 1 (priority 20) holds mutex
0 and was boosted to 5 by the blocked task 2 (priority inheritance on). -/
def restoreDemo : Scheduler :=
  [Op.create 20 0 0 5, Op.create 5 0 0 5, Op.mkMutex, Op.lock 0 1, Op.lock 0 2].foldl
    (fun s op => applyOp op s) (scheduler_init .SCHED_PRIORITY true)

/-- C2: for every boosted task (`inherited = true`), `priority_restore` sets
its priority to the minimum of its original priority and the priorities of
all waiters of all mutexes still in its held set, and clears `inherited`
exactly when that minimum equals the original priority; consequently, after
any `mutex_unlock` by the owner where the remaining held mutexes are
uncontended (empty wait queues), the owner ends with `inherited = false` and
`priority = original` (a boost followed by releasing all held mutexes
restores the original priority). -/
theorem C2_priority_restore_unlock (s : Scheduler) (tid : Nat)
    (ht : tid < s.tasks.length) :
    ((taskAt s tid).priority_inherited = true →
      (taskAt (priority_restore s tid) tid).priority =
        (heldWaiterPris s (taskAt s tid).held_mutexes).foldl min
          (taskAt s tid).original_priority ∧
      ((taskAt (priority_restore s tid) tid).priority_inherited = false ↔
        (heldWaiterPris s (taskAt s tid).held_mutexes).foldl min
          (taskAt s tid).original_priority = (taskAt s tid).original_priority)) ∧
    (∀ mid, mid < s.mutexes.length → (mutexAt s mid).owner = some tid →
      s.priority_inheritance_enabled = true →
      (∀ mid' ∈ (taskAt s tid).held_mutexes.erase mid, mid' < s.mutexes.length →
        (mutexAt s mid').wait_queue = []) →
      ((taskAt s tid).priority_inherited = false →
        (taskAt s tid).priority = (taskAt s tid).original_priority) →
      (taskAt (mutex_unlock s mid tid) tid).priority_inherited = false ∧
      (taskAt (mutex_unlock s mid tid) tid).priority =
        (taskAt s tid).original_priority) := by
  constructor
  · intro hin
    have hchar := taskAt_priority_restore_self s tid ht hin
    rw [hchar, ← neededPriority_eq]
    refine ⟨rfl, ?_⟩
    by_cases hmin : neededPriority s (taskAt s tid) = (taskAt s tid).original_priority
    · simp [hmin]
    · simp [hmin]
  · intro mid hmid hown hpi hempty hfallback
    rw [mutex_unlock_eq s mid tid hmid ht hown]
    set s1 := task_remove_held_mutex s tid mid with hs1
    have hpi1 : s1.priority_inheritance_enabled = true := by
      rw [hs1, pi_task_remove_held_mutex]; exact hpi
    rw [if_pos hpi1]
    set s2 := priority_restore s1 tid with hs2
    have hPF : PrioFields s2 (scheduler_schedule (unlockHandoff s2 mid)) :=
      prioFields_trans (prioFields_unlockHandoff s2 mid)
        (prioFields_scheduler_schedule _)
    have ht1 : tid < s1.tasks.length := by
      rw [hs1, length_tasks_task_remove_held_mutex]; exact ht
    have htask1 : taskAt s1 tid =
        { taskAt s tid with held_mutexes := (taskAt s tid).held_mutexes.erase mid } := by
      rw [hs1]; exact taskAt_task_remove_held_mutex_self s tid mid ht
    have hkey : (taskAt s2 tid).priority = (taskAt s tid).original_priority ∧
        (taskAt s2 tid).priority_inherited = false := by
      by_cases hin : (taskAt s tid).priority_inherited = true
      · have hin1 : (taskAt s1 tid).priority_inherited = true := by rw [htask1]; exact hin
        have hneed : neededPriority s1 (taskAt s1 tid) =
            (taskAt s1 tid).original_priority := by
          rw [neededPriority_eq, heldWaiterPris_eq_nil]
          · rfl
          · intro mid' hm hv
            have hm' : mid' ∈ (taskAt s tid).held_mutexes.erase mid := by
              rw [htask1] at hm; exact hm
            have hv' : mid' < s.mutexes.length := by
              rw [hs1, mutexes_task_remove_held_mutex] at hv; exact hv
            have := hempty mid' hm' hv'
            rw [hs1, mutexAt_task_remove_held_mutex]
            exact this
        have hchar := taskAt_priority_restore_self s1 tid ht1 hin1
        rw [hs2, hchar]
        constructor
        · rw [hneed, htask1]
        · simp [hneed]
      · have hin0 : (taskAt s tid).priority_inherited = false := by
          cases hb : (taskAt s tid).priority_inherited
          · rfl
          · exact absurd hb hin
        have hin1 : (taskAt s1 tid).priority_inherited = false := by
          rw [htask1]; exact hin0
        have hnop : s2 = s1 := by rw [hs2]; exact priority_restore_noop s1 tid hin1
        rw [hnop, htask1]
        exact ⟨hfallback hin0, hin0⟩
    obtain ⟨hpr, hinh, -⟩ := hPF tid
    exact ⟨hinh.trans hkey.2, hpr.trans hkey.1⟩

/-- Witness for C2 at a concrete state: after the boosted owner unlocks its
only mutex, its inheritance flag is cleared and its priority returns to the
original 20. -/
theorem C2_priority_restore_unlock_witness :
    1 < restoreDemo.tasks.length ∧
    (taskAt (mutex_unlock restoreDemo 0 1) 1).priority_inherited = false ∧
    (taskAt (mutex_unlock restoreDemo 0 1) 1).priority =
      (taskAt restoreDemo 1).original_priority :=
  ⟨by decide, (C2_priority_restore_unlock restoreDemo 1 (by decide)).2 0 (by decide)
    (by decide) (by decide) (by decide) (by decide)⟩

end RTOS

/-! ### Structural lemmas for state transitions and held-list growth -/

namespace RTOS

@[simp] theorem mutexes_task_set_state (s : Scheduler) (tid : Nat) (st : TaskState) :
    (task_set_state s tid st).mutexes = s.mutexes := by
  unfold task_set_state
  split
  · dsimp only
    split
    · rfl
    · split <;> split <;> simp
  · rfl

@[simp] theorem mutexAt_task_set_state (s : Scheduler) (tid : Nat) (st : TaskState) (j : Nat) :
    mutexAt (task_set_state s tid st) j = mutexAt s j := by
  simp [mutexAt]

@[simp] theorem semaphores_task_set_state (s : Scheduler) (tid : Nat) (st : TaskState) :
    (task_set_state s tid st).semaphores = s.semaphores := by
  unfold task_set_state
  split
  · dsimp only
    split
    · rfl
    · split <;> split <;> simp
  · rfl

@[simp] theorem length_tasks_task_set_state (s : Scheduler) (tid : Nat) (st : TaskState) :
    (task_set_state s tid st).tasks.length = s.tasks.length := by
  unfold task_set_state
  split
  · dsimp only
    split
    · rfl
    · split <;> split <;> simp
  · rfl

@[simp] theorem current_task_task_set_state (s : Scheduler) (tid : Nat) (st : TaskState) :
    (task_set_state s tid st).current_task = s.current_task := by
  unfold task_set_state
  split
  · dsimp only
    split
    · rfl
    · split <;> split <;> simp
  · rfl

@[simp] theorem idle_task_task_set_state (s : Scheduler) (tid : Nat) (st : TaskState) :
    (task_set_state s tid st).idle_task = s.idle_task := by
  unfold task_set_state
  split
  · dsimp only
    split
    · rfl
    · split <;> split <;> simp
  · rfl

@[simp] theorem system_ticks_task_set_state (s : Scheduler) (tid : Nat) (st : TaskState) :
    (task_set_state s tid st).system_ticks = s.system_ticks := by
  unfold task_set_state
  split
  · dsimp only
    split
    · rfl
    · split <;> split <;> simp
  · rfl

@[simp] theorem pi_task_set_state (s : Scheduler) (tid : Nat) (st : TaskState) :
    (task_set_state s tid st).priority_inheritance_enabled =
      s.priority_inheritance_enabled := by
  unfold task_set_state
  split
  · dsimp only
    split
    · rfl
    · split <;> split <;> simp
  · rfl

theorem taskAt_task_set_state_ne (s : Scheduler) (tid : Nat) (st : TaskState) (j : Nat)
    (h : tid ≠ j) : taskAt (task_set_state s tid st) j = taskAt s j := by
  unfold task_set_state
  split
  · dsimp only
    split
    · rfl
    · split <;> split <;> simp [taskAt_setTask_ne _ _ _ _ h]
  · rfl

theorem state_task_set_state_self (s : Scheduler) (tid : Nat) (st : TaskState)
    (ht : tid < s.tasks.length) :
    (taskAt (task_set_state s tid st) tid).state = st := by
  unfold task_set_state
  rw [if_pos ht]
  dsimp only
  split
  · rename_i heq; exact heq
  · split <;> split <;>
      simp [taskAt_setTask_self _ _ _ ht, taskAt_setTask_self, ht]

theorem fields_task_set_state_self (s : Scheduler) (tid : Nat) (st : TaskState) :
    (taskAt (task_set_state s tid st) tid).blocked_on = (taskAt s tid).blocked_on ∧
    (taskAt (task_set_state s tid st) tid).held_mutexes = (taskAt s tid).held_mutexes := by
  unfold task_set_state
  split
  · dsimp only
    split
    · exact ⟨rfl, rfl⟩
    · rename_i ht _
      split <;> split <;>
        simp [taskAt_setTask_self _ _ _ ht, taskAt_setTask_self, ht]
  · exact ⟨rfl, rfl⟩

@[simp] theorem mutexes_task_add_held_mutex (s : Scheduler) (tid mid : Nat) :
    (task_add_held_mutex s tid mid).mutexes = s.mutexes := by
  unfold task_add_held_mutex; split <;> rfl

@[simp] theorem mutexAt_task_add_held_mutex (s : Scheduler) (tid mid j : Nat) :
    mutexAt (task_add_held_mutex s tid mid) j = mutexAt s j := by
  simp [mutexAt]

@[simp] theorem length_tasks_task_add_held_mutex (s : Scheduler) (tid mid : Nat) :
    (task_add_held_mutex s tid mid).tasks.length = s.tasks.length := by
  unfold task_add_held_mutex; split <;> simp

theorem taskAt_task_add_held_mutex_self (s : Scheduler) (tid mid : Nat)
    (ht : tid < s.tasks.length) :
    taskAt (task_add_held_mutex s tid mid) tid =
      { taskAt s tid with held_mutexes := (taskAt s tid).held_mutexes ++ [mid] } := by
  unfold task_add_held_mutex
  rw [if_pos ht]
  exact taskAt_setTask_self _ _ _ ht

theorem taskAt_task_add_held_mutex_ne (s : Scheduler) (tid mid j : Nat) (h : tid ≠ j) :
    taskAt (task_add_held_mutex s tid mid) j = taskAt s j := by
  unfold task_add_held_mutex
  split
  · exact taskAt_setTask_ne _ _ _ _ h
  · rfl

end RTOS

namespace RTOS

theorem unlockHandoff_nil (s2 : Scheduler) (mid : Nat)
    (hwq : (mutexAt s2 mid).wait_queue = []) :
    unlockHandoff s2 mid =
      setMutex s2 mid { mutexAt s2 mid with locked := false, owner := none } := by
  unfold unlockHandoff
  dsimp only
  rw [hwq]

theorem unlockHandoff_cons (s2 : Scheduler) (mid : Nat) (w : Nat) (rest : List Nat)
    (hwq : (mutexAt s2 mid).wait_queue = w :: rest) :
    unlockHandoff s2 mid =
      (let s3 := setMutex s2 mid { mutexAt s2 mid with wait_queue := rest }
       let s4 := setTask s3 w { taskAt s3 w with blocked_on := none }
       let s5 := setMutex s4 mid { mutexAt s4 mid with owner := some w }
       let s6 := task_add_held_mutex s5 w mid
       task_set_state s6 w .READY) := by
  unfold unlockHandoff
  dsimp only
  rw [hwq]

theorem unlockHandoff_char (s2 : Scheduler) (mid w : Nat) (rest : List Nat)
    (hmid : mid < s2.mutexes.length) (hw : w < s2.tasks.length)
    (hwq : (mutexAt s2 mid).wait_queue = w :: rest) :
    (mutexAt (unlockHandoff s2 mid) mid).owner = some w ∧
    (mutexAt (unlockHandoff s2 mid) mid).wait_queue = rest ∧
    (mutexAt (unlockHandoff s2 mid) mid).locked = (mutexAt s2 mid).locked ∧
    (taskAt (unlockHandoff s2 mid) w).blocked_on = none ∧
    (taskAt (unlockHandoff s2 mid) w).state = .READY ∧
    (taskAt (unlockHandoff s2 mid) w).held_mutexes =
      (taskAt s2 w).held_mutexes ++ [mid] ∧
    (∀ j, j ≠ w → taskAt (unlockHandoff s2 mid) j = taskAt s2 j) ∧
    (∀ j, j ≠ mid → mutexAt (unlockHandoff s2 mid) j = mutexAt s2 j) ∧
    (unlockHandoff s2 mid).tasks.length = s2.tasks.length ∧
    (unlockHandoff s2 mid).mutexes.length = s2.mutexes.length := by
  rw [unlockHandoff_cons s2 mid w rest hwq]
  dsimp only
  set s3 := setMutex s2 mid { mutexAt s2 mid with wait_queue := rest } with hs3
  set s4 := setTask s3 w { taskAt s3 w with blocked_on := none } with hs4
  set s5 := setMutex s4 mid { mutexAt s4 mid with owner := some w } with hs5
  set s6 := task_add_held_mutex s5 w mid with hs6
  have hlen3 : s3.tasks.length = s2.tasks.length := by rw [hs3]; simp
  have hlen4 : s4.tasks.length = s2.tasks.length := by rw [hs4]; simp [hlen3]
  have hlen5 : s5.tasks.length = s2.tasks.length := by rw [hs5]; simp [hlen4]
  have hlen6 : s6.tasks.length = s2.tasks.length := by rw [hs6]; simp [hlen5]
  have hmlen3 : s3.mutexes.length = s2.mutexes.length := by rw [hs3]; simp
  have hmlen4 : s4.mutexes.length = s2.mutexes.length := by rw [hs4]; simp [hmlen3]
  have hmlen5 : s5.mutexes.length = s2.mutexes.length := by rw [hs5]; simp [hmlen4]
  have hmlen6 : s6.mutexes.length = s2.mutexes.length := by rw [hs6]; simp [hmlen5]
  have hw3 : w < s3.tasks.length := by rw [hlen3]; exact hw
  have hw4 : w < s4.tasks.length := by rw [hlen4]; exact hw
  have hw5 : w < s5.tasks.length := by rw [hlen5]; exact hw
  have hw6 : w < s6.tasks.length := by rw [hlen6]; exact hw
  have hmid4 : mid < s4.mutexes.length := by rw [hmlen4]; exact hmid
  -- the mutex after the handoff
  have hm5 : mutexAt s5 mid = { mutexAt s4 mid with owner := some w } := by
    rw [hs5]; exact mutexAt_setMutex_self s4 mid _ hmid4
  have hm4 : mutexAt s4 mid = mutexAt s3 mid := by rw [hs4]; simp
  have hm3 : mutexAt s3 mid = { mutexAt s2 mid with wait_queue := rest } := by
    rw [hs3]; exact mutexAt_setMutex_self s2 mid _ hmid
  have hmfinal : mutexAt (task_set_state s6 w .READY) mid = mutexAt s5 mid := by
    rw [mutexAt_task_set_state, hs6, mutexAt_task_add_held_mutex]
  -- the waiter after the handoff
  have ht4 : taskAt s4 w = { taskAt s3 w with blocked_on := none } := by
    rw [hs4]; exact taskAt_setTask_self _ _ _ hw3
  have ht5 : taskAt s5 w = taskAt s4 w := by rw [hs5]; simp
  have ht6 : taskAt s6 w =
      { taskAt s5 w with held_mutexes := (taskAt s5 w).held_mutexes ++ [mid] } := by
    rw [hs6]; exact taskAt_task_add_held_mutex_self s5 w mid hw5
  have ht3 : taskAt s3 w = taskAt s2 w := by rw [hs3]; simp
  refine ⟨?_, ?_, ?_, ?_, ?_, ?_, ?_, ?_, ?_, ?_⟩
  · rw [hmfinal, hm5]
  · rw [hmfinal, hm5, hm4, hm3]
  · rw [hmfinal, hm5, hm4, hm3]
  · have := (fields_task_set_state_self s6 w .READY).1
    rw [this, ht6, ht5, ht4]
  · exact state_task_set_state_self s6 w .READY hw6
  · have := (fields_task_set_state_self s6 w .READY).2
    rw [this, ht6, ht5, ht4, ht3]
  · intro j hj
    rw [taskAt_task_set_state_ne s6 w .READY j (fun he => hj he.symm), hs6,
      taskAt_task_add_held_mutex_ne s5 w mid j (fun he => hj he.symm), hs5,
      mutexAt_setMutex_tasks, hs4,
      taskAt_setTask_ne s3 w _ j (fun he => hj he.symm), hs3]
    rfl
  · intro j hj
    rw [mutexAt_task_set_state, hs6, mutexAt_task_add_held_mutex, hs5,
      mutexAt_setMutex_ne s4 mid _ j (fun he => hj he.symm), hs4, mutexAt_setTask, hs3,
      mutexAt_setMutex_ne s2 mid _ j (fun he => hj he.symm)]
  · rw [length_tasks_task_set_state, hlen6]
  · rw [mutexes_task_set_state, hs6, mutexes_task_add_held_mutex, hmlen5]

end RTOS

namespace RTOS

/-- Folding a list of public operations preserves reachability. -/
theorem reaches_foldl (ops : List Op) :
    ∀ s : Scheduler, Reaches s → Reaches (ops.foldl (fun s op => applyOp op s) s) := by
  induction ops with
  | nil => intro s h; exact h
  | cons op rest ih =>
    intro s h
    exact ih (applyOp op s) (Reaches.step op s h)

/-- A reachable state in which a waiter queued behind a lower-priority waiter
was later boosted by transitive priority inheritance: ids are idle 0,
TLow(P20) 1, A(P5) 2, B(P8) 3, C(P1) 4; mutexes are M 0 and M2 1.  TLow holds
M; B holds M2 and blocks on M behind A; then C blocks on M2, transitively
boosting B to priority 1 — but M's wait queue keeps its insertion order
[A, B], which is no longer sorted by current priority. -/
def boostedWaiterState : Scheduler :=
  [Op.create 20 0 0 5, Op.create 5 0 0 5, Op.create 8 0 0 5, Op.create 1 0 0 5,
   Op.mkMutex, Op.mkMutex, Op.lock 0 1, Op.lock 1 3, Op.lock 0 2, Op.lock 0 3,
   Op.lock 1 4].foldl
    (fun s op => applyOp op s) (scheduler_init .SCHED_PRIORITY true)

/-- Counterexample to C3 as stated: in the reachable state
`boostedWaiterState`, mutex 0 is owned by task 1 and its wait queue is
[2, 3], where waiter 3 (boosted to priority 1) has a strictly higher
priority than waiter 2 (priority 5); `mutex_unlock` nevertheless hands the
mutex to task 2, the head of the queue, not to the highest-priority waiter,
which stays queued. -/
theorem C3_unlock_not_highest_priority_cex :
    Reaches boostedWaiterState ∧
    (mutexAt boostedWaiterState 0).owner = some 1 ∧
    (mutexAt boostedWaiterState 0).wait_queue = [2, 3] ∧
    (taskAt boostedWaiterState 3).priority < (taskAt boostedWaiterState 2).priority ∧
    (mutexAt (mutex_unlock boostedWaiterState 0 1) 0).owner = some 2 ∧
    (mutexAt (mutex_unlock boostedWaiterState 0 1) 0).wait_queue = [3] := by
  refine ⟨reaches_foldl _ _ (Reaches.init .SCHED_PRIORITY true), ?_, ?_, ?_, ?_, ?_⟩ <;>
    decide

/-- C3 (amended): `mutex_unlock(M, T)` with owner T removes M from T's held
set, then (if PIP is enabled) restores T's priority on the already-reduced
held set before handing off ownership; if M's wait queue is non-empty it
pops the FIRST waiter W — the head of the priority-ordered-at-insertion
queue, which need not be the highest-priority waiter when a queued waiter
was boosted afterwards (see the counterexample) — clears `W.blocked_on`,
sets `M.owner = W`, adds M to W's held set and makes W Ready while M stays
locked; with an empty queue it marks M unlocked and ownerless; finally it
re-dispatches. -/
theorem C3_mutex_unlock_steps (s : Scheduler) (mid tid : Nat)
    (hmid : mid < s.mutexes.length) (ht : tid < s.tasks.length)
    (hown : (mutexAt s mid).owner = some tid) :
    ∃ s2 : Scheduler,
      s2 = (if s.priority_inheritance_enabled = true
            then priority_restore (task_remove_held_mutex s tid mid) tid
            else task_remove_held_mutex s tid mid) ∧
      mutex_unlock s mid tid = scheduler_schedule (unlockHandoff s2 mid) ∧
      (taskAt (task_remove_held_mutex s tid mid) tid).held_mutexes =
        (taskAt s tid).held_mutexes.erase mid ∧
      (∀ w rest, (mutexAt s mid).wait_queue = w :: rest → w < s.tasks.length →
        w ≠ tid →
        (mutexAt (unlockHandoff s2 mid) mid).owner = some w ∧
        (mutexAt (unlockHandoff s2 mid) mid).wait_queue = rest ∧
        (mutexAt (unlockHandoff s2 mid) mid).locked = (mutexAt s mid).locked ∧
        (taskAt (unlockHandoff s2 mid) w).blocked_on = none ∧
        (taskAt (unlockHandoff s2 mid) w).state = .READY ∧
        (taskAt (unlockHandoff s2 mid) w).held_mutexes =
          (taskAt s w).held_mutexes ++ [mid]) ∧
      ((mutexAt s mid).wait_queue = [] →
        (mutexAt (unlockHandoff s2 mid) mid).locked = false ∧
        (mutexAt (unlockHandoff s2 mid) mid).owner = none) := by
  set s1 := task_remove_held_mutex s tid mid with hs1
  refine ⟨if s.priority_inheritance_enabled = true then priority_restore s1 tid else s1,
    rfl, ?_, ?_, ?_, ?_⟩
  · rw [mutex_unlock_eq s mid tid hmid ht hown]
    rw [hs1, pi_task_remove_held_mutex]
  · rw [hs1]
    rw [taskAt_task_remove_held_mutex_self s tid mid ht]
  · intro w rest hwq hw hwtid
    set s2 := if s.priority_inheritance_enabled = true then priority_restore s1 tid else s1
      with hs2
    have hmut2 : ∀ j, mutexAt s2 j = mutexAt s j := by
      intro j
      rw [hs2]
      split
      · rw [mutexAt_priority_restore, hs1, mutexAt_task_remove_held_mutex]
      · rw [hs1, mutexAt_task_remove_held_mutex]
    have hmlen2 : s2.mutexes.length = s.mutexes.length := by
      rw [hs2]
      split
      · rw [mutexes_priority_restore, hs1, mutexes_task_remove_held_mutex]
      · rw [hs1, mutexes_task_remove_held_mutex]
    have hlen2 : s2.tasks.length = s.tasks.length := by
      rw [hs2]
      split
      · rw [length_tasks_priority_restore, hs1, length_tasks_task_remove_held_mutex]
      · rw [hs1, length_tasks_task_remove_held_mutex]
    have htw2 : taskAt s2 w = taskAt s w := by
      rw [hs2]
      split
      · rw [taskAt_priority_restore_ne _ _ _ (fun he => hwtid he.symm), hs1,
          taskAt_task_remove_held_mutex_ne _ _ _ _ (fun he => hwtid he.symm)]
      · rw [hs1, taskAt_task_remove_held_mutex_ne _ _ _ _ (fun he => hwtid he.symm)]
    obtain ⟨a, b, c, d, e, f, -, -, -, -⟩ :=
      unlockHandoff_char s2 mid w rest (by rw [hmlen2]; exact hmid)
        (by rw [hlen2]; exact hw) (by rw [hmut2]; exact hwq)
    refine ⟨a, b, ?_, d, e, ?_⟩
    · rw [c, hmut2]
    · rw [f, htw2]
  · intro hwq
    set s2 := if s.priority_inheritance_enabled = true then priority_restore s1 tid else s1
      with hs2
    have hmut2 : ∀ j, mutexAt s2 j = mutexAt s j := by
      intro j
      rw [hs2]
      split
      · rw [mutexAt_priority_restore, hs1, mutexAt_task_remove_held_mutex]
      · rw [hs1, mutexAt_task_remove_held_mutex]
    have hmlen2 : s2.mutexes.length = s.mutexes.length := by
      rw [hs2]
      split
      · rw [mutexes_priority_restore, hs1, mutexes_task_remove_held_mutex]
      · rw [hs1, mutexes_task_remove_held_mutex]
    rw [unlockHandoff_nil s2 mid (by rw [hmut2]; exact hwq)]
    rw [mutexAt_setMutex_self s2 mid _ (by rw [hmlen2]; exact hmid)]
    exact ⟨rfl, rfl⟩

/-- Witness for C3 at a concrete state (`restoreDemo`: task 1 owns mutex 0,
task 2 waits): the instantiated conclusion of `C3_mutex_unlock_steps`. -/
theorem C3_mutex_unlock_steps_witness :
    ∃ s2 : Scheduler,
      s2 = (if restoreDemo.priority_inheritance_enabled = true
            then priority_restore (task_remove_held_mutex restoreDemo 1 0) 1
            else task_remove_held_mutex restoreDemo 1 0) ∧
      mutex_unlock restoreDemo 0 1 = scheduler_schedule (unlockHandoff s2 0) ∧
      (taskAt (task_remove_held_mutex restoreDemo 1 0) 1).held_mutexes =
        (taskAt restoreDemo 1).held_mutexes.erase 0 ∧
      (∀ w rest, (mutexAt restoreDemo 0).wait_queue = w :: rest →
        w < restoreDemo.tasks.length → w ≠ 1 →
        (mutexAt (unlockHandoff s2 0) 0).owner = some w ∧
        (mutexAt (unlockHandoff s2 0) 0).wait_queue = rest ∧
        (mutexAt (unlockHandoff s2 0) 0).locked = (mutexAt restoreDemo 0).locked ∧
        (taskAt (unlockHandoff s2 0) w).blocked_on = none ∧
        (taskAt (unlockHandoff s2 0) w).state = .READY ∧
        (taskAt (unlockHandoff s2 0) w).held_mutexes =
          (taskAt restoreDemo w).held_mutexes ++ [0]) ∧
      ((mutexAt restoreDemo 0).wait_queue = [] →
        (mutexAt (unlockHandoff s2 0) 0).locked = false ∧
        (mutexAt (unlockHandoff s2 0) 0).owner = none) :=
  C3_mutex_unlock_steps restoreDemo 0 1 (by decide) (by decide) (by decide)

end RTOS


/-! ### Dispatch characterization -/

namespace RTOS

theorem ready_queue_insert_queue (s : Scheduler) (tid : Nat)
    (hcap : s.ready_queue.length < MAX_READY_TASKS) :
    (ready_queue_insert s tid).ready_queue =
      insertByPri (fun j => (taskAt s j).priority) ((taskAt s tid).priority) tid
        s.ready_queue := by
  unfold ready_queue_insert
  rw [if_neg (by omega)]

theorem ready_queue_insert_full (s : Scheduler) (tid : Nat)
    (hcap : MAX_READY_TASKS ≤ s.ready_queue.length) :
    ready_queue_insert s tid = s := by
  unfold ready_queue_insert
  rw [if_pos hcap]

theorem scheduler_context_switch_char (s : Scheduler) (c next : Nat)
    (hne : c ≠ next) (hc : c < s.tasks.length) (hnext : next < s.tasks.length) :
    (scheduler_context_switch s (some c) next).current_task = some next ∧
    (scheduler_context_switch s (some c) next).context_switches =
      u64succ s.context_switches ∧
    (taskAt (scheduler_context_switch s (some c) next) next).state = .RUNNING ∧
    ((taskAt s c).state = .RUNNING →
      (taskAt (scheduler_context_switch s (some c) next) c).state = .READY ∧
      (taskAt (scheduler_context_switch s (some c) next) c).preemptions =
        u32succ (taskAt s c).preemptions ∧
      (taskAt (scheduler_context_switch s (some c) next) c).ready_since =
        s.system_ticks ∧
      (s.ready_queue.length < MAX_READY_TASKS →
        c ∈ (scheduler_context_switch s (some c) next).ready_queue) ∧
      (s.ready_queue.Nodup → c ∉ s.ready_queue →
        next ∉ (scheduler_context_switch s (some c) next).ready_queue)) ∧
    ((taskAt s c).state ≠ .RUNNING →
      taskAt (scheduler_context_switch s (some c) next) c = taskAt s c ∧
      (s.ready_queue.Nodup →
        next ∉ (scheduler_context_switch s (some c) next).ready_queue)) := by
  unfold scheduler_context_switch
  rw [if_neg (by simpa using hne)]
  dsimp only
  by_cases hrun : (taskAt s c).state = .RUNNING
  · rw [if_pos hrun]
    set R1 : TCB := { taskAt s c with
        state := .READY
        ready_since := s.system_ticks
        preemptions := u32succ (taskAt s c).preemptions } with hR1
    set sA := ready_queue_insert (setTask s c R1) c with hsA
    set sB := ready_queue_remove sA next with hsB
    have hlenA : sA.tasks.length = s.tasks.length := by rw [hsA]; simp
    have hlenB : sB.tasks.length = s.tasks.length := by rw [hsB]; simp [hlenA]
    have htB_c : taskAt sB c = R1 := by
      rw [hsB, taskAt_ready_queue_remove, hsA, taskAt_ready_queue_insert]
      exact taskAt_setTask_self s c R1 hc
    have hfin_c : taskAt (setTask sB next { taskAt sB next with state := .RUNNING }) c
        = R1 := by
      rw [taskAt_setTask_ne sB next _ c (fun he => hne he.symm), htB_c]
    refine ⟨rfl, ?_, ?_, ?_, fun h => absurd hrun h⟩
    · show u64succ (setTask sB next
        { taskAt sB next with state := .RUNNING }).context_switches
        = u64succ s.context_switches
      rw [context_switches_setTask, hsB, context_switches_ready_queue_remove, hsA,
        context_switches_ready_queue_insert, context_switches_setTask]
    · show (taskAt (setTask sB next { taskAt sB next with state := .RUNNING }) next).state
        = .RUNNING
      rw [taskAt_setTask_self sB next _ (by rw [hlenB]; exact hnext)]
    · intro _
      have hqfin : (setTask sB next { taskAt sB next with state := .RUNNING }).ready_queue
          = sA.ready_queue.erase next := by
        rw [ready_queue_setTask, hsB, ready_queue_ready_queue_remove]
      refine ⟨?_, ?_, ?_, ?_, ?_⟩
      · show (taskAt (setTask sB next { taskAt sB next with state := .RUNNING }) c).state
          = .READY
        rw [hfin_c]
      · show (taskAt (setTask sB next { taskAt sB next with state := .RUNNING }) c).preemptions
          = u32succ (taskAt s c).preemptions
        rw [hfin_c]
      · show (taskAt (setTask sB next { taskAt sB next with state := .RUNNING }) c).ready_since
          = s.system_ticks
        rw [hfin_c]
      · intro hcap
        show c ∈ (setTask sB next { taskAt sB next with state := .RUNNING }).ready_queue
        rw [hqfin, hsA, ready_queue_insert_queue _ c (by simpa using hcap)]
        refine (List.mem_erase_of_ne hne).mpr ?_
        rw [mem_insertByPri]
        exact Or.inl rfl
      · intro hnd hcq
        show next ∉ (setTask sB next { taskAt sB next with state := .RUNNING }).ready_queue
        rw [hqfin]
        by_cases hcap : MAX_READY_TASKS ≤ (setTask s c R1).ready_queue.length
        · rw [hsA, ready_queue_insert_full _ c hcap]
          have : (setTask s c R1).ready_queue = s.ready_queue := by simp
          rw [this]
          exact hnd.not_mem_erase
        · rw [hsA, ready_queue_insert_queue _ c (by omega)]
          have hnd2 : (insertByPri (fun j => (taskAt (setTask s c R1) j).priority)
              ((taskAt (setTask s c R1) c).priority) c
              (setTask s c R1).ready_queue).Nodup := by
            have hq : (setTask s c R1).ready_queue = s.ready_queue := by simp
            rw [hq]
            exact nodup_insertByPri _ _ c s.ready_queue hnd hcq
          exact hnd2.not_mem_erase
  · rw [if_neg hrun]
    refine ⟨rfl, rfl, ?_, fun h => absurd h hrun, ?_⟩
    · show (taskAt (setTask (ready_queue_remove s next) next
        { taskAt (ready_queue_remove s next) next with state := .RUNNING }) next).state
        = .RUNNING
      rw [taskAt_setTask_self _ next _ (by simpa using hnext)]
    · intro _
      constructor
      · show taskAt (setTask (ready_queue_remove s next) next
          { taskAt (ready_queue_remove s next) next with state := .RUNNING }) c = taskAt s c
        rw [taskAt_setTask_ne _ next _ c (fun he => hne he.symm)]
        rfl
      · intro hnd
        show next ∉ (setTask (ready_queue_remove s next) next
          { taskAt (ready_queue_remove s next) next with state := .RUNNING }).ready_queue
        have hq : (setTask (ready_queue_remove s next) next
            { taskAt (ready_queue_remove s next) next with state := .RUNNING }).ready_queue
            = s.ready_queue.erase next := by
          rw [ready_queue_setTask, ready_queue_ready_queue_remove]
        rw [hq]
        exact hnd.not_mem_erase

end RTOS

namespace RTOS

/-- Demonstration state for the C7 witness: Low (id 1, P10) is Running and
High (id 2, P1) just became Ready, so the next dispatch preempts Low. -/
def dispatchDemo : Scheduler :=
  [Op.create 10 0 0 5, Op.dispatch, Op.create 1 0 0 5].foldl
    (fun s op => applyOp op s) (scheduler_init .SCHED_PRIORITY true)

/-- C7: `schedule()` selects next = head of the ready queue, or the idle
task when the queue is empty; it returns without change if next is the
current task; if the current task is Running and `next.priority ≥
current.priority` it keeps the current task (ties go to the incumbent);
otherwise it context-switches: the displaced Running task becomes Ready, is
reinserted into the ready queue and its preemption counter is incremented,
while next is removed from the ready queue, becomes Running, becomes
`current_task`, and `context_switches` is incremented. -/
theorem C7_scheduler_schedule (s : Scheduler) :
    (s.ready_queue = [] → scheduler_get_next_task s = s.idle_task) ∧
    (∀ j rest, s.ready_queue = j :: rest → scheduler_get_next_task s = j) ∧
    (s.current_task = some (scheduler_get_next_task s) → scheduler_schedule s = s) ∧
    (∀ c, s.current_task = some c → (taskAt s c).state = .RUNNING →
      (taskAt s c).priority ≤ (taskAt s (scheduler_get_next_task s)).priority →
      scheduler_schedule s = s) ∧
    (∀ c, s.current_task = some c → c ≠ scheduler_get_next_task s →
      (taskAt s c).state = .RUNNING →
      (taskAt s (scheduler_get_next_task s)).priority < (taskAt s c).priority →
      c < s.tasks.length → scheduler_get_next_task s < s.tasks.length →
      s.ready_queue.Nodup → c ∉ s.ready_queue → s.ready_queue.length < MAX_READY_TASKS →
      (scheduler_schedule s).current_task = some (scheduler_get_next_task s) ∧
      (scheduler_schedule s).context_switches = u64succ s.context_switches ∧
      (taskAt (scheduler_schedule s) (scheduler_get_next_task s)).state = .RUNNING ∧
      (taskAt (scheduler_schedule s) c).state = .READY ∧
      (taskAt (scheduler_schedule s) c).preemptions = u32succ (taskAt s c).preemptions ∧
      c ∈ (scheduler_schedule s).ready_queue ∧
      scheduler_get_next_task s ∉ (scheduler_schedule s).ready_queue) := by
  refine ⟨?_, ?_, ?_, ?_, ?_⟩
  · intro hq
    unfold scheduler_get_next_task
    rw [hq]
    rfl
  · intro j rest hq
    unfold scheduler_get_next_task
    rw [hq]
    rfl
  · intro hcur
    unfold scheduler_schedule
    rw [hcur]
    dsimp only
    rw [if_pos rfl]
  · intro c hcur hrun hple
    unfold scheduler_schedule
    rw [hcur]
    dsimp only
    by_cases hnc : scheduler_get_next_task s = c
    · rw [if_pos hnc]
    · rw [if_neg hnc, if_pos ⟨hrun, hple⟩]
  · intro c hcur hne hrun hlt hcv hnv hnd hcq hcap
    have hsch : scheduler_schedule s = scheduler_context_switch s (some c)
        (scheduler_get_next_task s) := by
      unfold scheduler_schedule
      rw [hcur]
      dsimp only
      rw [if_neg (fun he => hne he.symm), if_neg (fun hand => absurd hand.2 (not_le_of_lt hlt))]
    obtain ⟨ha, hb, hst, hR, -⟩ :=
      scheduler_context_switch_char s c (scheduler_get_next_task s) hne hcv hnv
    obtain ⟨hc1, hc2, -, hc4, hc5⟩ := hR hrun
    rw [hsch]
    exact ⟨ha, hb, hst, hc1, hc2, hc4 hcap, hc5 hnd hcq⟩

/-- Witness for C7 at a concrete state: dispatching `dispatchDemo` preempts
task 1 in favour of the higher-priority task 2. -/
theorem C7_scheduler_schedule_witness :
    (scheduler_schedule dispatchDemo).current_task = some 2 ∧
    (taskAt (scheduler_schedule dispatchDemo) 1).state = .READY ∧
    1 ∈ (scheduler_schedule dispatchDemo).ready_queue ∧
    2 ∉ (scheduler_schedule dispatchDemo).ready_queue := by
  obtain ⟨-, -, -, -, h5⟩ := C7_scheduler_schedule dispatchDemo
  obtain ⟨ha, -, -, hd, -, hf, hg⟩ := h5 1 (by decide) (by decide) (by decide) (by decide)
    (by decide) (by decide) (by decide) (by decide) (by decide)
  exact ⟨ha, hd, hf, hg⟩

end RTOS

/-! ### The deadline pass -/

namespace RTOS

theorem setTask_taskAt_self (s : Scheduler) (i : Nat) : setTask s i (taskAt s i) = s := by
  unfold setTask taskAt
  by_cases h : i < s.tasks.length
  · have hl : s.tasks.set i (s.tasks.getD i defaultTCB) = s.tasks := by
      apply List.ext_getElem
      · simp
      · intro n h1 h2
        by_cases hn : i = n
        · subst hn
          rw [List.getElem_set_self]
          rw [List.getD_eq_getElem?_getD, List.getElem?_eq_getElem h]
          rfl
        · rw [List.getElem_set_ne hn]
    rw [hl]
  · rw [List.set_eq_of_length_le (le_of_not_lt h)]

/-- The per-task transform applied by the deadline pass: no change for the
idle task, for tasks with neither period nor relative deadline, or when the
miss condition fails; otherwise count a miss once and park the absolute
deadline at the `UINT64_MAX` sentinel. -/
def deadlineMark (ticks idle i : Nat) (t : TCB) : TCB :=
  if i = idle then t
  else if t.period = 0 ∧ t.relative_deadline = 0 then t
  else if (t.state = .RUNNING ∨ t.state = .READY) ∧ 0 < t.absolute_deadline ∧
          t.absolute_deadline < ticks ∧ 0 < t.remaining_work then
    { t with deadline_misses := u32succ t.deadline_misses, absolute_deadline := U64MAX }
  else t

/-- One iteration of the deadline pass, as a total rewrite of task `i`. -/
def deadlineStep (st : Scheduler) (i : Nat) : Scheduler :=
  setTask st i (deadlineMark st.system_ticks st.idle_task i (taskAt st i))

theorem check_deadlines_eq (s : Scheduler) :
    check_deadlines s = (List.range s.tasks.length).foldl deadlineStep s := by
  unfold check_deadlines
  congr 1
  funext st i
  unfold deadlineStep deadlineMark
  dsimp only
  by_cases h1 : i = st.idle_task
  · rw [if_pos h1, if_pos h1, setTask_taskAt_self]
  · rw [if_neg h1, if_neg h1]
    by_cases h2 : (taskAt st i).period = 0 ∧ (taskAt st i).relative_deadline = 0
    · rw [if_pos h2, if_pos h2, setTask_taskAt_self]
    · rw [if_neg h2, if_neg h2]
      by_cases h3 : ((taskAt st i).state = .RUNNING ∨ (taskAt st i).state = .READY) ∧
          0 < (taskAt st i).absolute_deadline ∧
          (taskAt st i).absolute_deadline < st.system_ticks ∧
          0 < (taskAt st i).remaining_work
      · rw [if_pos h3, if_pos h3]
      · rw [if_neg h3, if_neg h3, setTask_taskAt_self]

@[simp] theorem system_ticks_deadlineStep (st : Scheduler) (i : Nat) :
    (deadlineStep st i).system_ticks = st.system_ticks := rfl

@[simp] theorem idle_task_deadlineStep (st : Scheduler) (i : Nat) :
    (deadlineStep st i).idle_task = st.idle_task := rfl

@[simp] theorem length_tasks_deadlineStep (st : Scheduler) (i : Nat) :
    (deadlineStep st i).tasks.length = st.tasks.length := by
  unfold deadlineStep; simp

theorem foldl_deadlineStep_ticks :
    ∀ (l : List Nat) (st : Scheduler), (l.foldl deadlineStep st).system_ticks =
      st.system_ticks := by
  intro l
  induction l with
  | nil => intro st; rfl
  | cons i rest ih => intro st; rw [List.foldl_cons, ih]; rfl

theorem foldl_deadlineStep_idle :
    ∀ (l : List Nat) (st : Scheduler), (l.foldl deadlineStep st).idle_task =
      st.idle_task := by
  intro l
  induction l with
  | nil => intro st; rfl
  | cons i rest ih => intro st; rw [List.foldl_cons, ih]; rfl

theorem foldl_deadlineStep_length :
    ∀ (l : List Nat) (st : Scheduler), (l.foldl deadlineStep st).tasks.length =
      st.tasks.length := by
  intro l
  induction l with
  | nil => intro st; rfl
  | cons i rest ih => intro st; rw [List.foldl_cons, ih]; simp

theorem foldl_deadlineStep_notmem :
    ∀ (l : List Nat) (st : Scheduler) (j : Nat), j ∉ l →
      taskAt (l.foldl deadlineStep st) j = taskAt st j := by
  intro l
  induction l with
  | nil => intro st j _; rfl
  | cons i rest ih =>
    intro st j hj
    rw [List.foldl_cons, ih _ j (fun hm => hj (List.mem_cons_of_mem _ hm))]
    unfold deadlineStep
    exact taskAt_setTask_ne _ _ _ _ (fun he => hj (he ▸ List.mem_cons_self i rest))

theorem foldl_deadlineStep_mem :
    ∀ (l : List Nat) (st : Scheduler) (j : Nat), l.Nodup → j ∈ l →
      j < st.tasks.length →
      taskAt (l.foldl deadlineStep st) j =
        deadlineMark st.system_ticks st.idle_task j (taskAt st j) := by
  intro l
  induction l with
  | nil => intro st j _ hj; exact absurd hj (List.not_mem_nil j)
  | cons i rest ih =>
    intro st j hnd hj hjl
    rw [List.foldl_cons]
    rcases List.mem_cons.mp hj with rfl | hj2
    · have hrest : j ∉ rest := (List.nodup_cons.mp hnd).1
      rw [foldl_deadlineStep_notmem rest _ j hrest]
      unfold deadlineStep
      exact taskAt_setTask_self _ _ _ hjl
    · have hne : i ≠ j := by
        intro he; subst he
        exact (List.nodup_cons.mp hnd).1 hj2
      have : taskAt (deadlineStep st i) j = taskAt st j := by
        unfold deadlineStep
        exact taskAt_setTask_ne _ _ _ _ hne
      rw [ih (deadlineStep st i) j (List.nodup_cons.mp hnd).2 hj2 (by simpa using hjl), this]
      rfl

theorem taskAt_check_deadlines (s : Scheduler) (i : Nat) (hi : i < s.tasks.length) :
    taskAt (check_deadlines s) i =
      deadlineMark s.system_ticks s.idle_task i (taskAt s i) := by
  rw [check_deadlines_eq]
  exact foldl_deadlineStep_mem _ s i (List.nodup_range _) (List.mem_range.mpr hi) hi

@[simp] theorem system_ticks_check_deadlines (s : Scheduler) :
    (check_deadlines s).system_ticks = s.system_ticks := by
  rw [check_deadlines_eq]; exact foldl_deadlineStep_ticks _ s

@[simp] theorem idle_task_check_deadlines (s : Scheduler) :
    (check_deadlines s).idle_task = s.idle_task := by
  rw [check_deadlines_eq]; exact foldl_deadlineStep_idle _ s

@[simp] theorem length_tasks_check_deadlines (s : Scheduler) :
    (check_deadlines s).tasks.length = s.tasks.length := by
  rw [check_deadlines_eq]; exact foldl_deadlineStep_length _ s

end RTOS

namespace RTOS

/-- A reachable state refuting C9 as stated: task 1 is an aperiodic task
created with deadline 0 at tick 3, so `period = 0`, `relative_deadline = 0`
and `absolute_deadline = 3 > 0`; at tick 4 it is Ready with remaining work,
`system_ticks > absolute_deadline`, yet the deadline pass skipped it. -/
def noDeadlineDemo : Scheduler :=
  [Op.tick, Op.tick, Op.tick, Op.create 5 0 0 5, Op.tick].foldl
    (fun s op => applyOp op s) (scheduler_init .SCHED_PRIORITY true)

/-- Counterexample to C9 as stated: in the reachable state `noDeadlineDemo`,
task 1 is non-idle, Ready, has `absolute_deadline = 3 > 0`,
`system_ticks = 4 > 3` and `remaining_work > 0` — by the claim this is a
miss — yet its `deadline_misses` is 0 and another run of the deadline pass
still changes nothing, because `check_deadlines` skips every task with
`period = 0` and `relative_deadline = 0`. -/
theorem C9_no_deadline_skip_cex :
    Reaches noDeadlineDemo ∧
    1 ≠ noDeadlineDemo.idle_task ∧
    (taskAt noDeadlineDemo 1).state = .READY ∧
    0 < (taskAt noDeadlineDemo 1).absolute_deadline ∧
    (taskAt noDeadlineDemo 1).absolute_deadline < noDeadlineDemo.system_ticks ∧
    0 < (taskAt noDeadlineDemo 1).remaining_work ∧
    (taskAt noDeadlineDemo 1).deadline_misses = 0 ∧
    check_deadlines noDeadlineDemo = noDeadlineDemo := by
  refine ⟨reaches_foldl _ _ (Reaches.init .SCHED_PRIORITY true), ?_, ?_, ?_, ?_, ?_, ?_, ?_⟩
    <;> decide

/-- C9 (amended): during the deadline pass, for every non-idle task in state
Running or Ready with `absolute_deadline > 0` AND not
(`period = 0` and `relative_deadline = 0`) — the pass skips tasks with
neither a period nor a relative deadline — a deadline exactly equal to the
current tick is not a miss, while `system_ticks` strictly greater than
`absolute_deadline` with `remaining_work > 0` is a miss, incrementing
`deadline_misses` exactly once: the deadline is parked at the `UINT64_MAX`
sentinel, so a second pass (at any representable tick) changes nothing. -/
theorem C9_deadline_pass (s : Scheduler) (i : Nat) (hi : i < s.tasks.length) :
    (i ≠ s.idle_task →
      ¬((taskAt s i).period = 0 ∧ (taskAt s i).relative_deadline = 0) →
      ((taskAt s i).state = .RUNNING ∨ (taskAt s i).state = .READY) →
      0 < (taskAt s i).absolute_deadline →
      ((taskAt s i).absolute_deadline < s.system_ticks →
        0 < (taskAt s i).remaining_work →
        (taskAt (check_deadlines s) i).deadline_misses =
          u32succ (taskAt s i).deadline_misses ∧
        (taskAt (check_deadlines s) i).absolute_deadline = U64MAX) ∧
      ((taskAt s i).absolute_deadline = s.system_ticks →
        taskAt (check_deadlines s) i = taskAt s i)) ∧
    ((taskAt s i).absolute_deadline = U64MAX → s.system_ticks < U64MOD →
      taskAt (check_deadlines s) i = taskAt s i) ∧
    (s.system_ticks < U64MOD →
      taskAt (check_deadlines (check_deadlines s)) i = taskAt (check_deadlines s) i) := by
  have hmark := taskAt_check_deadlines s i hi
  refine ⟨?_, ?_, ?_⟩
  · intro hidle hpr hst habs
    constructor
    · intro hlt hwork
      rw [hmark]
      unfold deadlineMark
      rw [if_neg hidle, if_neg hpr, if_pos ⟨hst, habs, hlt, hwork⟩]
      exact ⟨rfl, rfl⟩
    · intro heq
      rw [hmark]
      unfold deadlineMark
      rw [if_neg hidle, if_neg hpr,
        if_neg (fun hand => absurd (heq ▸ hand.2.2.1) (lt_irrefl _))]
  · intro hsent hticks
    rw [hmark]
    unfold deadlineMark
    by_cases h1 : i = s.idle_task
    · rw [if_pos h1]
    · rw [if_neg h1]
      by_cases h2 : (taskAt s i).period = 0 ∧ (taskAt s i).relative_deadline = 0
      · rw [if_pos h2]
      · rw [if_neg h2, if_neg (fun hand => by
          have := hand.2.2.1
          rw [hsent] at this
          unfold U64MAX at this
          omega)]
  · intro hticks
    have hi2 : i < (check_deadlines s).tasks.length := by simpa using hi
    have hmark2 := taskAt_check_deadlines (check_deadlines s) i hi2
    rw [hmark2, system_ticks_check_deadlines, idle_task_check_deadlines, hmark]
    generalize htv : taskAt s i = t
    unfold deadlineMark
    by_cases h1 : i = s.idle_task
    · rw [if_pos h1, if_pos h1]
    · rw [if_neg h1, if_neg h1]
      by_cases h2 : t.period = 0 ∧ t.relative_deadline = 0
      · rw [if_pos h2, if_pos h2]
      · rw [if_neg h2]
        by_cases h3 : (t.state = .RUNNING ∨ t.state = .READY) ∧ 0 < t.absolute_deadline ∧
            t.absolute_deadline < s.system_ticks ∧ 0 < t.remaining_work
        · rw [if_pos h3]
          dsimp only
          rw [if_neg h2, if_neg (fun hand => by
            have := hand.2.2.1
            unfold U64MAX at this
            omega)]
        · rw [if_neg h3, if_neg h2, if_neg h3]

/-- A reachable state for the C9 witness: task 1 (deadline 3) slept through
ticks 1-4 suspended, was resumed at tick 4, and now satisfies the miss
condition with the pass not yet run on it. -/
def missDemo : Scheduler :=
  [Op.create 2 0 3 5, Op.suspendTask 1, Op.tick, Op.tick, Op.tick, Op.tick,
   Op.resumeTask 1].foldl
    (fun s op => applyOp op s) (scheduler_init .SCHED_PRIORITY true)

/-- Witness for C9 at a concrete state: running the deadline pass on
`missDemo` records exactly one miss for task 1 and parks its deadline. -/
theorem C9_deadline_pass_witness :
    (taskAt (check_deadlines missDemo) 1).deadline_misses =
      u32succ (taskAt missDemo 1).deadline_misses ∧
    (taskAt (check_deadlines missDemo) 1).absolute_deadline = U64MAX := by
  obtain ⟨h1, -, -⟩ := C9_deadline_pass missDemo 1 (by decide)
  exact (h1 (by decide) (by decide) (by decide) (by decide)).1 (by decide) (by decide)

end RTOS

/-! ### Rate-monotonic recalculation -/

namespace RTOS

theorem length_tasks_assignRanks :
    ∀ (ids : List Nat) (k : Nat) (st : Scheduler),
      (assignRanks k ids st).tasks.length = st.tasks.length := by
  intro ids
  induction ids with
  | nil => intro k st; rfl
  | cons i rest ih =>
    intro k st
    unfold assignRanks
    rw [ih]
    simp

theorem ready_queue_assignRanks :
    ∀ (ids : List Nat) (k : Nat) (st : Scheduler),
      (assignRanks k ids st).ready_queue = st.ready_queue := by
  intro ids
  induction ids with
  | nil => intro k st; rfl
  | cons i rest ih =>
    intro k st
    unfold assignRanks
    rw [ih]
    rfl

theorem idle_task_assignRanks :
    ∀ (ids : List Nat) (k : Nat) (st : Scheduler),
      (assignRanks k ids st).idle_task = st.idle_task := by
  intro ids
  induction ids with
  | nil => intro k st; rfl
  | cons i rest ih =>
    intro k st
    unfold assignRanks
    rw [ih]
    rfl

theorem taskAt_assignRanks_notmem :
    ∀ (ids : List Nat) (k : Nat) (st : Scheduler) (x : Nat), x ∉ ids →
      taskAt (assignRanks k ids st) x = taskAt st x := by
  intro ids
  induction ids with
  | nil => intro k st x _; rfl
  | cons i rest ih =>
    intro k st x hx
    unfold assignRanks
    rw [ih _ _ x (fun hm => hx (List.mem_cons_of_mem _ hm))]
    exact taskAt_setTask_ne _ _ _ _ (fun he => hx (he ▸ List.mem_cons_self i rest))

theorem state_taskAt_assignRanks :
    ∀ (ids : List Nat) (k : Nat) (st : Scheduler) (j : Nat),
      (taskAt (assignRanks k ids st) j).state = (taskAt st j).state := by
  intro ids
  induction ids with
  | nil => intro k st j; rfl
  | cons i rest ih =>
    intro k st j
    unfold assignRanks
    rw [ih]
    rw [taskAt_setTask]
    split
    · rename_i hc
      obtain ⟨rfl, -⟩ := hc
      rfl
    · rfl

theorem taskAt_assignRanks_get :
    ∀ (ids : List Nat) (k : Nat) (st : Scheduler), ids.Nodup →
      (∀ x ∈ ids, x < st.tasks.length) →
      ∀ (n : Nat) (hn : n < ids.length),
        taskAt (assignRanks k ids st) (ids.get ⟨n, hn⟩) =
          { taskAt st (ids.get ⟨n, hn⟩) with
              priority := ((k + n : Nat) : Int)
              original_priority := ((k + n : Nat) : Int) } := by
  intro ids
  induction ids with
  | nil => intro k st _ _ n hn; exact absurd hn (by simp)
  | cons i rest ih =>
    intro k st hnd hval n hn
    cases n with
    | zero =>
      show taskAt (assignRanks k (i :: rest) st) i = _
      unfold assignRanks
      rw [taskAt_assignRanks_notmem rest (k + 1) _ i (List.nodup_cons.mp hnd).1]
      rw [taskAt_setTask_self st i _ (hval i (List.mem_cons_self i rest))]
      simp
    | succ m =>
      have hm : m < rest.length := Nat.lt_of_succ_lt_succ hn
      show taskAt (assignRanks k (i :: rest) st) (rest.get ⟨m, hm⟩) = _
      unfold assignRanks
      have hiv : i < st.tasks.length := hval i (List.mem_cons_self i rest)
      have hmemv : ∀ x ∈ rest, x < (setTask st i
          { taskAt st i with priority := (k : Int), original_priority := (k : Int) }).tasks.length := by
        intro x hx
        rw [length_tasks_setTask]
        exact hval x (List.mem_cons_of_mem _ hx)
      rw [ih (k + 1) _ (List.nodup_cons.mp hnd).2 hmemv m hm]
      have hne : i ≠ rest.get ⟨m, hm⟩ := by
        intro he
        exact (List.nodup_cons.mp hnd).1 (he ▸ List.get_mem rest m hm)
      rw [taskAt_setTask_ne st i _ _ hne]
      have harith : ((k + 1 + m : Nat) : Int) = ((k + (m + 1) : Nat) : Int) := by
        congr 1
        omega
      rw [harith]
      rfl

@[simp] theorem tasks_readyRebuildStep (st : Scheduler) (i : Nat) :
    (readyRebuildStep st i).tasks = st.tasks := by
  unfold readyRebuildStep
  split <;> simp

@[simp] theorem taskAt_readyRebuildStep (st : Scheduler) (i j : Nat) :
    taskAt (readyRebuildStep st i) j = taskAt st j := by
  simp [taskAt]

@[simp] theorem idle_task_readyRebuildStep (st : Scheduler) (i : Nat) :
    (readyRebuildStep st i).idle_task = st.idle_task := by
  unfold readyRebuildStep
  split <;> simp

theorem foldl_readyRebuildStep_tasks :
    ∀ (l : List Nat) (st : Scheduler), (l.foldl readyRebuildStep st).tasks = st.tasks := by
  intro l
  induction l with
  | nil => intro st; rfl
  | cons i rest ih => intro st; rw [List.foldl_cons, ih]; simp

theorem foldl_readyRebuildStep_mem :
    ∀ (l : List Nat) (st : Scheduler) (x : Nat),
      st.ready_queue.length + l.length ≤ MAX_READY_TASKS →
      (x ∈ (l.foldl readyRebuildStep st).ready_queue ↔
        x ∈ st.ready_queue ∨
          (x ∈ l ∧ (taskAt st x).state = .READY ∧ x ≠ st.idle_task)) := by
  intro l
  induction l with
  | nil =>
    intro st x _
    simp
  | cons i rest ih =>
    intro st x hcap
    rw [List.foldl_cons]
    by_cases hc : (taskAt st i).state = .READY ∧ i ≠ st.idle_task
    · rw [show readyRebuildStep st i = ready_queue_insert st i from by
        unfold readyRebuildStep; rw [if_pos hc]]
      have hlen : st.ready_queue.length < MAX_READY_TASKS := by
        simp at hcap
        omega
      have hq : (ready_queue_insert st i).ready_queue.length =
          st.ready_queue.length + 1 := by
        rw [ready_queue_insert_queue st i hlen, length_insertByPri]
      have := ih (ready_queue_insert st i) x (by
        rw [hq]
        simp at hcap ⊢
        omega)
      rw [this]
      rw [ready_queue_insert_queue st i hlen, mem_insertByPri]
      constructor
      · rintro ((rfl | hx) | ⟨hxr, hst, hxi⟩)
        · exact Or.inr ⟨List.mem_cons_self _ _, hc.1, hc.2⟩
        · exact Or.inl hx
        · refine Or.inr ⟨List.mem_cons_of_mem _ hxr, ?_, ?_⟩
          · simpa using hst
          · simpa using hxi
      · rintro (hx | ⟨hxm, hst, hxi⟩)
        · exact Or.inl (Or.inr hx)
        · rcases List.mem_cons.mp hxm with rfl | hxr
          · exact Or.inl (Or.inl rfl)
          · refine Or.inr ⟨hxr, ?_, ?_⟩
            · rw [taskAt_ready_queue_insert]; exact hst
            · rw [idle_task_ready_queue_insert]; exact hxi
    · rw [show readyRebuildStep st i = st from by
        unfold readyRebuildStep; rw [if_neg hc]]
      rw [ih st x (by simp at hcap ⊢; omega)]
      constructor
      · rintro (hx | ⟨hxr, hst, hxi⟩)
        · exact Or.inl hx
        · exact Or.inr ⟨List.mem_cons_of_mem _ hxr, hst, hxi⟩
      · rintro (hx | ⟨hxm, hst, hxi⟩)
        · exact Or.inl hx
        · rcases List.mem_cons.mp hxm with rfl | hxr
          · exact absurd ⟨hst, hxi⟩ hc
          · exact Or.inr ⟨hxr, hst, hxi⟩

end RTOS

namespace RTOS

theorem taskAt_eq_of_tasks_eq {s s' : Scheduler} (h : s'.tasks = s.tasks) (j : Nat) :
    taskAt s' j = taskAt s j := by
  simp [taskAt, h]

theorem mem_rms_collect (s : Scheduler) (i : Nat) :
    i ∈ rms_collect s ↔ i < s.tasks.length ∧ 0 < (taskAt s i).period ∧
      (taskAt s i).state ≠ .TERMINATED ∧ i ≠ s.idle_task := by
  unfold rms_collect
  rw [List.mem_filter, List.mem_range]
  simp

theorem nodup_rms_collect (s : Scheduler) : (rms_collect s).Nodup :=
  (List.nodup_range _).filter _

theorem rms_sorted_perm (s : Scheduler) : List.Perm (rms_sorted s) (rms_collect s) :=
  List.perm_insertionSort _ _

theorem nodup_rms_sorted (s : Scheduler) : (rms_sorted s).Nodup :=
  (rms_sorted_perm s).symm.nodup (nodup_rms_collect s)

theorem mem_rms_sorted (s : Scheduler) (x : Nat) :
    x ∈ rms_sorted s ↔ x ∈ rms_collect s :=
  (rms_sorted_perm s).mem_iff

theorem sorted_rms_sorted (s : Scheduler) :
    (rms_sorted s).Pairwise (fun a b => (taskAt s a).period ≤ (taskAt s b).period) := by
  haveI h1 : IsTotal Nat (fun a b => (taskAt s a).period ≤ (taskAt s b).period) :=
    ⟨fun a b => Nat.le_total _ _⟩
  haveI h2 : IsTrans Nat (fun a b => (taskAt s a).period ≤ (taskAt s b).period) :=
    ⟨fun _ _ _ hab hbc => le_trans hab hbc⟩
  exact List.sorted_insertionSort _ _

theorem tasks_rms_recalculate (s : Scheduler) :
    (rms_recalculate_priorities s).tasks = (assignRanks 0 (rms_sorted s) s).tasks := by
  unfold rms_recalculate_priorities
  dsimp only
  rw [foldl_readyRebuildStep_tasks]

/-- Demonstration state for the C10 witness: three periodic tasks with
periods 10, 15, 20 under the rate-monotonic policy, before
`rms_recalculate_priorities`. -/
def rmDemo : Scheduler :=
  [Op.create 9 10 0 3, Op.create 9 15 0 4, Op.create 9 20 0 5].foldl
    (fun s op => applyOp op s) (scheduler_init .SCHED_RATE_MONOTONIC true)

/-- C10: after `rms_recalculate_priorities`, every non-idle, non-terminated
task with positive period has `priority = original = its rank` in ascending
period order (rank 0 = shortest period), so for two such tasks
`period_i < period_j` implies `priority_i < priority_j`; the ready queue is
then rebuilt to contain exactly the Ready, non-idle tasks. -/
theorem C10_rms_recalculate (s : Scheduler) (hcap : s.tasks.length ≤ MAX_READY_TASKS) :
    (∀ i, i < s.tasks.length → 0 < (taskAt s i).period →
      (taskAt s i).state ≠ .TERMINATED → i ≠ s.idle_task →
      ∃ k, ∃ hk : k < (rms_sorted s).length,
        (rms_sorted s).get ⟨k, hk⟩ = i ∧
        (taskAt (rms_recalculate_priorities s) i).priority = (k : Int) ∧
        (taskAt (rms_recalculate_priorities s) i).original_priority = (k : Int)) ∧
    (∀ i j, i ∈ rms_collect s → j ∈ rms_collect s →
      (taskAt s i).period < (taskAt s j).period →
      (taskAt (rms_recalculate_priorities s) i).priority <
        (taskAt (rms_recalculate_priorities s) j).priority) ∧
    (∀ x, x ∈ (rms_recalculate_priorities s).ready_queue ↔
      (x < s.tasks.length ∧ (taskAt s x).state = .READY ∧ x ≠ s.idle_task)) := by
  have hval : ∀ x ∈ rms_sorted s, x < s.tasks.length := by
    intro x hx
    exact ((mem_rms_collect s x).mp ((mem_rms_sorted s x).mp hx)).1
  have hrank : ∀ i ∈ rms_collect s, ∃ k, ∃ hk : k < (rms_sorted s).length,
      (rms_sorted s).get ⟨k, hk⟩ = i ∧
      (taskAt (rms_recalculate_priorities s) i).priority = (k : Int) ∧
      (taskAt (rms_recalculate_priorities s) i).original_priority = (k : Int) := by
    intro i hi
    have hmem : i ∈ rms_sorted s := (mem_rms_sorted s i).mpr hi
    obtain ⟨⟨k, hk⟩, hget⟩ := List.mem_iff_get.mp hmem
    refine ⟨k, hk, hget, ?_, ?_⟩
    · rw [taskAt_eq_of_tasks_eq (tasks_rms_recalculate s) i, ← hget,
        taskAt_assignRanks_get (rms_sorted s) 0 s (nodup_rms_sorted s) hval k hk]
      simp
    · rw [taskAt_eq_of_tasks_eq (tasks_rms_recalculate s) i, ← hget,
        taskAt_assignRanks_get (rms_sorted s) 0 s (nodup_rms_sorted s) hval k hk]
      simp
  refine ⟨?_, ?_, ?_⟩
  · intro i hi hper hterm hidle
    exact hrank i ((mem_rms_collect s i).mpr ⟨hi, hper, hterm, hidle⟩)
  · intro i j hi hj hper
    obtain ⟨ki, hki, hgi, hpi, -⟩ := hrank i hi
    obtain ⟨kj, hkj, hgj, hpj, -⟩ := hrank j hj
    have hij : i ≠ j := by
      intro he
      subst he
      exact lt_irrefl _ hper
    have hkij : ki < kj := by
      rcases Nat.lt_trichotomy ki kj with h | h | h
      · exact h
      · exfalso
        apply hij
        rw [← hgi, ← hgj]
        congr 1
        exact Fin.ext h
      · exfalso
        have := List.pairwise_iff_get.mp (sorted_rms_sorted s) ⟨kj, hkj⟩ ⟨ki, hki⟩ h
        rw [hgi, hgj] at this
        exact absurd hper (not_lt_of_le this)
    rw [hpi, hpj]
    exact_mod_cast hkij
  · intro x
    unfold rms_recalculate_priorities
    dsimp only
    set s1 := assignRanks 0 (rms_sorted s) s with hs1
    have hlen1 : s1.tasks.length = s.tasks.length := by
      rw [hs1]; exact length_tasks_assignRanks _ _ _
    have hmem := foldl_readyRebuildStep_mem (List.range ({ s1 with ready_queue := [] } :
        Scheduler).tasks.length) { s1 with ready_queue := [] } x
      (by simp [hlen1]; omega)
    rw [hmem]
    constructor
    · rintro (hx | ⟨hxr, hst, hxi⟩)
      · exact absurd hx (List.not_mem_nil x)
      · have hxl : x < s.tasks.length := by
          rw [List.mem_range] at hxr
          have h2 : x < s1.tasks.length := hxr
          omega
        refine ⟨hxl, ?_, ?_⟩
        · have : (taskAt s1 x).state = (taskAt s x).state := by
            rw [hs1]; exact state_taskAt_assignRanks _ _ _ _
          rw [← this]
          exact hst
        · have : ({ s1 with ready_queue := ([] : List Nat) } : Scheduler).idle_task
              = s.idle_task := by
            show s1.idle_task = s.idle_task
            rw [hs1]; exact idle_task_assignRanks _ _ _
          rw [← this]
          exact hxi
    · rintro ⟨hxl, hst, hxi⟩
      refine Or.inr ⟨?_, ?_, ?_⟩
      · rw [List.mem_range]
        show x < ({ s1 with ready_queue := ([] : List Nat) } : Scheduler).tasks.length
        rw [show ({ s1 with ready_queue := ([] : List Nat) } : Scheduler).tasks.length
          = s1.tasks.length from rfl, hlen1]
        exact hxl
      · show (taskAt s1 x).state = .READY
        rw [hs1, state_taskAt_assignRanks]
        exact hst
      · show x ≠ s1.idle_task
        rw [hs1, idle_task_assignRanks]
        exact hxi

/-- Witness for C10 at a concrete state: after recalculation, the
period-10 task has a smaller priority number than the period-15 task, and
task 1 is in the rebuilt ready queue. -/
theorem C10_rms_recalculate_witness :
    (taskAt (rms_recalculate_priorities rmDemo) 1).priority <
      (taskAt (rms_recalculate_priorities rmDemo) 2).priority ∧
    1 ∈ (rms_recalculate_priorities rmDemo).ready_queue := by
  obtain ⟨-, hb, hc⟩ := C10_rms_recalculate rmDemo (by decide)
  exact ⟨hb 1 2 (by decide) (by decide) (by decide), (hc 1).mpr (by decide)⟩

end RTOS

/-! ### The standing ready-queue invariant -/

namespace RTOS

/-- The ready queue is sorted ascending by priority number (index 0 = the
highest logical priority). -/
def QSorted (s : Scheduler) : Prop :=
  s.ready_queue.Pairwise (fun a b => (taskAt s a).priority ≤ (taskAt s b).priority)

/-- The current-task pointer, when set, is a valid registry index. -/
def curOk (s : Scheduler) : Bool :=
  s.current_task.all (fun c => decide (c < s.tasks.length))

/-- The inductive invariant of the scheduler's ready queue: sorted by
priority number, only Ready tasks, no duplicates, only valid registry
indices, and the current/idle task indices are valid. -/
def InvQ (s : Scheduler) : Prop :=
  QSorted s ∧
  (∀ j ∈ s.ready_queue, (taskAt s j).state = .READY) ∧
  s.ready_queue.Nodup ∧
  (∀ j ∈ s.ready_queue, j < s.tasks.length) ∧
  curOk s = true ∧
  s.idle_task < s.tasks.length

theorem lt_of_curOk {s : Scheduler} {c : Nat} (h : curOk s = true)
    (hc : s.current_task = some c) : c < s.tasks.length := by
  unfold curOk at h
  rw [hc] at h
  simpa using h

theorem curOk_eq_true_of (s : Scheduler)
    (h : ∀ c, s.current_task = some c → c < s.tasks.length) : curOk s = true := by
  unfold curOk
  cases hc : s.current_task with
  | none => rfl
  | some c => simpa using h c hc

theorem curOk_congr {s s' : Scheduler} (hc : s'.current_task = s.current_task)
    (hl : s'.tasks.length = s.tasks.length) (h : curOk s = true) : curOk s' = true := by
  apply curOk_eq_true_of
  intro c hcc
  rw [hl]
  exact lt_of_curOk h (hc ▸ hcc)

theorem invQ_of_eq {s s' : Scheduler} (hq : s'.ready_queue = s.ready_queue)
    (ht : s'.tasks = s.tasks) (hc : s'.current_task = s.current_task)
    (hi : s'.idle_task = s.idle_task) (h : InvQ s) : InvQ s' := by
  obtain ⟨h1, h2, h3, h4, h5, h6⟩ := h
  refine ⟨?_, ?_, ?_, ?_, ?_, ?_⟩
  · unfold QSorted at h1 ⊢
    rw [hq]
    exact h1.imp (fun hab => by
      rw [taskAt_eq_of_tasks_eq ht, taskAt_eq_of_tasks_eq ht]; exact hab)
  · intro j hj
    rw [taskAt_eq_of_tasks_eq ht]
    exact h2 j (hq ▸ hj)
  · rw [hq]; exact h3
  · intro j hj
    rw [ht]
    exact h4 j (hq ▸ hj)
  · exact curOk_congr hc (by rw [ht]) h5
  · rw [hi, ht]; exact h6

theorem invQ_setTask_out (s : Scheduler) (i : Nat) (t : TCB) (hmem : i ∉ s.ready_queue)
    (h : InvQ s) : InvQ (setTask s i t) := by
  obtain ⟨h1, h2, h3, h4, h5, h6⟩ := h
  have hne : ∀ j ∈ s.ready_queue, taskAt (setTask s i t) j = taskAt s j := by
    intro j hj
    exact taskAt_setTask_ne s i t j (fun he => hmem (he ▸ hj))
  refine ⟨?_, ?_, ?_, ?_, ?_, ?_⟩
  · unfold QSorted
    rw [ready_queue_setTask]
    refine List.Pairwise.imp_of_mem ?_ h1
    intro a b ha hb hab
    rw [hne a ha, hne b hb]
    exact hab
  · intro j hj
    rw [hne j hj]
    exact h2 j hj
  · exact h3
  · intro j hj
    rw [length_tasks_setTask]
    exact h4 j hj
  · refine curOk_congr ?_ ?_ h5
    · rfl
    · simp
  · rw [idle_task_setTask, length_tasks_setTask]; exact h6

theorem invQ_setTask_keep (s : Scheduler) (i : Nat) (t : TCB)
    (hpri : t.priority = (taskAt s i).priority) (hst : t.state = (taskAt s i).state)
    (h : InvQ s) : InvQ (setTask s i t) := by
  obtain ⟨h1, h2, h3, h4, h5, h6⟩ := h
  have hfix : ∀ j, (taskAt (setTask s i t) j).priority = (taskAt s j).priority ∧
      (taskAt (setTask s i t) j).state = (taskAt s j).state := by
    intro j
    rw [taskAt_setTask]
    split
    · rename_i hc
      obtain ⟨rfl, -⟩ := hc
      exact ⟨hpri, hst⟩
    · exact ⟨rfl, rfl⟩
  refine ⟨?_, ?_, ?_, ?_, ?_, ?_⟩
  · unfold QSorted
    rw [ready_queue_setTask]
    exact h1.imp (fun hab => by rw [(hfix _).1, (hfix _).1]; exact hab)
  · intro j hj
    rw [(hfix j).2]
    exact h2 j hj
  · exact h3
  · intro j hj
    rw [length_tasks_setTask]
    exact h4 j hj
  · refine curOk_congr ?_ ?_ h5
    · rfl
    · simp
  · rw [idle_task_setTask, length_tasks_setTask]; exact h6

theorem invQ_ready_queue_remove (s : Scheduler) (tid : Nat) (h : InvQ s) :
    InvQ (ready_queue_remove s tid) := by
  obtain ⟨h1, h2, h3, h4, h5, h6⟩ := h
  refine ⟨?_, ?_, ?_, ?_, ?_, ?_⟩
  · exact h1.sublist (s.ready_queue.erase_sublist tid)
  · intro j hj
    exact h2 j (List.mem_of_mem_erase hj)
  · exact h3.erase tid
  · intro j hj
    exact h4 j (List.mem_of_mem_erase hj)
  · refine curOk_congr ?_ ?_ h5 <;> rfl
  · exact h6

theorem mem_ready_queue_insert (s : Scheduler) (tid x : Nat)
    (hx : x ∈ (ready_queue_insert s tid).ready_queue) : x = tid ∨ x ∈ s.ready_queue := by
  unfold ready_queue_insert at hx
  split at hx
  · exact Or.inr hx
  · exact (mem_insertByPri _ _ _ _ x).mp hx

theorem invQ_ready_queue_insert (s : Scheduler) (tid : Nat)
    (hst : (taskAt s tid).state = .READY) (hmem : tid ∉ s.ready_queue)
    (hv : tid < s.tasks.length) (h : InvQ s) : InvQ (ready_queue_insert s tid) := by
  obtain ⟨h1, h2, h3, h4, h5, h6⟩ := h
  by_cases hcap : MAX_READY_TASKS ≤ s.ready_queue.length
  · rw [ready_queue_insert_full s tid hcap]
    exact ⟨h1, h2, h3, h4, h5, h6⟩
  · have hq := ready_queue_insert_queue s tid (by omega)
    refine ⟨?_, ?_, ?_, ?_, ?_, ?_⟩
    · unfold QSorted
      rw [hq]
      simp only [taskAt_ready_queue_insert]
      exact pairwise_insertByPri _ _ tid s.ready_queue h1 rfl
    · intro j hj
      rw [hq] at hj
      rw [taskAt_ready_queue_insert]
      rcases (mem_insertByPri _ _ _ _ j).mp hj with rfl | hj2
      · exact hst
      · exact h2 j hj2
    · rw [hq]
      exact nodup_insertByPri _ _ tid s.ready_queue h3 hmem
    · intro j hj
      rw [hq] at hj
      rw [tasks_ready_queue_insert]
      rcases (mem_insertByPri _ _ _ _ j).mp hj with rfl | hj2
      · exact hv
      · exact h4 j hj2
    · refine curOk_congr ?_ ?_ h5
      · exact current_task_ready_queue_insert s tid
      · rw [tasks_ready_queue_insert]
    · rw [idle_task_ready_queue_insert, tasks_ready_queue_insert]; exact h6

theorem invQ_setTask_remove (s : Scheduler) (tid : Nat) (t1 : TCB) (h : InvQ s) :
    InvQ (ready_queue_remove (setTask s tid t1) tid) := by
  obtain ⟨h1, h2, h3, h4, h5, h6⟩ := h
  have hfix : ∀ j ∈ s.ready_queue.erase tid,
      taskAt (ready_queue_remove (setTask s tid t1) tid) j = taskAt s j := by
    intro j hj
    have hjne : tid ≠ j := fun he => ((h3.mem_erase_iff).mp hj).1 he.symm
    exact taskAt_setTask_ne s tid t1 j hjne
  refine ⟨?_, ?_, ?_, ?_, ?_, ?_⟩
  · unfold QSorted
    show ((s.ready_queue.erase tid).Pairwise _)
    refine List.Pairwise.imp_of_mem ?_ (h1.sublist (s.ready_queue.erase_sublist tid))
    intro a b ha hb hab
    rw [hfix a ha, hfix b hb]
    exact hab
  · intro j hj
    rw [hfix j hj]
    exact h2 j (List.mem_of_mem_erase hj)
  · exact h3.erase tid
  · intro j hj
    have := h4 j (List.mem_of_mem_erase hj)
    simpa using this
  · refine curOk_congr ?_ ?_ h5
    · rfl
    · simp
  · show s.idle_task < (s.tasks.set tid t1).length
    simpa using h6

theorem invQ_resort (s : Scheduler) (tid : Nat) (t1 : TCB)
    (hst : t1.state = (taskAt s tid).state) (hv : tid < s.tasks.length) (h : InvQ s) :
    InvQ (if (taskAt s tid).state = .READY
          then ready_queue_insert (ready_queue_remove (setTask s tid t1) tid) tid
          else setTask s tid t1) := by
  split
  · rename_i hR
    have h2 := invQ_setTask_remove s tid t1 h
    refine invQ_ready_queue_insert _ tid ?_ ?_ ?_ h2
    · show (taskAt (setTask s tid t1) tid).state = .READY
      rw [taskAt_setTask_self s tid t1 hv, hst, hR]
    · show tid ∉ s.ready_queue.erase tid
      intro hmem
      exact ((h.2.2.1.mem_erase_iff).mp hmem).1 rfl
    · show tid < (s.tasks.set tid t1).length
      simpa using hv
  · rename_i hR
    exact invQ_setTask_out s tid t1 (fun hmem => hR (h.2.1 tid hmem)) h

end RTOS

namespace RTOS

theorem invQ_task_set_state (s : Scheduler) (tid : Nat) (st : TaskState) (h : InvQ s) :
    InvQ (task_set_state s tid st) := by
  unfold task_set_state
  by_cases ht : tid < s.tasks.length
  · rw [if_pos ht]
    dsimp only
    by_cases heq : (taskAt s tid).state = st
    · rw [if_pos heq]; exact h
    · rw [if_neg heq]
      by_cases hR : (taskAt s tid).state = .READY
      · have hstne : st ≠ .READY := fun he => heq (by rw [hR, he])
        rw [if_pos (show (taskAt s tid).state = .READY ∧ st ≠ .READY from ⟨hR, hstne⟩),
          if_neg (show ¬(st = .READY ∧ (taskAt s tid).state ≠ .READY) from
            fun hc => hc.2 hR)]
        exact invQ_setTask_remove s tid _ h
      · rw [if_neg (show ¬((taskAt s tid).state = .READY ∧ st ≠ .READY) from
          fun hc => hR hc.1)]
        have hq1 : InvQ (setTask s tid { taskAt s tid with state := st }) :=
          invQ_setTask_out s tid _ (fun hmem => hR (h.2.1 tid hmem)) h
        by_cases hstR : st = .READY
        · rw [if_pos (show st = .READY ∧ (taskAt s tid).state ≠ .READY from ⟨hstR, hR⟩)]
          set s1 := setTask s tid { taskAt s tid with state := st } with hs1
          have hq3 : InvQ (setTask s1 tid { taskAt s1 tid with ready_since := s1.system_ticks }) :=
            invQ_setTask_keep s1 tid _ rfl rfl hq1
          refine invQ_ready_queue_insert _ tid ?_ ?_ ?_ hq3
          · have ht1 : tid < s1.tasks.length := by rw [hs1]; simpa using ht
            rw [taskAt_setTask_self s1 tid _ ht1]
            show (taskAt s1 tid).state = .READY
            rw [hs1, taskAt_setTask_self s tid _ ht]
            rw [← hstR]
          · show tid ∉ s.ready_queue
            exact fun hmem => hR (h.2.1 tid hmem)
          · show tid < (s1.tasks.set tid _).length
            rw [hs1]
            simpa using ht
        · rw [if_neg (show ¬(st = .READY ∧ (taskAt s tid).state ≠ .READY) from
            fun hc => hstR hc.1)]
          exact hq1
  · rw [if_neg ht]; exact h

theorem invQ_task_suspend (s : Scheduler) (tid : Nat) (h : InvQ s) :
    InvQ (task_suspend s tid) := by
  unfold task_suspend
  split
  · exact invQ_task_set_state s tid .SUSPENDED h
  · exact h

theorem invQ_task_resume (s : Scheduler) (tid : Nat) (h : InvQ s) :
    InvQ (task_resume s tid) := by
  unfold task_resume
  split
  · exact invQ_task_set_state s tid .READY h
  · exact h

theorem invQ_task_terminate (s : Scheduler) (tid : Nat) (h : InvQ s) :
    InvQ (task_terminate s tid) := by
  unfold task_terminate
  split
  · exact invQ_task_set_state s tid .TERMINATED h
  · exact h

theorem invQ_task_set_priority (s : Scheduler) (tid : Nat) (p : Int) (h : InvQ s) :
    InvQ (task_set_priority s tid p) := by
  unfold task_set_priority
  split
  · rename_i ht
    dsimp only
    exact invQ_resort s tid _ rfl ht h
  · exact h

theorem invQ_boostLocal (s : Scheduler) (tid : Nat) (p : Int) (hv : tid < s.tasks.length)
    (h : InvQ s) : InvQ (boostLocal s tid p) := by
  rw [boostLocal_eq]
  dsimp only
  exact invQ_resort s tid _ rfl hv h

theorem invQ_priorityInheritF :
    ∀ (fuel : Nat) (s : Scheduler) (tid : Nat) (p : Int) (s' : Scheduler),
      priorityInheritF fuel s tid p = some s' → InvQ s → InvQ s' := by
  intro fuel
  induction fuel with
  | zero => intro s tid p s' hk; exact absurd hk (by simp [priorityInheritF])
  | succ n ih =>
    intro s tid p s' hk h
    rw [priorityInheritF_succ_eq] at hk
    by_cases ht : tid < s.tasks.length
    · rw [if_pos ht] at hk
      by_cases hle : (taskAt s tid).priority ≤ p
      · rw [if_pos hle] at hk; cases hk; exact h
      · rw [if_neg hle] at hk
        have h2 : InvQ (boostLocal s tid p) := invQ_boostLocal s tid p ht h
        cases hbo : (taskAt s tid).blocked_on with
        | none => rw [hbo] at hk; cases hk; exact h2
        | some mid =>
          rw [hbo] at hk
          dsimp only at hk
          cases how : (mutexAt (boostLocal s tid p) mid).owner with
          | none => rw [how] at hk; cases hk; exact h2
          | some oid => rw [how] at hk; exact ih _ _ _ _ hk h2
    · rw [if_neg ht] at hk; cases hk; exact h

theorem invQ_priority_inherit (s : Scheduler) (tid : Nat) (p : Int) (h : InvQ s) :
    InvQ (priority_inherit s tid p) :=
  invQ_priorityInheritF _ s tid p _ (priority_inherit_some s tid p) h

theorem invQ_priority_restore (s : Scheduler) (tid : Nat) (h : InvQ s) :
    InvQ (priority_restore s tid) := by
  unfold priority_restore
  split
  · rename_i ht
    dsimp only
    split
    · exact h
    · exact invQ_resort s tid _ rfl ht h
  · exact h

theorem invQ_task_add_held_mutex (s : Scheduler) (tid mid : Nat) (h : InvQ s) :
    InvQ (task_add_held_mutex s tid mid) := by
  unfold task_add_held_mutex
  split
  · exact invQ_setTask_keep s tid _ rfl rfl h
  · exact h

theorem invQ_task_remove_held_mutex (s : Scheduler) (tid mid : Nat) (h : InvQ s) :
    InvQ (task_remove_held_mutex s tid mid) := by
  unfold task_remove_held_mutex
  split
  · exact invQ_setTask_keep s tid _ rfl rfl h
  · exact h

theorem invQ_setMutex (s : Scheduler) (i : Nat) (m : Mutex) (h : InvQ s) :
    InvQ (setMutex s i m) :=
  invQ_of_eq rfl rfl rfl rfl h

theorem invQ_setSem (s : Scheduler) (i : Nat) (x : Semaphore) (h : InvQ s) :
    InvQ (setSem s i x) :=
  invQ_of_eq rfl rfl rfl rfl h

theorem invQ_mutex_create (s : Scheduler) (h : InvQ s) : InvQ (mutex_create s) :=
  invQ_of_eq rfl rfl rfl rfl h

theorem invQ_semaphore_create (s : Scheduler) (initial max_count : Int) (h : InvQ s) :
    InvQ (semaphore_create s initial max_count) :=
  invQ_of_eq rfl rfl rfl rfl h

theorem invQ_wait_queue_insert (s : Scheduler) (mid tid : Nat) (h : InvQ s) :
    InvQ (wait_queue_insert s mid tid) := by
  unfold wait_queue_insert
  dsimp only
  split
  · exact h
  · exact invQ_setMutex s mid _ h

theorem invQ_sem_wait_queue_insert (s : Scheduler) (sid tid : Nat) (h : InvQ s) :
    InvQ (sem_wait_queue_insert s sid tid) := by
  unfold sem_wait_queue_insert
  dsimp only
  split
  · exact h
  · exact invQ_setSem s sid _ h

theorem taskAt_append_lt (s : Scheduler) (t : TCB) (j : Nat) (hj : j < s.tasks.length) :
    taskAt { s with tasks := s.tasks ++ [t] } j = taskAt s j := by
  show (s.tasks ++ [t]).getD j defaultTCB = s.tasks.getD j defaultTCB
  rw [List.getD_eq_getElem?_getD, List.getElem?_append, if_pos hj,
    ← List.getD_eq_getElem?_getD]

theorem taskAt_append_self (s : Scheduler) (t : TCB) :
    taskAt { s with tasks := s.tasks ++ [t] } s.tasks.length = t := by
  show (s.tasks ++ [t]).getD s.tasks.length defaultTCB = t
  rw [List.getD_eq_getElem?_getD, List.getElem?_append_right (le_refl _)]
  simp

theorem taskAt_oob (s : Scheduler) (j : Nat) (hj : s.tasks.length ≤ j) :
    taskAt s j = defaultTCB := by
  unfold taskAt
  rw [List.getD_eq_getElem?_getD, List.getElem?_eq_none hj]
  rfl

theorem invQ_append_task (s : Scheduler) (t : TCB) (h : InvQ s) :
    InvQ { s with tasks := s.tasks ++ [t] } := by
  obtain ⟨h1, h2, h3, h4, h5, h6⟩ := h
  refine ⟨?_, ?_, ?_, ?_, ?_, ?_⟩
  · unfold QSorted at h1 ⊢
    refine List.Pairwise.imp_of_mem ?_ h1
    intro a b ha hb hab
    rw [taskAt_append_lt s t a (h4 a ha), taskAt_append_lt s t b (h4 b hb)]
    exact hab
  · intro j hj
    rw [taskAt_append_lt s t j (h4 j hj)]
    exact h2 j hj
  · exact h3
  · intro j hj
    have := h4 j hj
    simp only [List.length_append, List.length_cons, List.length_nil]
    omega
  · apply curOk_eq_true_of
    intro c hc
    have := lt_of_curOk h5 hc
    simp only [List.length_append, List.length_cons, List.length_nil]
    omega
  · show s.idle_task < (s.tasks ++ [t]).length
    simp only [List.length_append, List.length_cons, List.length_nil]
    omega

theorem invQ_task_create (s : Scheduler) (pri : Int) (period deadline wcet : Nat)
    (h : InvQ s) : InvQ (task_create s pri period deadline wcet) := by
  unfold task_create
  split
  · exact h
  · dsimp only
    refine invQ_ready_queue_insert _ s.tasks.length ?_ ?_ ?_ (invQ_append_task s _ h)
    · rw [taskAt_append_self]
    · show s.tasks.length ∉ s.ready_queue
      intro hmem
      have := h.2.2.2.1 _ hmem
      omega
    · show s.tasks.length < (s.tasks ++ [_]).length
      simp

theorem invQ_scheduler_context_switch (s : Scheduler) (fromT : Option Nat) (toT : Nat)
    (hto : toT < s.tasks.length)
    (hfrom : ∀ f, fromT = some f → f < s.tasks.length)
    (h : InvQ s) : InvQ (scheduler_context_switch s fromT toT) := by
  unfold scheduler_context_switch
  by_cases hft : fromT = some toT
  · rw [if_pos hft]; exact h
  · rw [if_neg hft]
    have hmain : ∀ s1 : Scheduler, InvQ s1 → s1.tasks.length = s.tasks.length →
        InvQ { setTask (ready_queue_remove s1 toT) toT
                 { taskAt (ready_queue_remove s1 toT) toT with state := TaskState.RUNNING } with
               current_task := some toT
               context_switches := u64succ (setTask (ready_queue_remove s1 toT) toT
                 { taskAt (ready_queue_remove s1 toT) toT with
                     state := TaskState.RUNNING }).context_switches } := by
      intro s1 h1 hlen1
      have h2 : InvQ (ready_queue_remove s1 toT) := invQ_ready_queue_remove s1 toT h1
      have h3 : InvQ (setTask (ready_queue_remove s1 toT) toT
          { taskAt (ready_queue_remove s1 toT) toT with state := TaskState.RUNNING }) := by
        refine invQ_setTask_out _ toT _ ?_ h2
        show toT ∉ s1.ready_queue.erase toT
        intro hmem
        exact ((h1.2.2.1.mem_erase_iff).mp hmem).1 rfl
      obtain ⟨g1, g2, g3, g4, g5, g6⟩ := h3
      refine ⟨g1, g2, g3, g4, ?_, g6⟩
      apply curOk_eq_true_of
      intro c hc
      have hceq : c = toT := by
        cases hc
        rfl
      subst hceq
      show c < ((ready_queue_remove s1 c).tasks.set c _).length
      simp only [tasks_ready_queue_remove, List.length_set]
      omega
    cases fromT with
    | none =>
      dsimp only
      exact hmain s h rfl
    | some f =>
      dsimp only
      split
      · rename_i hRun
        have hf : f < s.tasks.length := hfrom f rfl
        have hnotq : f ∉ s.ready_queue := by
          intro hmem
          have := h.2.1 f hmem
          rw [this] at hRun
          exact absurd hRun (by simp)
        have hs' : InvQ (setTask s f
            { taskAt s f with
                state := TaskState.READY
                ready_since := s.system_ticks
                preemptions := u32succ (taskAt s f).preemptions }) :=
          invQ_setTask_out s f _ hnotq h
        have hins : InvQ (ready_queue_insert (setTask s f
            { taskAt s f with
                state := TaskState.READY
                ready_since := s.system_ticks
                preemptions := u32succ (taskAt s f).preemptions }) f) := by
          refine invQ_ready_queue_insert _ f ?_ ?_ ?_ hs'
          · rw [taskAt_setTask_self s f _ hf]
          · exact hnotq
          · show f < (s.tasks.set f _).length
            simpa using hf
        exact hmain _ hins (by simp)
      · exact hmain s h rfl

theorem invQ_scheduler_schedule (s : Scheduler) (h : InvQ s) :
    InvQ (scheduler_schedule s) := by
  unfold scheduler_schedule
  have hnext : scheduler_get_next_task s < s.tasks.length := by
    unfold scheduler_get_next_task
    cases hq : s.ready_queue with
    | nil => exact h.2.2.2.2.2
    | cons a l =>
      exact h.2.2.2.1 a (hq ▸ List.mem_cons_self a l)
  match hc : s.current_task with
  | some c =>
    dsimp only
    split
    · exact h
    · split
      · exact h
      · refine invQ_scheduler_context_switch s (some c) _ hnext ?_ h
        intro f hf
        cases hf
        exact lt_of_curOk h.2.2.2.2.1 hc
  | none =>
    refine invQ_scheduler_context_switch s none _ hnext ?_ h
    intro f hf
    cases hf

end RTOS

namespace RTOS

theorem invQ_mutex_lock (s : Scheduler) (mid tid : Nat) (h : InvQ s) :
    InvQ (mutex_lock s mid tid) := by
  unfold mutex_lock
  split
  · dsimp only
    split
    · exact invQ_task_add_held_mutex _ tid mid (invQ_setMutex s mid _ h)
    · refine invQ_scheduler_schedule _ ?_
      refine invQ_wait_queue_insert _ mid tid ?_
      refine invQ_task_set_state _ tid .BLOCKED ?_
      refine invQ_setTask_keep _ tid _ rfl rfl ?_
      split
      · split
        · split
          · exact invQ_priority_inherit s _ _ h
          · exact h
        · exact h
      · exact h
  · exact h

theorem invQ_unlockHandoff (s2 : Scheduler) (mid : Nat) (h : InvQ s2) :
    InvQ (unlockHandoff s2 mid) := by
  unfold unlockHandoff
  dsimp only
  cases hwq : (mutexAt s2 mid).wait_queue with
  | nil => exact invQ_setMutex _ _ _ h
  | cons w rest =>
    refine invQ_task_set_state _ w .READY ?_
    refine invQ_task_add_held_mutex _ w mid ?_
    refine invQ_setMutex _ _ _ ?_
    refine invQ_setTask_keep _ w _ rfl rfl ?_
    exact invQ_setMutex _ _ _ h

theorem invQ_mutex_unlock (s : Scheduler) (mid tid : Nat) (h : InvQ s) :
    InvQ (mutex_unlock s mid tid) := by
  unfold mutex_unlock
  split
  · dsimp only
    split
    · exact h
    · refine invQ_scheduler_schedule _ (invQ_unlockHandoff _ mid ?_)
      split
      · exact invQ_priority_restore _ tid (invQ_task_remove_held_mutex s tid mid h)
      · exact invQ_task_remove_held_mutex s tid mid h
  · exact h

theorem invQ_semaphore_wait (s : Scheduler) (sid tid : Nat) (h : InvQ s) :
    InvQ (semaphore_wait s sid tid) := by
  unfold semaphore_wait
  split
  · dsimp only
    split
    · exact invQ_setSem s sid _ h
    · exact invQ_scheduler_schedule _
        (invQ_sem_wait_queue_insert _ sid tid (invQ_task_set_state s tid .BLOCKED h))
  · exact h

theorem invQ_semaphore_signal (s : Scheduler) (sid : Nat) (h : InvQ s) :
    InvQ (semaphore_signal s sid) := by
  unfold semaphore_signal
  split
  · dsimp only
    split
    · exact invQ_scheduler_schedule _
        (invQ_task_set_state _ _ .READY (invQ_setSem s sid _ h))
    · split
      · exact invQ_setSem s sid _ h
      · exact h
  · exact h

theorem invQ_foldl {f : Scheduler → Nat → Scheduler}
    (hf : ∀ st i, InvQ st → InvQ (f st i)) :
    ∀ (l : List Nat) (st : Scheduler), InvQ st → InvQ (List.foldl f st l) := by
  intro l
  induction l with
  | nil => intro st h; exact h
  | cons i rest ih => intro st h; exact ih (f st i) (hf st i h)

theorem invQ_check_periodic_releases (s : Scheduler) (h : InvQ s) :
    InvQ (check_periodic_releases s) := by
  unfold check_periodic_releases
  refine invQ_foldl ?_ _ s h
  intro st i hst
  dsimp only
  split
  · exact hst
  · split
    · exact hst
    · split
      · exact invQ_task_set_state _ i .READY (invQ_setTask_keep st i _ rfl rfl hst)
      · exact hst

theorem invQ_check_deadlines (s : Scheduler) (h : InvQ s) :
    InvQ (check_deadlines s) := by
  unfold check_deadlines
  refine invQ_foldl ?_ _ s h
  intro st i hst
  dsimp only
  split
  · exact hst
  · split
    · exact hst
    · split
      · exact invQ_setTask_keep st i _ rfl rfl hst
      · exact hst

theorem invQ_tick_handler (s : Scheduler) (h : InvQ s) : InvQ (tick_handler s) := by
  unfold tick_handler
  dsimp only
  refine invQ_check_deadlines _ (invQ_check_periodic_releases _ ?_)
  cases hc : s.current_task with
  | none =>
    refine invQ_of_eq ?_ ?_ ?_ ?_ h
    · rfl
    · rfl
    · rw [hc]
    · rfl
  | some c =>
    dsimp only
    split
    · refine invQ_setTask_keep _ c _ rfl rfl ?_
      refine invQ_of_eq ?_ ?_ ?_ ?_ h
      · rfl
      · rfl
      · rw [hc]
      · rfl
    · refine invQ_of_eq ?_ ?_ ?_ ?_ h
      · rfl
      · rfl
      · rw [hc]
      · rfl

theorem current_task_assignRanks :
    ∀ (ids : List Nat) (k : Nat) (st : Scheduler),
      (assignRanks k ids st).current_task = st.current_task := by
  intro ids
  induction ids with
  | nil => intro k st; rfl
  | cons i rest ih =>
    intro k st
    unfold assignRanks
    rw [ih]
    rfl

theorem invQ_foldl_readyRebuildStep :
    ∀ (l : List Nat) (st : Scheduler), l.Nodup →
      (∀ j ∈ st.ready_queue, j ∉ l) → (∀ i ∈ l, i < st.tasks.length) →
      InvQ st → InvQ (List.foldl readyRebuildStep st l) := by
  intro l
  induction l with
  | nil => intro st _ _ _ h; exact h
  | cons i rest ih =>
    intro st hnd hdisj hbnd h
    rw [List.foldl_cons]
    have hstep : InvQ (readyRebuildStep st i) := by
      unfold readyRebuildStep
      split
      · rename_i hcond
        refine invQ_ready_queue_insert st i hcond.1 ?_
          (hbnd i (List.mem_cons_self i rest)) h
        intro hmem
        exact hdisj i hmem (List.mem_cons_self i rest)
      · exact h
    refine ih (readyRebuildStep st i) (List.nodup_cons.mp hnd).2 ?_ ?_ hstep
    · intro j hj
      have hcases : j = i ∨ j ∈ st.ready_queue := by
        unfold readyRebuildStep at hj
        split at hj
        · exact mem_ready_queue_insert st i j hj
        · exact Or.inr hj
      rcases hcases with rfl | hjq
      · exact (List.nodup_cons.mp hnd).1
      · intro hr
        exact hdisj j hjq (List.mem_cons_of_mem i hr)
    · intro x hx
      have hlen : (readyRebuildStep st i).tasks.length = st.tasks.length := by
        unfold readyRebuildStep
        split <;> simp
      rw [hlen]
      exact hbnd x (List.mem_cons_of_mem i hx)

theorem invQ_rms_recalculate (s : Scheduler) (h : InvQ s) :
    InvQ (rms_recalculate_priorities s) := by
  unfold rms_recalculate_priorities
  dsimp only
  set s1 := assignRanks 0 (rms_sorted s) s with hs1
  have hlen1 : s1.tasks.length = s.tasks.length := by
    rw [hs1]; exact length_tasks_assignRanks (rms_sorted s) 0 s
  have h2 : InvQ { s1 with ready_queue := [] } := by
    refine ⟨List.Pairwise.nil, ?_, List.nodup_nil, ?_, ?_, ?_⟩
    · intro j hj
      exact absurd hj (List.not_mem_nil j)
    · intro j hj
      exact absurd hj (List.not_mem_nil j)
    · apply curOk_eq_true_of
      intro c hc
      have hcc : s.current_task = some c := by
        rw [← current_task_assignRanks (rms_sorted s) 0 s, ← hs1]
        exact hc
      have := lt_of_curOk h.2.2.2.2.1 hcc
      show c < s1.tasks.length
      omega
    · show s1.idle_task < s1.tasks.length
      have hidle : s1.idle_task = s.idle_task := by
        rw [hs1]; exact idle_task_assignRanks (rms_sorted s) 0 s
      rw [hidle, hlen1]
      exact h.2.2.2.2.2
  refine invQ_foldl_readyRebuildStep _ { s1 with ready_queue := [] }
    (List.nodup_range _) ?_ ?_ h2
  · intro j hj
    exact absurd hj (List.not_mem_nil j)
  · intro i hi
    exact List.mem_range.mp hi

theorem invQ_applyOp (op : Op) (s : Scheduler) (h : InvQ s) : InvQ (applyOp op s) := by
  cases op with
  | create priority period deadline wcet => exact invQ_task_create s priority period deadline wcet h
  | setState tid st => exact invQ_task_set_state s tid st h
  | suspendTask tid => exact invQ_task_suspend s tid h
  | resumeTask tid => exact invQ_task_resume s tid h
  | terminateTask tid => exact invQ_task_terminate s tid h
  | setPriority tid p => exact invQ_task_set_priority s tid p h
  | mkMutex => exact invQ_mutex_create s h
  | lock mid tid => exact invQ_mutex_lock s mid tid h
  | unlock mid tid => exact invQ_mutex_unlock s mid tid h
  | mkSem initial max_count => exact invQ_semaphore_create s initial max_count h
  | semWait sid tid => exact invQ_semaphore_wait s sid tid h
  | semSignal sid => exact invQ_semaphore_signal s sid h
  | dispatch => exact invQ_scheduler_schedule s h
  | tick => exact invQ_tick_handler s h
  | rmRecalc => exact invQ_rms_recalculate s h

/-- `scheduler_init` written out: the registry holds only the idle task. -/
theorem scheduler_init_eq (policy : SchedPolicy) (pi_enabled : Bool) :
    scheduler_init policy pi_enabled =
      { policy := policy
        priority_inheritance_enabled := pi_enabled
        current_task := none
        idle_task := 0
        ready_queue := []
        tasks := [{ state := .READY
                    priority := PRIORITY_IDLE
                    original_priority := PRIORITY_IDLE
                    invocations := 1
                    remaining_work := U64MAX }]
        mutexes := []
        semaphores := []
        system_ticks := 0
        context_switches := 0 } := by
  cases policy <;> rfl

theorem invQ_scheduler_init (policy : SchedPolicy) (pi_enabled : Bool) :
    InvQ (scheduler_init policy pi_enabled) := by
  rw [scheduler_init_eq]
  refine ⟨List.Pairwise.nil, ?_, List.nodup_nil, ?_, rfl, ?_⟩
  · intro j hj
    exact absurd hj (List.not_mem_nil j)
  · intro j hj
    exact absurd hj (List.not_mem_nil j)
  · show (0 : Nat) < 1
    omega

theorem invQ_reaches {s : Scheduler} (h : Reaches s) : InvQ s := by
  induction h with
  | init policy pi_enabled => exact invQ_scheduler_init policy pi_enabled
  | step op s hprev ih => exact invQ_applyOp op s ih

end RTOS

/-! ### C8: ready-queue ordering -/

namespace RTOS

/-- A reachable state with a non-trivial ready queue for instantiating the
ready-queue ordering claim: three tasks, two of equal priority 5 and one of
priority 7. -/
def c8Demo : Scheduler :=
  [Op.create 5 0 0 3, Op.create 5 0 0 3, Op.create 7 0 0 3].foldl
    (fun s op => applyOp op s) (scheduler_init .SCHED_PRIORITY true)

/-- C8: in every reachable state the ready queue is sorted ascending by
priority number (index 0 = highest logical priority), and sub-capacity
`ready_queue_insert` splits the queue as `l₁ ++ tid :: l₂` where every entry
of `l₁` has priority number ≤ the new task's (so the new task goes after all
existing entries of equal priority — FIFO among equals) and every entry of
`l₂` has a strictly greater priority number (so it goes before the first
strictly-greater entry). -/
theorem C8_ready_queue_order (s : Scheduler) (hs : Reaches s) :
    s.ready_queue.Pairwise (fun a b => (taskAt s a).priority ≤ (taskAt s b).priority) ∧
    ∀ tid, s.ready_queue.length < MAX_READY_TASKS →
      ∃ l₁ l₂,
        s.ready_queue = l₁ ++ l₂ ∧
        (ready_queue_insert s tid).ready_queue = l₁ ++ tid :: l₂ ∧
        (∀ j ∈ l₁, (taskAt s j).priority ≤ (taskAt s tid).priority) ∧
        (∀ j ∈ l₂, (taskAt s tid).priority < (taskAt s j).priority) := by
  have hq := invQ_reaches hs
  refine ⟨hq.1, ?_⟩
  intro tid hcap
  obtain ⟨l₁, l₂, hsplit, hins, h₁, h₂⟩ :=
    insertByPri_split (fun j => (taskAt s j).priority) ((taskAt s tid).priority) tid
      s.ready_queue
  refine ⟨l₁, l₂, hsplit, ?_, h₁, ?_⟩
  · rw [ready_queue_insert_queue s tid hcap, hins]
  · cases l₂ with
    | nil =>
      intro j hj
      exact absurd hj (List.not_mem_nil j)
    | cons b bs =>
      intro j hj
      have hb : (taskAt s tid).priority < (taskAt s b).priority :=
        h₂ (List.cons_ne_nil b bs)
      rcases List.mem_cons.mp hj with rfl | hj2
      · exact hb
      · have hsorted : QSorted s := hq.1
        unfold QSorted at hsorted
        rw [hsplit] at hsorted
        have hpb : (b :: bs).Pairwise
            (fun a c => (taskAt s a).priority ≤ (taskAt s c).priority) :=
          (List.pairwise_append.mp hsorted).2.1
        have hble : (taskAt s b).priority ≤ (taskAt s j).priority :=
          (List.pairwise_cons.mp hpb).1 j hj2
        exact lt_of_lt_of_le hb hble

/-- C8 instantiated at `c8Demo`, inserting a fresh task of priority 5. -/
theorem C8_ready_queue_order_witness :
    c8Demo.ready_queue.Pairwise
      (fun a b => (taskAt c8Demo a).priority ≤ (taskAt c8Demo b).priority) ∧
    ∀ tid, c8Demo.ready_queue.length < MAX_READY_TASKS →
      ∃ l₁ l₂,
        c8Demo.ready_queue = l₁ ++ l₂ ∧
        (ready_queue_insert c8Demo tid).ready_queue = l₁ ++ tid :: l₂ ∧
        (∀ j ∈ l₁, (taskAt c8Demo j).priority ≤ (taskAt c8Demo tid).priority) ∧
        (∀ j ∈ l₂, (taskAt c8Demo tid).priority < (taskAt c8Demo j).priority) :=
  C8_ready_queue_order c8Demo (reaches_foldl _ _ (Reaches.init .SCHED_PRIORITY true))

end RTOS

/-! ### C4: effective priority never exceeds the original priority -/

namespace RTOS

/-- Every task's effective priority number is ≥ … i.e. `priority ≤ original`
numerically never fails (boosts only lower the number). -/
def InvP (s : Scheduler) : Prop :=
  ∀ j, (taskAt s j).priority ≤ (taskAt s j).original_priority

theorem invP_of_prioFields {s s' : Scheduler} (hp : PrioFields s s') (h : InvP s) :
    InvP s' := by
  intro j
  obtain ⟨ha, -, hc⟩ := hp j
  rw [ha, hc]
  exact h j

theorem prioFields_foldl {f : Scheduler → Nat → Scheduler}
    (hf : ∀ st i, PrioFields st (f st i)) :
    ∀ (l : List Nat) (st : Scheduler), PrioFields st (List.foldl f st l) := by
  intro l
  induction l with
  | nil => intro st; exact prioFields_refl st
  | cons i rest ih =>
    intro st
    exact prioFields_trans (hf st i) (ih (f st i))

theorem prioFields_wait_queue_insert (s : Scheduler) (mid tid : Nat) :
    PrioFields s (wait_queue_insert s mid tid) := by
  unfold wait_queue_insert
  dsimp only
  split
  · exact prioFields_refl s
  · exact prioFields_setMutex s mid _

theorem prioFields_sem_wait_queue_insert (s : Scheduler) (sid tid : Nat) :
    PrioFields s (sem_wait_queue_insert s sid tid) := by
  unfold sem_wait_queue_insert
  dsimp only
  split
  · exact prioFields_refl s
  · exact prioFields_setSem s sid _

theorem prioFields_check_periodic_releases (s : Scheduler) :
    PrioFields s (check_periodic_releases s) := by
  unfold check_periodic_releases
  refine prioFields_foldl ?_ _ s
  intro st i
  dsimp only
  split
  · exact prioFields_refl st
  · split
    · exact prioFields_refl st
    · split
      · refine prioFields_trans (prioFields_setTask st i _ ?_ ?_ ?_)
          (prioFields_task_set_state _ i .READY) <;> rfl
      · exact prioFields_refl st

theorem prioFields_check_deadlines (s : Scheduler) :
    PrioFields s (check_deadlines s) := by
  unfold check_deadlines
  refine prioFields_foldl ?_ _ s
  intro st i
  dsimp only
  split
  · exact prioFields_refl st
  · split
    · exact prioFields_refl st
    · split
      · refine prioFields_setTask st i _ ?_ ?_ ?_ <;> rfl
      · exact prioFields_refl st

theorem prioFields_tick_handler (s : Scheduler) : PrioFields s (tick_handler s) := by
  unfold tick_handler
  dsimp only
  have hmid : ∀ s1 : Scheduler, PrioFields s s1 →
      PrioFields s (check_deadlines (check_periodic_releases s1)) := by
    intro s1 h1
    exact prioFields_trans h1 (prioFields_trans (prioFields_check_periodic_releases s1)
      (prioFields_check_deadlines _))
  cases hc : s.current_task with
  | none => exact hmid _ (prioFields_of_tasks_eq rfl)
  | some c =>
    dsimp only
    split
    · refine hmid _ (prioFields_trans (prioFields_of_tasks_eq ?_) (prioFields_setTask _ c _ ?_ ?_ ?_))
      all_goals rfl
    · exact hmid _ (prioFields_of_tasks_eq rfl)

theorem foldl_min_le (l : List Int) (a : Int) : l.foldl min a ≤ a := by
  induction l generalizing a with
  | nil => exact le_refl a
  | cons x xs ih =>
    rw [List.foldl_cons]
    exact le_trans (ih (min a x)) (min_le_left a x)

theorem neededPriority_le_original (s : Scheduler) (t : TCB) :
    neededPriority s t ≤ t.original_priority := by
  rw [neededPriority_eq]
  exact foldl_min_le _ _

theorem invP_priority_restore (s : Scheduler) (tid : Nat) (h : InvP s) :
    InvP (priority_restore s tid) := by
  unfold priority_restore
  split
  · rename_i ht
    dsimp only
    split
    · exact h
    · have hbase : InvP (setTask s tid
          { taskAt s tid with
              priority := neededPriority s (taskAt s tid)
              priority_inherited :=
                if neededPriority s (taskAt s tid) = (taskAt s tid).original_priority
                then false else true }) := by
        intro j
        rw [taskAt_setTask]
        split
        · exact neededPriority_le_original s (taskAt s tid)
        · exact h j
      split
      · intro j
        rw [taskAt_ready_queue_insert, taskAt_ready_queue_remove]
        exact hbase j
      · exact hbase
  · exact h

theorem invP_priority_inherit (s : Scheduler) (tid : Nat) (p : Int) (h : InvP s) :
    InvP (priority_inherit s tid p) :=
  priorityInheritF_invP _ s tid p _ (priority_inherit_some s tid p) h

theorem invP_task_create (s : Scheduler) (pri : Int) (period deadline wcet : Nat)
    (h : InvP s) : InvP (task_create s pri period deadline wcet) := by
  unfold task_create
  split
  · exact h
  · dsimp only
    intro j
    rw [taskAt_ready_queue_insert]
    by_cases hj : j < s.tasks.length
    · rw [taskAt_append_lt s _ j hj]
      exact h j
    · by_cases hj2 : j = s.tasks.length
      · subst hj2
        rw [taskAt_append_self]
      · rw [taskAt_oob]
        · exact le_refl _
        · show (s.tasks ++ _).length ≤ j
          simp only [List.length_append, List.length_cons, List.length_nil]
          omega

theorem invP_mutex_lock (s : Scheduler) (mid tid : Nat) (h : InvP s) :
    InvP (mutex_lock s mid tid) := by
  unfold mutex_lock
  split
  · dsimp only
    split
    · exact invP_of_prioFields (prioFields_task_add_held_mutex _ tid mid)
        (invP_of_prioFields (prioFields_setMutex s mid _) h)
    · have hs2 : InvP (if s.priority_inheritance_enabled = true then
          match (mutexAt s mid).owner with
          | some oid =>
            if (taskAt s tid).priority < (taskAt s oid).priority then
              priority_inherit s oid ((taskAt s tid).priority)
            else s
          | none => s
        else s) := by
        split
        · split
          · split
            · exact invP_priority_inherit s _ _ h
            · exact h
          · exact h
        · exact h
      refine invP_of_prioFields (prioFields_scheduler_schedule _) ?_
      refine invP_of_prioFields (prioFields_wait_queue_insert _ mid tid) ?_
      refine invP_of_prioFields (prioFields_task_set_state _ tid .BLOCKED) ?_
      exact invP_of_prioFields (prioFields_setTask _ tid _ rfl rfl rfl) hs2
  · exact h

theorem invP_mutex_unlock (s : Scheduler) (mid tid : Nat) (h : InvP s) :
    InvP (mutex_unlock s mid tid) := by
  unfold mutex_unlock
  split
  · dsimp only
    split
    · exact h
    · refine invP_of_prioFields (prioFields_scheduler_schedule _) ?_
      refine invP_of_prioFields (prioFields_unlockHandoff _ mid) ?_
      split
      · exact invP_priority_restore _ tid
          (invP_of_prioFields (prioFields_task_remove_held_mutex s tid mid) h)
      · exact invP_of_prioFields (prioFields_task_remove_held_mutex s tid mid) h
  · exact h

theorem invP_semaphore_wait (s : Scheduler) (sid tid : Nat) (h : InvP s) :
    InvP (semaphore_wait s sid tid) := by
  unfold semaphore_wait
  split
  · dsimp only
    split
    · exact invP_of_prioFields (prioFields_setSem s sid _) h
    · refine invP_of_prioFields (prioFields_scheduler_schedule _) ?_
      refine invP_of_prioFields (prioFields_sem_wait_queue_insert _ sid tid) ?_
      exact invP_of_prioFields (prioFields_task_set_state s tid .BLOCKED) h
  · exact h

theorem invP_semaphore_signal (s : Scheduler) (sid : Nat) (h : InvP s) :
    InvP (semaphore_signal s sid) := by
  unfold semaphore_signal
  split
  · dsimp only
    split
    · refine invP_of_prioFields (prioFields_scheduler_schedule _) ?_
      exact invP_of_prioFields (prioFields_task_set_state _ _ .READY)
        (invP_of_prioFields (prioFields_setSem s sid _) h)
    · split
      · exact invP_of_prioFields (prioFields_setSem s sid _) h
      · exact h
  · exact h

theorem invP_assignRanks :
    ∀ (ids : List Nat) (k : Nat) (st : Scheduler), InvP st → InvP (assignRanks k ids st) := by
  intro ids
  induction ids with
  | nil => intro k st h; exact h
  | cons i rest ih =>
    intro k st h
    unfold assignRanks
    refine ih (k + 1) _ ?_
    intro j
    rw [taskAt_setTask]
    split
    · exact le_refl _
    · exact h j

theorem invP_rms_recalculate (s : Scheduler) (h : InvP s) :
    InvP (rms_recalculate_priorities s) := by
  unfold rms_recalculate_priorities
  dsimp only
  have h1 : InvP (assignRanks 0 (rms_sorted s) s) := invP_assignRanks (rms_sorted s) 0 s h
  have h2 : InvP { assignRanks 0 (rms_sorted s) s with ready_queue := [] } :=
    invP_of_prioFields (prioFields_of_tasks_eq rfl) h1
  refine invP_of_prioFields (prioFields_foldl ?_ _ _) h2
  intro st i
  unfold readyRebuildStep
  split
  · exact prioFields_ready_queue_insert st i
  · exact prioFields_refl st

theorem invP_applyOp_no_set_priority (op : Op) (s : Scheduler)
    (hop : op.isSetPriority = false) (h : InvP s) : InvP (applyOp op s) := by
  cases op with
  | create priority period deadline wcet =>
    exact invP_task_create s priority period deadline wcet h
  | setState tid st => exact invP_of_prioFields (prioFields_task_set_state s tid st) h
  | suspendTask tid =>
    show InvP (task_suspend s tid)
    unfold task_suspend
    split
    · exact invP_of_prioFields (prioFields_task_set_state s tid .SUSPENDED) h
    · exact h
  | resumeTask tid =>
    show InvP (task_resume s tid)
    unfold task_resume
    split
    · exact invP_of_prioFields (prioFields_task_set_state s tid .READY) h
    · exact h
  | terminateTask tid =>
    show InvP (task_terminate s tid)
    unfold task_terminate
    split
    · exact invP_of_prioFields (prioFields_task_set_state s tid .TERMINATED) h
    · exact h
  | setPriority tid p => exact absurd hop (by simp [Op.isSetPriority])
  | mkMutex => exact invP_of_prioFields (prioFields_of_tasks_eq rfl) h
  | lock mid tid => exact invP_mutex_lock s mid tid h
  | unlock mid tid => exact invP_mutex_unlock s mid tid h
  | mkSem initial max_count => exact invP_of_prioFields (prioFields_of_tasks_eq rfl) h
  | semWait sid tid => exact invP_semaphore_wait s sid tid h
  | semSignal sid => exact invP_semaphore_signal s sid h
  | dispatch => exact invP_of_prioFields (prioFields_scheduler_schedule s) h
  | tick => exact invP_of_prioFields (prioFields_tick_handler s) h
  | rmRecalc => exact invP_rms_recalculate s h

theorem invP_scheduler_init (policy : SchedPolicy) (pi_enabled : Bool) :
    InvP (scheduler_init policy pi_enabled) := by
  rw [scheduler_init_eq]
  intro j
  cases j with
  | zero => exact le_refl _
  | succ n => exact le_refl _

end RTOS

namespace RTOS

/-- A reachable state in which `task_set_priority` has demoted task 1
(created with priority 5) to priority 10, above its original priority. -/
def demotedState : Scheduler :=
  applyOp (.setPriority 1 10) (applyOp (.create 5 0 0 5) (scheduler_init .SCHED_PRIORITY true))

/-- Counterexample to C4 as stated: `task_set_priority` writes only the
effective priority and leaves the original untouched, so demoting a task
through the public API yields `priority = 10 > 5 = original_priority`,
violating `T.priority ≤ T.original` at a reachable observation point. -/
theorem C4_demote_cex :
    Reaches demotedState ∧
    ¬ (taskAt demotedState 1).priority ≤ (taskAt demotedState 1).original_priority :=
  ⟨Reaches.step _ _ (Reaches.step _ _ (Reaches.init .SCHED_PRIORITY true)), by decide⟩

/-- C4 (amended): at every observation point reachable through the public
operations other than `task_set_priority` (task_create, the mutex and
semaphore operations, boost, restore, dispatch, the tick engine, the RM
recalculation, ...), every task satisfies `priority ≤ original_priority`
numerically — inheritance only boosts (lowers the number), never demotes;
`task_set_priority` must be excluded because it can demote the effective
priority below the original (see the counterexample). -/
theorem C4_priority_le_original (s : Scheduler) (hs : ReachesNoSetPri s) :
    ∀ tid, (taskAt s tid).priority ≤ (taskAt s tid).original_priority := by
  induction hs with
  | init policy pi_enabled => exact invP_scheduler_init policy pi_enabled
  | step op s hop hprev ih => exact invP_applyOp_no_set_priority op s hop ih

/-- A reachable (without `task_set_priority`) state for instantiating C4:
task 1 has locked mutex 0. -/
def c4Demo : Scheduler :=
  applyOp (.lock 0 1) (applyOp .mkMutex
    (applyOp (.create 5 0 0 5) (scheduler_init .SCHED_PRIORITY true)))

/-- C4 (amended) instantiated at `c4Demo`, task 1. -/
theorem C4_priority_le_original_witness :
    (taskAt c4Demo 1).priority ≤ (taskAt c4Demo 1).original_priority :=
  C4_priority_le_original c4Demo
    (ReachesNoSetPri.step _ _ (by decide)
      (ReachesNoSetPri.step _ _ (by decide)
        (ReachesNoSetPri.step _ _ (by decide)
          (ReachesNoSetPri.init .SCHED_PRIORITY true)))) 1

end RTOS

/-! ### The wait-queue/blocking invariant of the disciplined mutex API -/

namespace RTOS

/-- Per-mutex soundness: an unlocked mutex has an empty wait queue, wait
queues have no duplicates, the owner never sits in its own wait queue, and
every queued task is a valid, Blocked task whose `blocked_on` points back at
this mutex. -/
def MutexesOk (s : Scheduler) : Prop :=
  ∀ mid, mid < s.mutexes.length →
    ((mutexAt s mid).locked = false → (mutexAt s mid).wait_queue = []) ∧
    (mutexAt s mid).wait_queue.Nodup ∧
    (∀ t, (mutexAt s mid).owner = some t → t ∉ (mutexAt s mid).wait_queue) ∧
    (∀ t ∈ (mutexAt s mid).wait_queue,
      t < s.tasks.length ∧ (taskAt s t).state = .BLOCKED ∧
      (taskAt s t).blocked_on = some mid)

/-- Every Blocked task records the mutex it waits on and sits in that
mutex's wait queue. -/
def BlockedOk (s : Scheduler) : Prop :=
  ∀ tid, tid < s.tasks.length → (taskAt s tid).state = .BLOCKED →
    ∃ mid, mid < s.mutexes.length ∧ (taskAt s tid).blocked_on = some mid ∧
      tid ∈ (mutexAt s mid).wait_queue

/-- A task that is not Blocked sits in no mutex wait queue. -/
def NonBlockedOk (s : Scheduler) : Prop :=
  ∀ tid, (taskAt s tid).state ≠ .BLOCKED →
    ∀ mid, mid < s.mutexes.length → tid ∉ (mutexAt s mid).wait_queue

/-- The idle task is never Blocked. -/
def IdleOk (s : Scheduler) : Prop :=
  (taskAt s s.idle_task).state ≠ .BLOCKED

/-- The blocking invariant maintained by the disciplined mutex API. -/
def InvW (s : Scheduler) : Prop :=
  MutexesOk s ∧ BlockedOk s ∧ NonBlockedOk s ∧ IdleOk s

/-- Frame: an operation that keeps every mutex, every task's state and
`blocked_on`, the registry length and the idle index preserves `InvW`. -/
theorem invW_frame {s s' : Scheduler}
    (hm : ∀ j, mutexAt s' j = mutexAt s j)
    (hml : s'.mutexes.length = s.mutexes.length)
    (htl : s'.tasks.length = s.tasks.length)
    (hid : s'.idle_task = s.idle_task)
    (hsb : ∀ j, (taskAt s' j).state = (taskAt s j).state ∧
                (taskAt s' j).blocked_on = (taskAt s j).blocked_on)
    (h : InvW s) : InvW s' := by
  obtain ⟨hM, hB, hN, hI⟩ := h
  refine ⟨?_, ?_, ?_, ?_⟩
  · intro mid hmid
    rw [hml] at hmid
    obtain ⟨w5, wnd, w3, wmem⟩ := hM mid hmid
    rw [hm mid]
    refine ⟨w5, wnd, w3, ?_⟩
    intro t ht
    obtain ⟨hb1, hb2, hb3⟩ := wmem t ht
    exact ⟨by rw [htl]; exact hb1, by rw [(hsb t).1]; exact hb2, by rw [(hsb t).2]; exact hb3⟩
  · intro tid htid hb
    rw [htl] at htid
    rw [(hsb tid).1] at hb
    obtain ⟨mid, hmid, hbo, hmem⟩ := hB tid htid hb
    exact ⟨mid, by rw [hml]; exact hmid, by rw [(hsb tid).2]; exact hbo, by rw [hm mid]; exact hmem⟩
  · intro tid hnb mid hmid hmem
    rw [(hsb tid).1] at hnb
    rw [hml] at hmid
    rw [hm mid] at hmem
    exact hN tid hnb mid hmid hmem
  · show (taskAt s' s'.idle_task).state ≠ .BLOCKED
    rw [hid, (hsb s.idle_task).1]
    exact hI

/-- Updating a single task whose state is not Blocked before nor after the
update preserves `InvW` (the changed task sits in no wait queue). -/
theorem invW_state_update {s s' : Scheduler} (i : Nat)
    (hm : ∀ j, mutexAt s' j = mutexAt s j)
    (hml : s'.mutexes.length = s.mutexes.length)
    (htl : s'.tasks.length = s.tasks.length)
    (hid : s'.idle_task = s.idle_task)
    (hne : ∀ j, j ≠ i → taskAt s' j = taskAt s j)
    (hold : (taskAt s i).state ≠ .BLOCKED)
    (hnew : (taskAt s' i).state ≠ .BLOCKED)
    (h : InvW s) : InvW s' := by
  obtain ⟨hM, hB, hN, hI⟩ := h
  refine ⟨?_, ?_, ?_, ?_⟩
  · intro mid hmid
    rw [hml] at hmid
    obtain ⟨w5, wnd, w3, wmem⟩ := hM mid hmid
    rw [hm mid]
    refine ⟨w5, wnd, w3, ?_⟩
    intro t ht
    obtain ⟨hb1, hb2, hb3⟩ := wmem t ht
    have htne : t ≠ i := by
      intro he
      subst he
      exact hold hb2
    rw [hne t htne]
    exact ⟨by rw [htl]; exact hb1, hb2, hb3⟩
  · intro tid htid hb
    have htne : tid ≠ i := by
      intro he
      subst he
      exact hnew hb
    rw [htl] at htid
    rw [hne tid htne] at hb ⊢
    obtain ⟨mid, hmid, hbo, hmem⟩ := hB tid htid hb
    exact ⟨mid, by rw [hml]; exact hmid, hbo, by rw [hm mid]; exact hmem⟩
  · intro tid hnb mid hmid hmem
    rw [hml] at hmid
    rw [hm mid] at hmem
    by_cases htne : tid = i
    · subst htne
      exact hN tid hold mid hmid hmem
    · rw [hne tid htne] at hnb
      exact hN tid hnb mid hmid hmem
  · show (taskAt s' s'.idle_task).state ≠ .BLOCKED
    rw [hid]
    by_cases hie : s.idle_task = i
    · rw [hie]
      exact hnew
    · rw [hne s.idle_task hie]
      exact hI

theorem invW_setTask_keepSB (s : Scheduler) (i : Nat) (t' : TCB)
    (hst : t'.state = (taskAt s i).state) (hbo : t'.blocked_on = (taskAt s i).blocked_on)
    (h : InvW s) : InvW (setTask s i t') := by
  refine invW_frame ?_ ?_ ?_ ?_ ?_ h
  · intro j; rfl
  · rfl
  · simp
  · rfl
  · intro j
    rw [taskAt_setTask]
    split
    · rename_i hc
      obtain ⟨rfl, -⟩ := hc
      exact ⟨hst, hbo⟩
    · exact ⟨rfl, rfl⟩

theorem invW_setTask_nonblocked (s : Scheduler) (i : Nat) (t' : TCB)
    (hold : (taskAt s i).state ≠ .BLOCKED) (hnew : t'.state ≠ .BLOCKED)
    (h : InvW s) : InvW (setTask s i t') := by
  refine invW_state_update i ?_ ?_ ?_ ?_ ?_ hold ?_ h
  · intro j; rfl
  · rfl
  · simp
  · rfl
  · intro j hj
    exact taskAt_setTask_ne s i t' j (fun he => hj he.symm)
  · rw [taskAt_setTask]
    split
    · exact hnew
    · exact hold

theorem invW_ready_queue_insert (s : Scheduler) (tid : Nat) (h : InvW s) :
    InvW (ready_queue_insert s tid) := by
  refine invW_frame ?_ ?_ ?_ ?_ ?_ h
  · intro j; simp
  · simp
  · simp
  · simp
  · intro j; simp

theorem invW_ready_queue_remove (s : Scheduler) (tid : Nat) (h : InvW s) :
    InvW (ready_queue_remove s tid) := by
  refine invW_frame ?_ ?_ ?_ ?_ ?_ h
  · intro j; rfl
  · rfl
  · rfl
  · rfl
  · intro j; exact ⟨rfl, rfl⟩

theorem invW_setSem (s : Scheduler) (i : Nat) (x : Semaphore) (h : InvW s) :
    InvW (setSem s i x) := by
  refine invW_frame ?_ ?_ ?_ ?_ ?_ h
  · intro j; rfl
  · rfl
  · rfl
  · rfl
  · intro j; exact ⟨rfl, rfl⟩

theorem invW_semaphore_create (s : Scheduler) (initial max_count : Int) (h : InvW s) :
    InvW (semaphore_create s initial max_count) := by
  refine invW_frame ?_ ?_ ?_ ?_ ?_ h
  · intro j; rfl
  · rfl
  · rfl
  · rfl
  · intro j; exact ⟨rfl, rfl⟩

theorem invW_resort (s : Scheduler) (tid : Nat) (t1 : TCB)
    (hst : t1.state = (taskAt s tid).state) (hbo : t1.blocked_on = (taskAt s tid).blocked_on)
    (h : InvW s) :
    InvW (if (taskAt s tid).state = .READY
          then ready_queue_insert (ready_queue_remove (setTask s tid t1) tid) tid
          else setTask s tid t1) := by
  split
  · exact invW_ready_queue_insert _ tid
      (invW_ready_queue_remove _ tid (invW_setTask_keepSB s tid t1 hst hbo h))
  · exact invW_setTask_keepSB s tid t1 hst hbo h

theorem invW_task_set_priority (s : Scheduler) (tid : Nat) (p : Int) (h : InvW s) :
    InvW (task_set_priority s tid p) := by
  unfold task_set_priority
  split
  · dsimp only
    exact invW_resort s tid _ rfl rfl h
  · exact h

theorem invW_priority_restore (s : Scheduler) (tid : Nat) (h : InvW s) :
    InvW (priority_restore s tid) := by
  unfold priority_restore
  split
  · dsimp only
    split
    · exact h
    · exact invW_resort s tid _ rfl rfl h
  · exact h

theorem invW_boostLocal (s : Scheduler) (tid : Nat) (p : Int) (h : InvW s) :
    InvW (boostLocal s tid p) := by
  rw [boostLocal_eq]
  dsimp only
  exact invW_resort s tid _ rfl rfl h

theorem invW_priorityInheritF :
    ∀ (fuel : Nat) (s : Scheduler) (tid : Nat) (p : Int) (s' : Scheduler),
      priorityInheritF fuel s tid p = some s' → InvW s → InvW s' := by
  intro fuel
  induction fuel with
  | zero => intro s tid p s' hk; exact absurd hk (by simp [priorityInheritF])
  | succ n ih =>
    intro s tid p s' hk h
    rw [priorityInheritF_succ_eq] at hk
    by_cases ht : tid < s.tasks.length
    · rw [if_pos ht] at hk
      by_cases hle : (taskAt s tid).priority ≤ p
      · rw [if_pos hle] at hk; cases hk; exact h
      · rw [if_neg hle] at hk
        have h2 : InvW (boostLocal s tid p) := invW_boostLocal s tid p h
        cases hbo : (taskAt s tid).blocked_on with
        | none => rw [hbo] at hk; cases hk; exact h2
        | some mid =>
          rw [hbo] at hk
          dsimp only at hk
          cases how : (mutexAt (boostLocal s tid p) mid).owner with
          | none => rw [how] at hk; cases hk; exact h2
          | some oid => rw [how] at hk; exact ih _ _ _ _ hk h2
    · rw [if_neg ht] at hk; cases hk; exact h

theorem invW_priority_inherit (s : Scheduler) (tid : Nat) (p : Int) (h : InvW s) :
    InvW (priority_inherit s tid p) :=
  invW_priorityInheritF _ s tid p _ (priority_inherit_some s tid p) h

theorem invW_task_add_held_mutex (s : Scheduler) (tid mid : Nat) (h : InvW s) :
    InvW (task_add_held_mutex s tid mid) := by
  unfold task_add_held_mutex
  split
  · exact invW_setTask_keepSB s tid _ rfl rfl h
  · exact h

theorem invW_task_remove_held_mutex (s : Scheduler) (tid mid : Nat) (h : InvW s) :
    InvW (task_remove_held_mutex s tid mid) := by
  unfold task_remove_held_mutex
  split
  · exact invW_setTask_keepSB s tid _ rfl rfl h
  · exact h

theorem invW_task_set_state_nonblocked (s : Scheduler) (i : Nat) (st : TaskState)
    (hold : (taskAt s i).state ≠ .BLOCKED) (hnew : st ≠ .BLOCKED)
    (h : InvW s) : InvW (task_set_state s i st) := by
  refine invW_state_update i ?_ ?_ ?_ ?_ ?_ hold ?_ h
  · intro j; simp
  · simp
  · simp
  · simp
  · intro j hj
    exact taskAt_task_set_state_ne s i st j (fun he => hj he.symm)
  · by_cases hi : i < s.tasks.length
    · rw [state_task_set_state_self s i st hi]
      exact hnew
    · unfold task_set_state
      rw [if_neg hi]
      exact hold

end RTOS

namespace RTOS

theorem invW_of_boostFrame {s s' : Scheduler} (hf : BoostFrame s s') (h : InvW s) :
    InvW s' := by
  obtain ⟨htl, hm, hsem, hcur, hid, hticks, hcs, hpol, hpi, htask⟩ := hf
  refine invW_frame ?_ ?_ ?_ ?_ ?_ h
  · intro j
    unfold mutexAt
    rw [hm]
  · rw [hm]
  · exact htl
  · exact hid
  · intro j
    exact ⟨(htask j).1, (htask j).2.1⟩

theorem invW_setMutex_queue_eq (s : Scheduler) (mid : Nat) (m' : Mutex)
    (hmid : mid < s.mutexes.length)
    (hqeq : m'.wait_queue = (mutexAt s mid).wait_queue)
    (hl : m'.locked = false → m'.wait_queue = [])
    (hown : ∀ t, m'.owner = some t → t ∉ m'.wait_queue)
    (h : InvW s) : InvW (setMutex s mid m') := by
  obtain ⟨hM, hB, hN, hI⟩ := h
  have hmAt : ∀ j, mutexAt (setMutex s mid m') j = if mid = j then m' else mutexAt s j := by
    intro j
    by_cases hj : mid = j
    · subst hj
      rw [mutexAt_setMutex_self s mid m' hmid, if_pos rfl]
    · rw [mutexAt_setMutex_ne s mid m' j hj, if_neg hj]
  refine ⟨?_, ?_, ?_, ?_⟩
  · intro mid' hmid'
    rw [length_mutexes_setMutex] at hmid'
    rw [hmAt mid']
    by_cases hj : mid = mid'
    · subst hj
      rw [if_pos rfl]
      obtain ⟨w5, wnd, w3, wmem⟩ := hM mid hmid
      refine ⟨hl, by rw [hqeq]; exact wnd, hown, ?_⟩
      intro t ht
      rw [hqeq] at ht
      exact wmem t ht
    · rw [if_neg hj]
      exact hM mid' hmid'
  · intro tid htid hb
    obtain ⟨mid'', hm'', hbo, hmem⟩ := hB tid htid hb
    refine ⟨mid'', by rw [length_mutexes_setMutex]; exact hm'', hbo, ?_⟩
    rw [hmAt mid'']
    by_cases hj : mid = mid''
    · subst hj
      rw [if_pos rfl, hqeq]
      exact hmem
    · rw [if_neg hj]
      exact hmem
  · intro tid hnb mid' hmid' hmem
    rw [length_mutexes_setMutex] at hmid'
    rw [hmAt mid'] at hmem
    by_cases hj : mid = mid'
    · subst hj
      rw [if_pos rfl, hqeq] at hmem
      exact hN tid hnb mid hmid hmem
    · rw [if_neg hj] at hmem
      exact hN tid hnb mid' hmid' hmem
  · exact hI

theorem invW_mutex_create (s : Scheduler) (h : InvW s) : InvW (mutex_create s) := by
  obtain ⟨hM, hB, hN, hI⟩ := h
  have hlt : ∀ j, j < s.mutexes.length → mutexAt (mutex_create s) j = mutexAt s j := by
    intro j hj
    show (s.mutexes ++ [({} : Mutex)]).getD j ({} : Mutex) = s.mutexes.getD j ({} : Mutex)
    rw [List.getD_eq_getElem?_getD, List.getElem?_append, if_pos hj,
      ← List.getD_eq_getElem?_getD]
  have hself : mutexAt (mutex_create s) s.mutexes.length = ({} : Mutex) := by
    show (s.mutexes ++ [({} : Mutex)]).getD s.mutexes.length ({} : Mutex) = ({} : Mutex)
    rw [List.getD_eq_getElem?_getD, List.getElem?_append_right (le_refl _)]
    simp
  have hlen : (mutex_create s).mutexes.length = s.mutexes.length + 1 := by
    show (s.mutexes ++ [({} : Mutex)]).length = _
    simp
  refine ⟨?_, ?_, ?_, ?_⟩
  · intro mid hmid
    rw [hlen] at hmid
    by_cases hj : mid < s.mutexes.length
    · rw [hlt mid hj]
      exact hM mid hj
    · have hje : mid = s.mutexes.length := by omega
      subst hje
      rw [hself]
      refine ⟨fun _ => rfl, List.nodup_nil, ?_, ?_⟩
      · intro t ht
        simp at ht
      · intro t ht
        exact absurd ht (List.not_mem_nil t)
  · intro tid htid hb
    obtain ⟨mid, hmid, hbo, hmem⟩ := hB tid htid hb
    refine ⟨mid, by rw [hlen]; omega, hbo, ?_⟩
    rw [hlt mid hmid]
    exact hmem
  · intro tid hnb mid hmid hmem
    rw [hlen] at hmid
    by_cases hj : mid < s.mutexes.length
    · rw [hlt mid hj] at hmem
      exact hN tid hnb mid hj hmem
    · have hje : mid = s.mutexes.length := by omega
      subst hje
      rw [hself] at hmem
      exact absurd hmem (List.not_mem_nil tid)
  · exact hI

theorem invW_task_create (s : Scheduler) (pri : Int) (period deadline wcet : Nat)
    (hidle : s.idle_task < s.tasks.length) (h : InvW s) :
    InvW (task_create s pri period deadline wcet) := by
  unfold task_create
  split
  · exact h
  · dsimp only
    refine invW_ready_queue_insert _ _ ?_
    obtain ⟨hM, hB, hN, hI⟩ := h
    have hnbs : ∀ tid, ¬ tid < s.tasks.length → (taskAt s tid).state ≠ .BLOCKED := by
      intro tid htid
      rw [taskAt_oob s tid (Nat.le_of_not_lt htid)]
      simp [defaultTCB]
    refine ⟨?_, ?_, ?_, ?_⟩
    · intro mid hmid
      obtain ⟨w5, wnd, w3, wmem⟩ := hM mid hmid
      refine ⟨w5, wnd, w3, ?_⟩
      intro t ht
      obtain ⟨a, b, c⟩ := wmem t ht
      rw [taskAt_append_lt s _ t a]
      refine ⟨?_, b, c⟩
      show t < (s.tasks ++ _).length
      simp only [List.length_append, List.length_cons, List.length_nil]
      omega
    · intro tid htid hb
      by_cases hj : tid < s.tasks.length
      · rw [taskAt_append_lt s _ tid hj] at hb ⊢
        exact hB tid hj hb
      · have hje : tid = s.tasks.length := by
          have h2 : tid < s.tasks.length + 1 := by simpa using htid
          omega
        subst hje
        rw [taskAt_append_self] at hb
        simp at hb
    · intro tid hnb mid hmid hmem
      by_cases hj : tid < s.tasks.length
      · rw [taskAt_append_lt s _ tid hj] at hnb
        exact hN tid hnb mid hmid hmem
      · exact hN tid (hnbs tid hj) mid hmid hmem
    · show (taskAt _ s.idle_task).state ≠ .BLOCKED
      rw [taskAt_append_lt s _ s.idle_task hidle]
      exact hI

theorem invW_foldl {f : Scheduler → Nat → Scheduler}
    (hf : ∀ st i, InvW st → InvW (f st i)) :
    ∀ (l : List Nat) (st : Scheduler), InvW st → InvW (List.foldl f st l) := by
  intro l
  induction l with
  | nil => intro st h; exact h
  | cons i rest ih => intro st h; exact ih (f st i) (hf st i h)

theorem invW_check_periodic_releases (s : Scheduler) (h : InvW s) :
    InvW (check_periodic_releases s) := by
  unfold check_periodic_releases
  refine invW_foldl ?_ _ s h
  intro st i hst
  dsimp only
  split
  · exact hst
  · split
    · exact hst
    · split
      · rename_i hcond
        have hi : i < st.tasks.length := by
          by_contra hno
          rw [taskAt_oob st i (Nat.le_of_not_lt hno)] at hcond
          exact absurd hcond.1 (by simp [defaultTCB])
        refine invW_task_set_state_nonblocked _ i .READY ?_ (by simp)
          (invW_setTask_keepSB st i _ rfl rfl hst)
        rw [taskAt_setTask_self st i _ hi]
        show ¬ (taskAt st i).state = .BLOCKED
        rw [hcond.1]
        simp
      · exact hst

theorem invW_check_deadlines (s : Scheduler) (h : InvW s) : InvW (check_deadlines s) := by
  unfold check_deadlines
  refine invW_foldl ?_ _ s h
  intro st i hst
  dsimp only
  split
  · exact hst
  · split
    · exact hst
    · split
      · exact invW_setTask_keepSB st i _ rfl rfl hst
      · exact hst

theorem invW_tick_handler (s : Scheduler) (h : InvW s) : InvW (tick_handler s) := by
  unfold tick_handler
  dsimp only
  refine invW_check_deadlines _ (invW_check_periodic_releases _ ?_)
  cases hc : s.current_task with
  | none =>
    refine invW_frame ?_ ?_ ?_ ?_ ?_ h
    · intro j; rfl
    · rfl
    · rfl
    · rfl
    · intro j; exact ⟨rfl, rfl⟩
  | some c =>
    dsimp only
    split
    · refine invW_setTask_keepSB _ c _ rfl rfl ?_
      refine invW_frame ?_ ?_ ?_ ?_ ?_ h
      · intro j; rfl
      · rfl
      · rfl
      · rfl
      · intro j; exact ⟨rfl, rfl⟩
    · refine invW_frame ?_ ?_ ?_ ?_ ?_ h
      · intro j; rfl
      · rfl
      · rfl
      · rfl
      · intro j; exact ⟨rfl, rfl⟩

theorem invW_assignRanks :
    ∀ (ids : List Nat) (k : Nat) (st : Scheduler), InvW st → InvW (assignRanks k ids st) := by
  intro ids
  induction ids with
  | nil => intro k st h; exact h
  | cons i rest ih =>
    intro k st h
    unfold assignRanks
    exact ih (k + 1) _ (invW_setTask_keepSB st i _ rfl rfl h)

theorem invW_rms_recalculate (s : Scheduler) (h : InvW s) :
    InvW (rms_recalculate_priorities s) := by
  unfold rms_recalculate_priorities
  dsimp only
  refine invW_foldl ?_ _ _ ?_
  · intro st i
    unfold readyRebuildStep
    split
    · exact invW_ready_queue_insert st i
    · exact fun hx => hx
  · refine invW_frame ?_ ?_ ?_ ?_ ?_ (invW_assignRanks (rms_sorted s) 0 s h)
    · intro j; rfl
    · rfl
    · rfl
    · rfl
    · intro j; exact ⟨rfl, rfl⟩

theorem invW_scheduler_context_switch (s : Scheduler) (fromT : Option Nat) (toT : Nat)
    (hto : (taskAt s toT).state ≠ .BLOCKED) (h : InvW s) :
    InvW (scheduler_context_switch s fromT toT) := by
  unfold scheduler_context_switch
  by_cases hft : fromT = some toT
  · rw [if_pos hft]; exact h
  · rw [if_neg hft]
    have hmain : ∀ s1 : Scheduler, InvW s1 → (taskAt s1 toT).state ≠ .BLOCKED →
        InvW { setTask (ready_queue_remove s1 toT) toT
                 { taskAt (ready_queue_remove s1 toT) toT with state := TaskState.RUNNING } with
               current_task := some toT
               context_switches := u64succ (setTask (ready_queue_remove s1 toT) toT
                 { taskAt (ready_queue_remove s1 toT) toT with
                     state := TaskState.RUNNING }).context_switches } := by
      intro s1 h1 hnb1
      have h2 : InvW (setTask (ready_queue_remove s1 toT) toT
          { taskAt (ready_queue_remove s1 toT) toT with state := TaskState.RUNNING }) := by
        refine invW_setTask_nonblocked _ toT _ ?_ ?_ (invW_ready_queue_remove s1 toT h1)
        · exact hnb1
        · simp
      refine invW_frame ?_ ?_ ?_ ?_ ?_ h2
      · intro j; rfl
      · rfl
      · rfl
      · rfl
      · intro j; exact ⟨rfl, rfl⟩
    cases fromT with
    | none =>
      dsimp only
      exact hmain s h hto
    | some f =>
      dsimp only
      split
      · rename_i hRun
        have hfne : f ≠ toT := fun he => hft (by rw [he])
        refine hmain _ ?_ ?_
        · refine invW_ready_queue_insert _ f ?_
          refine invW_setTask_nonblocked s f _ ?_ ?_ h
          · rw [hRun]; simp
          · simp
        · rw [taskAt_ready_queue_insert, taskAt_setTask_ne s f _ toT hfne]
          exact hto
      · exact hmain s h hto

theorem invW_scheduler_schedule (s : Scheduler) (hq : InvQ s) (h : InvW s) :
    InvW (scheduler_schedule s) := by
  unfold scheduler_schedule
  have hnb : (taskAt s (scheduler_get_next_task s)).state ≠ .BLOCKED := by
    unfold scheduler_get_next_task
    cases hcq : s.ready_queue with
    | nil => exact h.2.2.2
    | cons a l =>
      have hst := hq.2.1 a (hcq ▸ List.mem_cons_self a l)
      show (taskAt s a).state ≠ .BLOCKED
      rw [hst]
      simp
  match hc : s.current_task with
  | some c =>
    dsimp only
    split
    · exact h
    · split
      · exact h
      · exact invW_scheduler_context_switch s (some c) _ hnb h
  | none => exact invW_scheduler_context_switch s none _ hnb h

end RTOS

namespace RTOS

@[simp] theorem taskAt_wait_queue_insert (s : Scheduler) (mid tid j : Nat) :
    taskAt (wait_queue_insert s mid tid) j = taskAt s j := by
  unfold wait_queue_insert
  dsimp only
  split <;> rfl

@[simp] theorem tasks_wait_queue_insert (s : Scheduler) (mid tid : Nat) :
    (wait_queue_insert s mid tid).tasks = s.tasks := by
  unfold wait_queue_insert
  dsimp only
  split <;> rfl

@[simp] theorem idle_task_wait_queue_insert (s : Scheduler) (mid tid : Nat) :
    (wait_queue_insert s mid tid).idle_task = s.idle_task := by
  unfold wait_queue_insert
  dsimp only
  split <;> rfl

@[simp] theorem idle_task_unlockHandoff (s2 : Scheduler) (mid : Nat) :
    (unlockHandoff s2 mid).idle_task = s2.idle_task := by
  unfold unlockHandoff
  dsimp only
  split
  · rw [idle_task_task_set_state]
    unfold task_add_held_mutex
    split <;> rfl
  · rfl

/-- The blocking tail of `mutex_lock` under contention: record `blocked_on`,
block the task, enqueue it and re-dispatch. -/
theorem invW_lock_block (s2 : Scheduler) (mid tid : Nat)
    (hmid : mid < s2.mutexes.length) (htid : tid < s2.tasks.length)
    (hnb : (taskAt s2 tid).state ≠ .BLOCKED)
    (hidle : tid ≠ s2.idle_task)
    (hnotown : (mutexAt s2 mid).owner ≠ some tid)
    (hlocked : (mutexAt s2 mid).locked = true)
    (hcap : (mutexAt s2 mid).wait_queue.length < MUTEX_WAIT_QUEUE_CAP)
    (hq2 : InvQ s2) (h : InvW s2) :
    InvW (scheduler_schedule (wait_queue_insert
      (task_set_state (setTask s2 tid { taskAt s2 tid with blocked_on := some mid })
        tid .BLOCKED)
      mid tid)) := by
  obtain ⟨hM, hB, hN, hI⟩ := h
  set sA := setTask s2 tid { taskAt s2 tid with blocked_on := some mid } with hsA
  set sB := task_set_state sA tid .BLOCKED with hsB
  have hlenA : sA.tasks.length = s2.tasks.length := by rw [hsA]; simp
  have hlenB : sB.tasks.length = s2.tasks.length := by rw [hsB]; simp [hlenA]
  have hmB : ∀ j, mutexAt sB j = mutexAt s2 j := by
    intro j
    rw [hsB, mutexAt_task_set_state, hsA, mutexAt_setTask]
  have hmlenB : sB.mutexes.length = s2.mutexes.length := by
    rw [hsB, mutexes_task_set_state, hsA, mutexes_setTask]
  have hidleB : sB.idle_task = s2.idle_task := by
    rw [hsB, idle_task_task_set_state, hsA, idle_task_setTask]
  have htidA : tid < sA.tasks.length := by rw [hlenA]; exact htid
  have hAat : taskAt sA tid = { taskAt s2 tid with blocked_on := some mid } := by
    rw [hsA]; exact taskAt_setTask_self s2 tid _ htid
  have hstB : (taskAt sB tid).state = .BLOCKED := by
    rw [hsB]; exact state_task_set_state_self sA tid .BLOCKED htidA
  have hboB : (taskAt sB tid).blocked_on = some mid := by
    rw [hsB, (fields_task_set_state_self sA tid .BLOCKED).1, hAat]
  have hneB : ∀ j, j ≠ tid → taskAt sB j = taskAt s2 j := by
    intro j hj
    rw [hsB, taskAt_task_set_state_ne sA tid .BLOCKED j (fun he => hj he.symm), hsA,
      taskAt_setTask_ne s2 tid _ j (fun he => hj he.symm)]
  have hnotq : tid ∉ (mutexAt s2 mid).wait_queue := hN tid hnb mid hmid
  have hmidB : mid < sB.mutexes.length := by rw [hmlenB]; exact hmid
  have hins : wait_queue_insert sB mid tid = setMutex sB mid
      { mutexAt sB mid with
        wait_queue := insertByPri (fun j => (taskAt sB j).priority)
          ((taskAt sB tid).priority) tid (mutexAt sB mid).wait_queue } := by
    unfold wait_queue_insert
    dsimp only
    rw [if_neg (show ¬ MUTEX_WAIT_QUEUE_CAP ≤ (mutexAt sB mid).wait_queue.length from by
      rw [hmB]; omega)]
  rw [hins]
  have hqB : (mutexAt sB mid).wait_queue = (mutexAt s2 mid).wait_queue :=
    congrArg Mutex.wait_queue (hmB mid)
  set mNew : Mutex :=
    { mutexAt sB mid with
      wait_queue := insertByPri (fun j => (taskAt sB j).priority)
        ((taskAt sB tid).priority) tid (mutexAt sB mid).wait_queue } with hmNew
  set sC := setMutex sB mid mNew with hsC
  have hCmid : mutexAt sC mid = mNew := by
    rw [hsC]; exact mutexAt_setMutex_self sB mid mNew hmidB
  have hCne : ∀ j, j ≠ mid → mutexAt sC j = mutexAt s2 j := by
    intro j hj
    rw [hsC, mutexAt_setMutex_ne sB mid mNew j (fun he => hj he.symm), hmB]
  have hCtask : ∀ j, taskAt sC j = taskAt sB j := by
    intro j; rw [hsC]; rfl
  have hCtl : sC.tasks.length = s2.tasks.length := by
    rw [hsC]
    show sB.tasks.length = s2.tasks.length
    exact hlenB
  have hCml : sC.mutexes.length = s2.mutexes.length := by
    rw [hsC, length_mutexes_setMutex, hmlenB]
  have hCidle : sC.idle_task = s2.idle_task := by
    rw [hsC]
    show sB.idle_task = s2.idle_task
    exact hidleB
  have hmem_new : ∀ x, x ∈ mNew.wait_queue ↔ x = tid ∨ x ∈ (mutexAt s2 mid).wait_queue := by
    intro x
    rw [hmNew]
    show x ∈ insertByPri _ _ tid (mutexAt sB mid).wait_queue ↔ _
    rw [hqB]
    exact mem_insertByPri _ _ tid _ x
  have hwC : InvW sC := by
    refine ⟨?_, ?_, ?_, ?_⟩
    · intro mid' hmid'
      rw [hCml] at hmid'
      by_cases hjm : mid' = mid
      · subst hjm
        rw [hCmid]
        obtain ⟨w5, wnd, w3, wmem⟩ := hM mid' hmid'
        refine ⟨?_, ?_, ?_, ?_⟩
        · intro hcon
          have hcon2 : (mutexAt s2 mid').locked = false := by
            rw [← congrArg Mutex.locked (hmB mid')]
            exact hcon
          rw [hlocked] at hcon2
          exact absurd hcon2 (by decide)
        · show (insertByPri _ _ tid (mutexAt sB mid').wait_queue).Nodup
          rw [hqB]
          exact nodup_insertByPri _ _ tid _ wnd hnotq
        · intro t hsome ht
          have hsome2 : (mutexAt s2 mid').owner = some t := by
            rw [← congrArg Mutex.owner (hmB mid')]
            exact hsome
          have htne : t ≠ tid := by
            intro he
            subst he
            exact hnotown hsome2
          rcases (hmem_new t).mp ht with he | htq
          · exact htne he
          · exact w3 t hsome2 htq
        · intro t ht
          rcases (hmem_new t).mp ht with rfl | htq
          · refine ⟨by rw [hCtl]; exact htid, ?_, ?_⟩
            · rw [hCtask]; exact hstB
            · rw [hCtask]; exact hboB
          · have htne : t ≠ tid := fun he => hnotq (he ▸ htq)
            obtain ⟨a, b, c⟩ := wmem t htq
            rw [hCtask, hneB t htne]
            exact ⟨by rw [hCtl]; exact a, b, c⟩
      · rw [hCne mid' hjm]
        obtain ⟨w5, wnd, w3, wmem⟩ := hM mid' hmid'
        refine ⟨w5, wnd, w3, ?_⟩
        intro t ht
        obtain ⟨a, b, c⟩ := wmem t ht
        have htne : t ≠ tid := by
          intro he
          subst he
          exact hnb b
        rw [hCtask, hneB t htne]
        exact ⟨by rw [hCtl]; exact a, b, c⟩
    · intro tid' htid' hb
      rw [hCtl] at htid'
      rw [hCtask] at hb
      by_cases hte : tid' = tid
      · subst hte
        refine ⟨mid, by rw [hCml]; exact hmid, ?_, ?_⟩
        · rw [hCtask]; exact hboB
        · rw [hCmid]
          exact (hmem_new tid').mpr (Or.inl rfl)
      · rw [hneB tid' hte] at hb
        obtain ⟨mid'', hm'', hbo, hmem⟩ := hB tid' htid' hb
        refine ⟨mid'', by rw [hCml]; exact hm'', ?_, ?_⟩
        · rw [hCtask, hneB tid' hte]; exact hbo
        · by_cases hjm : mid'' = mid
          · subst hjm
            rw [hCmid]
            exact (hmem_new tid').mpr (Or.inr hmem)
          · rw [hCne mid'' hjm]
            exact hmem
    · intro tid' hnb' mid' hmid' hmem
      rw [hCtask] at hnb'
      rw [hCml] at hmid'
      have hte : tid' ≠ tid := by
        intro he
        subst he
        exact hnb' hstB
      rw [hneB tid' hte] at hnb'
      by_cases hjm : mid' = mid
      · subst hjm
        rw [hCmid] at hmem
        rcases (hmem_new tid').mp hmem with he | hmem2
        · exact hte he
        · exact hN tid' hnb' mid' hmid' hmem2
      · rw [hCne mid' hjm] at hmem
        exact hN tid' hnb' mid' hmid' hmem
    · show (taskAt sC sC.idle_task).state ≠ .BLOCKED
      rw [hCidle, hCtask, hneB s2.idle_task (fun he => hidle he.symm)]
      exact hI
  refine invW_scheduler_schedule sC ?_ hwC
  rw [hsC]
  refine invQ_setMutex sB mid mNew ?_
  rw [hsB]
  refine invQ_task_set_state sA tid .BLOCKED ?_
  rw [hsA]
  exact invQ_setTask_keep s2 tid _ rfl rfl hq2

end RTOS

namespace RTOS

theorem invW_mutex_lock (s : Scheduler) (mid tid : Nat)
    (htid : tid < s.tasks.length) (hidle : tid ≠ s.idle_task)
    (hstate : (taskAt s tid).state = .READY ∨ (taskAt s tid).state = .RUNNING)
    (hnotown : (mutexAt s mid).owner ≠ some tid)
    (hcap : (mutexAt s mid).wait_queue.length < MUTEX_WAIT_QUEUE_CAP)
    (hq : InvQ s) (h : InvW s) : InvW (mutex_lock s mid tid) := by
  have hnb : (taskAt s tid).state ≠ .BLOCKED := by
    rcases hstate with hs1 | hs1 <;> rw [hs1] <;> simp
  unfold mutex_lock
  split
  · rename_i hguard
    dsimp only
    split
    · rename_i hunlocked
      refine invW_task_add_held_mutex _ tid mid ?_
      refine invW_setMutex_queue_eq s mid _ hguard.1 rfl ?_ ?_ h
      · intro hcon
        exact absurd hcon (by simp)
      · intro t hsome
        have hqe : (mutexAt s mid).wait_queue = [] := (h.1 mid hguard.1).1 hunlocked
        intro hmem
        have hmem2 : t ∈ (mutexAt s mid).wait_queue := hmem
        rw [hqe] at hmem2
        exact absurd hmem2 (List.not_mem_nil t)
    · rename_i hlockedF
      have hlocked : (mutexAt s mid).locked = true := by
        cases hcl : (mutexAt s mid).locked
        · exact absurd hcl hlockedF
        · rfl
      have happly : ∀ X : Scheduler, BoostFrame s X → InvQ X →
          InvW (scheduler_schedule (wait_queue_insert
            (task_set_state (setTask X tid { taskAt X tid with blocked_on := some mid })
              tid .BLOCKED)
            mid tid)) := by
        intro X hf hqX
        have htl := hf.1
        have hmut := hf.2.1
        have hid := hf.2.2.2.2.1
        have htask := hf.2.2.2.2.2.2.2.2.2
        refine invW_lock_block X mid tid ?_ ?_ ?_ ?_ ?_ ?_ ?_ hqX
          (invW_of_boostFrame hf h)
        · rw [hmut]; exact hguard.1
        · rw [htl]; exact htid
        · rw [(htask tid).1]; exact hnb
        · rw [hid]; exact hidle
        · unfold mutexAt
          rw [hmut]
          exact hnotown
        · unfold mutexAt
          rw [hmut]
          exact hlocked
        · unfold mutexAt
          rw [hmut]
          exact hcap
      refine happly _ ?_ ?_
      · split
        · split
          · split
            · exact priorityInheritF_frame _ s _ _ _ (priority_inherit_some s _ _)
            · exact boostFrame_refl s
          · exact boostFrame_refl s
        · exact boostFrame_refl s
      · split
        · split
          · split
            · exact invQ_priority_inherit s _ _ hq
            · exact hq
          · exact hq
        · exact hq
  · exact h

theorem invW_unlockHandoff (s2 : Scheduler) (mid tid : Nat)
    (hmid : mid < s2.mutexes.length) (hown : (mutexAt s2 mid).owner = some tid)
    (h : InvW s2) : InvW (unlockHandoff s2 mid) := by
  obtain ⟨hM, hB, hN, hI⟩ := h
  obtain ⟨w5, wnd, w3, wmem⟩ := hM mid hmid
  cases hwq : (mutexAt s2 mid).wait_queue with
  | nil =>
    rw [unlockHandoff_nil s2 mid hwq]
    refine invW_setMutex_queue_eq s2 mid _ hmid rfl ?_ ?_ ⟨hM, hB, hN, hI⟩
    · intro _
      exact hwq
    · intro t hcon
      exact absurd hcon (by simp)
  | cons w rest =>
    have hwmem : w ∈ (mutexAt s2 mid).wait_queue := by
      rw [hwq]; exact List.mem_cons_self w rest
    obtain ⟨hwlen, hwst, hwbo⟩ := wmem w hwmem
    have hndc : w ∉ rest ∧ rest.Nodup := by
      rw [hwq] at wnd
      exact List.nodup_cons.mp wnd
    obtain ⟨hcowner, hcqueue, hclocked, hcbo, hcst, hcheld, hctask, hcmut, hctl, hcml⟩ :=
      unlockHandoff_char s2 mid w rest hmid hwlen hwq
    have hlocked2 : (mutexAt s2 mid).locked = true := by
      cases hcl : (mutexAt s2 mid).locked
      · have hql := w5 hcl
        rw [hwq] at hql
        exact absurd hql (by simp)
      · rfl
    refine ⟨?_, ?_, ?_, ?_⟩
    · intro mid' hmid'
      rw [hcml] at hmid'
      by_cases hjm : mid' = mid
      · subst hjm
        refine ⟨?_, ?_, ?_, ?_⟩
        · intro hcon
          rw [hclocked, hlocked2] at hcon
          exact absurd hcon (by decide)
        · rw [hcqueue]; exact hndc.2
        · intro t hsome ht
          rw [hcowner] at hsome
          injection hsome with he
          subst he
          rw [hcqueue] at ht
          exact hndc.1 ht
        · intro t ht
          rw [hcqueue] at ht
          have htw : t ≠ w := fun he => hndc.1 (he ▸ ht)
          have htmem : t ∈ (mutexAt s2 mid').wait_queue := by
            rw [hwq]; exact List.mem_cons_of_mem w ht
          obtain ⟨a, b, c⟩ := wmem t htmem
          rw [hctask t htw]
          exact ⟨by rw [hctl]; exact a, b, c⟩
      · rw [hcmut mid' hjm]
        obtain ⟨v5, vnd, v3, vmem⟩ := hM mid' hmid'
        refine ⟨v5, vnd, v3, ?_⟩
        intro t ht
        obtain ⟨a, b, c⟩ := vmem t ht
        have htw : t ≠ w := by
          intro he
          subst he
          rw [hwbo] at c
          injection c with hc2
          exact hjm hc2.symm
        rw [hctask t htw]
        exact ⟨by rw [hctl]; exact a, b, c⟩
    · intro tid' htid' hb
      rw [hctl] at htid'
      by_cases hte : tid' = w
      · subst hte
        rw [hcst] at hb
        exact absurd hb (by decide)
      · rw [hctask tid' hte] at hb
        obtain ⟨mid'', hm'', hbo, hmem⟩ := hB tid' htid' hb
        refine ⟨mid'', by rw [hcml]; exact hm'', by rw [hctask tid' hte]; exact hbo, ?_⟩
        by_cases hm2 : mid'' = mid
        · subst hm2
          rw [hcqueue]
          rw [hwq] at hmem
          rcases List.mem_cons.mp hmem with he | hmem2
          · exact absurd he hte
          · exact hmem2
        · rw [hcmut mid'' hm2]
          exact hmem
    · intro tid' hnb mid' hmid' hmem
      rw [hcml] at hmid'
      by_cases hte : tid' = w
      · subst hte
        by_cases hm2 : mid' = mid
        · subst hm2
          rw [hcqueue] at hmem
          exact hndc.1 hmem
        · rw [hcmut mid' hm2] at hmem
          obtain ⟨-, -, c⟩ := (hM mid' hmid').2.2.2 tid' hmem
          rw [hwbo] at c
          injection c with hc2
          exact hm2 hc2.symm
      · rw [hctask tid' hte] at hnb
        by_cases hm2 : mid' = mid
        · subst hm2
          rw [hcqueue] at hmem
          have hmem2 : tid' ∈ (mutexAt s2 mid').wait_queue := by
            rw [hwq]; exact List.mem_cons_of_mem w hmem
          exact hN tid' hnb mid' hmid' hmem2
        · rw [hcmut mid' hm2] at hmem
          exact hN tid' hnb mid' hmid' hmem
    · have hidw : s2.idle_task ≠ w := by
        intro he
        rw [← he] at hwst
        exact hI hwst
      show (taskAt (unlockHandoff s2 mid) (unlockHandoff s2 mid).idle_task).state ≠ .BLOCKED
      rw [idle_task_unlockHandoff, hctask s2.idle_task hidw]
      exact hI

theorem invW_mutex_unlock (s : Scheduler) (mid tid : Nat) (hq : InvQ s) (h : InvW s) :
    InvW (mutex_unlock s mid tid) := by
  unfold mutex_unlock
  split
  · rename_i hguard
    dsimp only
    split
    · exact h
    · rename_i hownNN
      have hown : (mutexAt s mid).owner = some tid := not_not.mp hownNN
      have happly : ∀ X : Scheduler, InvQ X → InvW X →
          X.mutexes.length = s.mutexes.length → mutexAt X mid = mutexAt s mid →
          InvW (scheduler_schedule (unlockHandoff X mid)) := by
        intro X hqX hwX hml hmm
        refine invW_scheduler_schedule _ (invQ_unlockHandoff X mid hqX) ?_
        refine invW_unlockHandoff X mid tid ?_ ?_ hwX
        · rw [hml]; exact hguard.1
        · rw [hmm]; exact hown
      split
      · refine happly _
          (invQ_priority_restore _ tid (invQ_task_remove_held_mutex s tid mid hq))
          (invW_priority_restore _ tid (invW_task_remove_held_mutex s tid mid h)) ?_ ?_
        · simp [mutexes_priority_restore]
        · simp
      · refine happly _ (invQ_task_remove_held_mutex s tid mid hq)
          (invW_task_remove_held_mutex s tid mid h) ?_ ?_
        · simp
        · simp
  · exact h

end RTOS

namespace RTOS

theorem invW_scheduler_init (policy : SchedPolicy) (pi_enabled : Bool) :
    InvW (scheduler_init policy pi_enabled) := by
  rw [scheduler_init_eq]
  refine ⟨?_, ?_, ?_, ?_⟩
  · intro mid hmid
    exact absurd hmid (by simp)
  · intro tid htid hb
    have h0 : tid = 0 := by
      have h1 : tid < 1 := by simpa using htid
      omega
    subst h0
    exact TaskState.noConfusion hb
  · intro tid hnb mid hmid hmem
    exact absurd hmid (by simp)
  · exact fun hcon => TaskState.noConfusion hcon

theorem invW_applyOp_wf (op : Op) (s : Scheduler) (hop : WfOp op s = true)
    (hq : InvQ s) (h : InvW s) : InvW (applyOp op s) := by
  cases op with
  | create priority period deadline wcet =>
    exact invW_task_create s priority period deadline wcet hq.2.2.2.2.2 h
  | setState tid st => exact absurd hop (by simp [WfOp])
  | suspendTask tid => exact absurd hop (by simp [WfOp])
  | resumeTask tid => exact absurd hop (by simp [WfOp])
  | terminateTask tid => exact absurd hop (by simp [WfOp])
  | setPriority tid p => exact invW_task_set_priority s tid p h
  | mkMutex => exact invW_mutex_create s h
  | lock mid tid =>
    simp only [WfOp, Bool.and_eq_true, Bool.or_eq_true, decide_eq_true_eq, beq_iff_eq,
      Bool.not_eq_true', beq_eq_false_iff_ne] at hop
    obtain ⟨⟨⟨⟨h1, h2⟩, h3⟩, h4⟩, h5⟩ := hop
    exact invW_mutex_lock s mid tid h1 h2 h3 h4 h5 hq h
  | unlock mid tid => exact invW_mutex_unlock s mid tid hq h
  | mkSem initial max_count => exact invW_semaphore_create s initial max_count h
  | semWait sid tid => exact absurd hop (by simp [WfOp])
  | semSignal sid => exact absurd hop (by simp [WfOp])
  | dispatch => exact invW_scheduler_schedule s hq h
  | tick => exact invW_tick_handler s h
  | rmRecalc => exact invW_rms_recalculate s h

/-- Along every disciplined run both standing invariants hold. -/
theorem reachesWf_invW {s : Scheduler} (h : ReachesWf s) : InvQ s ∧ InvW s := by
  induction h with
  | init policy pi_enabled =>
    exact ⟨invQ_scheduler_init policy pi_enabled, invW_scheduler_init policy pi_enabled⟩
  | step op s hop hprev ih =>
    exact ⟨invQ_applyOp op s ih.1, invW_applyOp_wf op s hop ih.1 ih.2⟩

end RTOS

/-! ### C5 and C6: blocking, wait-queue membership and self-lock -/

namespace RTOS

/-- A reachable state in which task 1 is blocked by `semaphore_wait` on
semaphore 0 (created with count 0): it is Blocked with `blocked_on = ⊥` and
the system has no mutexes at all. -/
def semBlockedState : Scheduler :=
  applyOp (.semWait 0 1) (applyOp (.mkSem 0 1)
    (applyOp (.create 5 0 0 5) (scheduler_init .SCHED_PRIORITY true)))

/-- Counterexample to C5 as stated: `semaphore_wait` blocks the task without
setting `blocked_on` and enqueues it on the semaphore's own wait queue, so a
task Blocked through this core operation has a null `blocked_on` and sits in
no mutex wait queue (there are zero mutexes in this reachable state). -/
theorem C5_semaphore_wait_cex :
    Reaches semBlockedState ∧
    1 < semBlockedState.tasks.length ∧
    (taskAt semBlockedState 1).state = .BLOCKED ∧
    (taskAt semBlockedState 1).blocked_on = none ∧
    semBlockedState.mutexes.length = 0 ∧
    1 ∈ (semAt semBlockedState 0).wait_queue :=
  ⟨Reaches.step _ _ (Reaches.step _ _ (Reaches.step _ _
      (Reaches.init .SCHED_PRIORITY true))),
    by decide, by decide, by decide, by decide, by decide⟩

/-- C5 (amended): in every state reachable through the disciplined mutex API
(`WfOp`: blocking only through `mutex_lock` by a valid, non-idle, Ready or
Running, non-owner task within the wait-queue capacity; the raw state hook,
suspension and the semaphore operations are excluded), every Blocked task T
has `blocked_on = some M` for a valid mutex M, appears exactly once in M's
wait queue, and appears in no other mutex's wait queue.  `semaphore_wait`
breaks this (see the counterexample): it blocks without setting
`blocked_on` and uses the semaphore's own queue. -/
theorem C5_blocked_unique_mutex_queue (s : Scheduler) (hs : ReachesWf s) :
    ∀ tid, tid < s.tasks.length → (taskAt s tid).state = .BLOCKED →
      ∃ mid, mid < s.mutexes.length ∧ (taskAt s tid).blocked_on = some mid ∧
        (mutexAt s mid).wait_queue.count tid = 1 ∧
        ∀ mid', mid' < s.mutexes.length → mid' ≠ mid →
          tid ∉ (mutexAt s mid').wait_queue := by
  obtain ⟨hq, hw⟩ := reachesWf_invW hs
  intro tid htid hb
  obtain ⟨mid, hmid, hbo, hmem⟩ := hw.2.1 tid htid hb
  refine ⟨mid, hmid, hbo, ?_, ?_⟩
  · exact List.count_eq_one_of_mem (hw.1 mid hmid).2.1 hmem
  · intro mid' hmid' hne hmem'
    have hback := ((hw.1 mid' hmid').2.2.2 tid hmem').2.2
    rw [hbo] at hback
    injection hback with he
    exact hne he.symm

/-- A disciplined run blocking task 2 on mutex 0 (owned by task 1). -/
def c5Demo : Scheduler :=
  applyOp (.lock 0 2) (applyOp (.lock 0 1) (applyOp .mkMutex
    (applyOp (.create 3 0 0 5) (applyOp (.create 5 0 0 5)
      (scheduler_init .SCHED_PRIORITY true)))))

/-- C5 (amended) instantiated at `c5Demo`, blocked task 2. -/
theorem C5_blocked_unique_mutex_queue_witness :
    ∃ mid, mid < c5Demo.mutexes.length ∧ (taskAt c5Demo 2).blocked_on = some mid ∧
      (mutexAt c5Demo mid).wait_queue.count 2 = 1 ∧
      ∀ mid', mid' < c5Demo.mutexes.length → mid' ≠ mid →
        2 ∉ (mutexAt c5Demo mid').wait_queue :=
  C5_blocked_unique_mutex_queue c5Demo
    (ReachesWf.step _ _ (by decide) (ReachesWf.step _ _ (by decide)
      (ReachesWf.step _ _ (by decide) (ReachesWf.step _ _ (by decide)
        (ReachesWf.step _ _ (by decide) (ReachesWf.init .SCHED_PRIORITY true))))))
    2 (by decide) (by decide)

/-- A reachable state in which task 1 locks mutex 0 twice: `mutex_lock` has
no self-lock check, so the owner blocks behind itself. -/
def selfLockState : Scheduler :=
  applyOp (.lock 0 1) (applyOp (.lock 0 1) (applyOp .mkMutex
    (applyOp (.create 5 0 0 5) (scheduler_init .SCHED_PRIORITY true))))

/-- Counterexample to C6 as stated: after task 1 locks mutex 0 twice, it is
simultaneously the owner of mutex 0 and Blocked in its own wait queue, so
the blocked_on/owner chain reaches a cycle of length one — self-lock is not
disallowed by the code. -/
theorem C6_self_lock_cex :
    Reaches selfLockState ∧
    (mutexAt selfLockState 0).owner = some 1 ∧
    1 ∈ (mutexAt selfLockState 0).wait_queue ∧
    (taskAt selfLockState 1).state = .BLOCKED ∧
    (taskAt selfLockState 1).blocked_on = some 0 :=
  ⟨Reaches.step _ _ (Reaches.step _ _ (Reaches.step _ _ (Reaches.step _ _
      (Reaches.init .SCHED_PRIORITY true)))),
    by decide, by decide, by decide, by decide⟩

/-- C6 (amended): in every state reachable through the disciplined mutex
operations (`WfOp`, which in particular forbids a lock request by the
current owner), no task is simultaneously the owner of a mutex and present
in that same mutex's wait queue.  Without the discipline the property is
false, because `mutex_lock` itself never checks for self-lock (see the
counterexample). -/
theorem C6_owner_not_queued (s : Scheduler) (hs : ReachesWf s) :
    ∀ mid, mid < s.mutexes.length → ∀ t, (mutexAt s mid).owner = some t →
      t ∉ (mutexAt s mid).wait_queue := by
  intro mid hmid t hown
  exact ((reachesWf_invW hs).2.1 mid hmid).2.2.1 t hown

/-- A disciplined run in which task 1 owns mutex 0. -/
def c6Demo : Scheduler :=
  applyOp (.lock 0 1) (applyOp .mkMutex
    (applyOp (.create 5 0 0 5) (scheduler_init .SCHED_PRIORITY true)))

/-- C6 (amended) instantiated at `c6Demo`: the owner of mutex 0 is not in
its wait queue. -/
theorem C6_owner_not_queued_witness :
    1 ∉ (mutexAt c6Demo 0).wait_queue :=
  C6_owner_not_queued c6Demo
    (ReachesWf.step _ _ (by decide) (ReachesWf.step _ _ (by decide)
      (ReachesWf.step _ _ (by decide) (ReachesWf.init .SCHED_PRIORITY true))))
    0 (by decide) 1 (by decide)

end RTOS
